import Mathlib

/-! # PD upgrade and pod lifecycle orchestration

A shallow embedding of

* `pkg/manager/member/component_upgrader.go`
  (`ComponentGracefulUpgrade`, `ComponentUpgradePDPod`, `ComponentTransferPDLeaderTo`),
* `pkg/controllers/pd/tasks/pod.go` (`TaskPod`, `preDeleteCheck`, `newPod`),
* `pkg/tiflashapi/v1/client.go` (`GetStoreStatus`),
* `pkg/apis/pingcap/v1alpha1/backup.go` (`GetBackupJobName`, `GetAllLogBackupJobName`,
  `GetCleanOption`, `GetBackupCondition`, `UpdateBackupCondition`,
  `ParseLogBackupSubcommand`, `IsLogSubcommandAlreadySync`),

together with theorems about them.

Conventions.  Go pointers that the code dereferences become `Option`; dereferencing
`none` is the outcome `panic`.  Go maps become association lists (lookup by key; a
`range` loop visits the entries in list order, so the order of the list stands for the
iteration order of that run).  `int32` ordinals are `Int`: the code compares them and
never does arithmetic on them.  Objects mutated through pointers (`tc`, `newSet`, the
reconcile context) are passed in and handed back explicitly.  A pointer that may point
into an object passed alongside it (`condition` of `UpdateBackupCondition`, which may be a
slot of `status.Conditions`) says what it points to, and a write through it is applied to
that object.  Calls on collaborators are appended, in program order, to a list of effects.
-/

set_option autoImplicit false
set_option linter.dupNamespace false

/-! ## Kubernetes core objects (the fields the code reads or writes) -/

namespace corev1

/-- Go `corev1.VolumeSource`: each pointer field is reduced to the one name it carries. -/
structure VolumeSource where
  /-- Field `ConfigMap.LocalObjectReference.Name`. -/
  ConfigMap : Option String
  /-- Field `PersistentVolumeClaim.ClaimName`. -/
  PersistentVolumeClaim : Option String
  /-- Field `Secret.SecretName`. -/
  Secret : Option String
  deriving DecidableEq, Repr

/-- Go `corev1.Volume`. -/
structure Volume where
  Name : String
  VolumeSource : VolumeSource
  deriving DecidableEq, Repr

/-- Go `corev1.VolumeMount`. -/
structure VolumeMount where
  Name : String
  MountPath : String
  ReadOnly : Bool
  deriving DecidableEq, Repr

/-- Go `corev1.ContainerPort`. -/
structure ContainerPort where
  Name : String
  ContainerPort : Int
  deriving DecidableEq, Repr

/-- Go `corev1.Probe` with a `TCPSocket` handler. -/
structure Probe where
  /-- Field `ProbeHandler.TCPSocket.Port`, built by `intstr.FromInt32`. -/
  TCPSocketPort : Int
  InitialDelaySeconds : Int
  deriving DecidableEq, Repr

/-- Go `corev1.ResourceRequirements`, carried as a token: the code only passes it on. -/
structure ResourceRequirements where
  raw : String
  deriving DecidableEq, Repr

/-- Go `corev1.Container`. -/
structure Container where
  Name : String
  Image : String
  ImagePullPolicy : String
  Command : List String
  Ports : List ContainerPort
  VolumeMounts : List VolumeMount
  Resources : ResourceRequirements
  ReadinessProbe : Option Probe
  deriving DecidableEq, Repr

/-- Go `corev1.PodSpec`. -/
structure PodSpec where
  Hostname : String
  Subdomain : String
  NodeSelector : List (String × String)
  Containers : List Container
  Volumes : List Volume
  deriving DecidableEq, Repr

/-- Go `metav1.OwnerReference` as built by `metav1.NewControllerRef`. -/
structure OwnerReference where
  Kind : String
  Name : String
  UID : String
  Controller : Bool
  deriving DecidableEq, Repr

/-- Go `metav1.ObjectMeta`. -/
structure ObjectMeta where
  Namespace : String
  Name : String
  UID : String
  Labels : List (String × String)
  Annotations : List (String × String)
  OwnerReferences : List OwnerReference
  deriving DecidableEq, Repr

/-- Go `corev1.Pod`. -/
structure Pod where
  ObjectMeta : ObjectMeta
  Spec : PodSpec
  deriving DecidableEq, Repr

end corev1

/-! ## `pkg/manager/member/component_upgrader.go` -/

namespace member

open corev1

/-- Go `v1alpha1.PDMember`. -/
structure PDMember where
  Name : String
  Health : Bool
  deriving DecidableEq, Repr

/-- Go `apps.StatefulSetStatus`. -/
structure StatefulSetStatus where
  CurrentRevision : String
  UpdateRevision : String
  deriving DecidableEq, Repr

/-- Go `v1alpha1.PDStatus`.  `Phase` is the string type `MemberPhase`. -/
structure PDStatus where
  Synced : Bool
  Phase : String
  StatefulSet : StatefulSetStatus
  Members : List (String × PDMember)
  PeerMembers : List (String × PDMember)
  Leader : PDMember
  deriving DecidableEq, Repr

/-- Go `v1alpha1.TidbCluster`: name, namespace, `Spec.ClusterDomain`, `Status.PD`. -/
structure TidbCluster where
  Name : String
  Namespace : String
  ClusterDomain : String
  PD : PDStatus
  deriving DecidableEq, Repr

/-- The constant `v1alpha1.UpgradePhase`. -/
def UpgradePhase : String := "Upgrade"

/-- Go `apps.RollingUpdateStatefulSetStrategy`. -/
structure RollingUpdateStatefulSetStrategy where
  Partition : Option Int
  deriving DecidableEq, Repr

/-- Go `apps.StatefulSetUpdateStrategy`; `StrategyType` is its field `Type`. -/
structure StatefulSetUpdateStrategy where
  StrategyType : String
  RollingUpdate : Option RollingUpdateStatefulSetStrategy
  deriving DecidableEq, Repr

/-- The constant `apps.OnDeleteStatefulSetStrategyType`. -/
def OnDeleteStatefulSetStrategyType : String := "OnDelete"

/-- The constant `apps.ControllerRevisionHashLabelKey`. -/
def ControllerRevisionHashLabelKey : String := "controller-revision-hash"

/-- Go `apps.StatefulSet`.  `Spec.Replicas` and the delete-slots annotation are read only
by the advanced-statefulset helper library; the set carries the helper's answer
`helper.GetPodOrdinals(*set.Spec.Replicas, set).List()` as `PodOrdinals`. -/
structure StatefulSet where
  Name : String
  PodOrdinals : List Int
  /-- Field `Spec.Template.Spec`. -/
  TemplateSpec : PodSpec
  /-- Field `Spec.UpdateStrategy`. -/
  UpdateStrategy : StatefulSetUpdateStrategy
  deriving DecidableEq, Repr

/-- Function `helper.GetMaxPodOrdinal` of the advanced-statefulset library (not part of the
repository): the largest pod ordinal, `-1` when there is none. -/
def GetMaxPodOrdinal (set : StatefulSet) : Int :=
  set.PodOrdinals.foldl (fun m k => if k > m then k else m) (-1)

/-- Function `helper.GetMinPodOrdinal` of the advanced-statefulset library (not part of the
repository): the smallest pod ordinal, `-1` when there is none. -/
def GetMinPodOrdinal (set : StatefulSet) : Int :=
  set.PodOrdinals.foldl (fun m k => if m = -1 ∨ k < m then k else m) (-1)

/-- Modelled from the spec: `setUpgradePartition` (in the package, not in the file) "sets
the partition" / "advances the partition to include exactly this ordinal": the set gets a
rolling-update policy whose partition is the given ordinal. -/
def setUpgradePartition (set : StatefulSet) (upgradeOrdinal : Int) : StatefulSet :=
  { set with UpdateStrategy :=
      { set.UpdateStrategy with RollingUpdate := some { Partition := some upgradeOrdinal } } }

/-- Functions of the repository that the file calls and that live in other files; they are
parameters of the model. -/
structure Helpers where
  /-- Function `PdName(tcName, ordinal, namespace, clusterDomain)`. -/
  PdName : String → Int → String → String → String
  /-- Function `PdPodName(tcName, ordinal)`. -/
  PdPodName : String → Int → String
  /-- Method `tc.PDScaling()`. -/
  PDScaling : TidbCluster → Bool
  /-- Method `tc.PDStsActualReplicas()`. -/
  PDStsActualReplicas : TidbCluster → Int
  /-- Function `templateEqual(new, old)`. -/
  templateEqual : StatefulSet → StatefulSet → Bool
  /-- Function `GetLastAppliedConfig(set)`: its pod spec, or its error. -/
  GetLastAppliedConfig : StatefulSet → Except String PodSpec

/-- Go `context.dependencies`: the collaborators the upgrader calls. -/
structure Dependencies where
  /-- Call `PodLister.Pods(ns).Get(podName)`. -/
  PodLister : String → String → Except String Pod
  /-- Field `CLIConfig.PodWebhookEnabled`. -/
  PodWebhookEnabled : Bool
  /-- Call `controller.GetPDClient(PDControl, tc).TransferPDLeader(targetName)`;
  `none` is a nil error. -/
  TransferPDLeader : TidbCluster → String → Option String

/-- Calls and writes of one run, in program order. -/
inductive Effect
  | getPod (ns podName : String)
  | setUpgradePartition (ordinal : Int)
  | transferPDLeader (targetName : String)
  deriving DecidableEq, Repr

/-- The error values the upgrader returns, one constructor per return site. -/
inductive UpgradeError
  /-- Line 38, `fmt.Errorf`: pd status sync failed. -/
  | syncFailed
  /-- Line 45: the error of `GetLastAppliedConfig`. -/
  | lastAppliedConfig (cause : String)
  /-- Line 77, `fmt.Errorf`: failed to get the pod. -/
  | getPodFailed (podName cause : String)
  /-- Line 82, `controller.RequeueErrorf`: the pod has no revision label. -/
  | noRevisionLabel (podName : String)
  /-- Line 87, `controller.RequeueErrorf`: the upgraded pod is not ready. -/
  | upgradedPodNotReady (podName : String)
  /-- Line 134: the error of the transfer call. -/
  | transferFailed (cause : String)
  /-- Line 137, `controller.RequeueErrorf`: the leader is being transferred. -/
  | transferringLeader (upgradePdName targetName : String)
  deriving DecidableEq, Repr

/-- Whether the error was built by `controller.RequeueErrorf`. -/
def UpgradeError.isRequeue : UpgradeError → Bool
  | .noRevisionLabel _ => true
  | .upgradedPodNotReady _ => true
  | .transferringLeader _ _ => true
  | _ => false

/-- How a call ends: it returns an error value (`none` is nil) or panics on a nil
pointer. -/
inductive Outcome
  | ret (err : Option UpgradeError)
  | panic
  deriving DecidableEq, Repr

/-- The objects a run mutates through pointers, and the effects issued so far. -/
structure World where
  tc : TidbCluster
  newSet : StatefulSet
  effects : List Effect
  deriving DecidableEq, Repr

/-- Lines 144-150. -/
def ComponentTransferPDLeaderTo (d : Dependencies) (tc : TidbCluster) (targetName : String) :
    Option String :=
  d.TransferPDLeader tc targetName

/-- Lines 114-117 of `ComponentUpgradePDPod`: the value of `targetOrdinal`. -/
def selectTargetOrdinal (newSet : StatefulSet) (ordinal : Int) : Int :=
  let targetOrdinal := GetMaxPodOrdinal newSet
  if ordinal = targetOrdinal then GetMinPodOrdinal newSet else targetOrdinal

/-- Lines 112-129 of `ComponentUpgradePDPod`: the value of `targetName` when the ordinal
is the leader. -/
def selectTargetName (h : Helpers) (tc : TidbCluster) (newSet : StatefulSet) (ordinal : Int) :
    String :=
  let tcName := tc.Name
  let upgradePdName := h.PdName tcName ordinal tc.Namespace tc.ClusterDomain
  if h.PDStsActualReplicas tc > 1 then
    let targetOrdinal := selectTargetOrdinal newSet ordinal
    let targetName := h.PdName tcName targetOrdinal tc.Namespace tc.ClusterDomain
    if (tc.PD.Members.lookup targetName).isSome then targetName
    else h.PdPodName tcName targetOrdinal
  else
    match tc.PD.PeerMembers.find? (fun kv => kv.2.Name != upgradePdName && kv.2.Health) with
    | some kv => kv.2.Name
    | none => ""

/-- Line 111: the ordinal is the current leader. -/
def isLeaderOrdinal (h : Helpers) (tc : TidbCluster) (ordinal : Int) : Bool :=
  tc.PD.Leader.Name == h.PdName tc.Name ordinal tc.Namespace tc.ClusterDomain
    || tc.PD.Leader.Name == h.PdPodName tc.Name ordinal

/-- Lines 103-142. -/
def ComponentUpgradePDPod (h : Helpers) (d : Dependencies) (ordinal : Int) (w : World) :
    Outcome × World :=
  let tc := w.tc
  let upgradePdName := h.PdName tc.Name ordinal tc.Namespace tc.ClusterDomain
  let fallThrough : Outcome × World :=
    (.ret none, { w with newSet := setUpgradePartition w.newSet ordinal,
                         effects := w.effects ++ [.setUpgradePartition ordinal] })
  if isLeaderOrdinal h tc ordinal then
    let targetName := selectTargetName h tc w.newSet ordinal
    if targetName.length > 0 then
      let w1 := { w with effects := w.effects ++ [.transferPDLeader targetName] }
      match ComponentTransferPDLeaderTo d tc targetName with
      | some err => (.ret (some (.transferFailed err)), w1)
      | none => (.ret (some (.transferringLeader upgradePdName targetName)), w1)
    else fallThrough
  else fallThrough

/-- Lines 72-98: the body of the loop, run over the ordinals still to visit (highest
first); an empty list is the exit of the loop (line 100). -/
def upgradeLoop (h : Helpers) (d : Dependencies) : List Int → World → Outcome × World
  | [], w => (.ret none, w)
  | i :: rest, w =>
    let tc := w.tc
    let ns := tc.Namespace
    let podName := h.PdPodName tc.Name i
    let w1 := { w with effects := w.effects ++ [.getPod ns podName] }
    match d.PodLister ns podName with
    | .error err => (.ret (some (.getPodFailed podName err)), w1)
    | .ok pod =>
      match pod.ObjectMeta.Labels.lookup ControllerRevisionHashLabelKey with
      | none => (.ret (some (.noRevisionLabel podName)), w1)
      | some revision =>
        if revision = tc.PD.StatefulSet.UpdateRevision then
          match tc.PD.Members.lookup (h.PdName tc.Name i tc.Namespace tc.ClusterDomain) with
          | none => (.ret (some (.upgradedPodNotReady podName)), w1)
          | some member =>
            if !member.Health then (.ret (some (.upgradedPodNotReady podName)), w1)
            else upgradeLoop h d rest w1
        else if d.PodWebhookEnabled then
          (.ret none, { w1 with newSet := setUpgradePartition w1.newSet i,
                                effects := w1.effects ++ [.setUpgradePartition i] })
        else ComponentUpgradePDPod h d i w1

/-- Line 51: the cluster after `tc.Status.PD.Phase = v1alpha1.UpgradePhase`. -/
def markUpgrading (tc : TidbCluster) : TidbCluster :=
  { tc with PD := { tc.PD with Phase := UpgradePhase } }

/-- Lines 30-101. -/
def ComponentGracefulUpgrade (h : Helpers) (d : Dependencies) (oldSet : StatefulSet)
    (w : World) : Outcome × World :=
  if !w.tc.PD.Synced then (.ret (some .syncFailed), w)
  else if h.PDScaling w.tc then
    match h.GetLastAppliedConfig oldSet with
    | .error err => (.ret (some (.lastAppliedConfig err)), w)
    | .ok podSpec => (.ret none, { w with newSet := { w.newSet with TemplateSpec := podSpec } })
  else
    let w1 := { w with tc := markUpgrading w.tc }
    if !h.templateEqual w1.newSet oldSet then (.ret none, w1)
    else if w1.tc.PD.StatefulSet.UpdateRevision = w1.tc.PD.StatefulSet.CurrentRevision then
      (.ret none, w1)
    else if oldSet.UpdateStrategy.StrategyType = OnDeleteStatefulSetStrategyType
        ∨ oldSet.UpdateStrategy.RollingUpdate = none then
      (.ret none, { w1 with newSet := { w1.newSet with UpdateStrategy := oldSet.UpdateStrategy } })
    else
      match oldSet.UpdateStrategy.RollingUpdate with
      | none => (.panic, w1)
      | some rollingUpdate =>
        match rollingUpdate.Partition with
        | none => (.panic, w1)
        | some partition =>
          upgradeLoop h d oldSet.PodOrdinals.reverse
            { w1 with newSet := setUpgradePartition w1.newSet partition,
                      effects := w1.effects ++ [.setUpgradePartition partition] }

/-- The revision label of the pod that the lister returns for the ordinal, when the pod is
found and labelled (lines 74-80). -/
def podRevision (h : Helpers) (d : Dependencies) (tc : TidbCluster) (i : Int) : Option String :=
  match d.PodLister tc.Namespace (h.PdPodName tc.Name i) with
  | .ok pod => pod.ObjectMeta.Labels.lookup ControllerRevisionHashLabelKey
  | .error _ => none

/-- The ordinal has a member entry with `Health = true` (line 86). -/
def memberHealthy (h : Helpers) (tc : TidbCluster) (i : Int) : Bool :=
  match tc.PD.Members.lookup (h.PdName tc.Name i tc.Namespace tc.ClusterDomain) with
  | some member => member.Health
  | none => false

/-- The ordinal is one the loop skips: its pod has the update revision and its member is
healthy (lines 85-90). -/
def ordinalUpgraded (h : Helpers) (d : Dependencies) (tc : TidbCluster) (i : Int) : Bool :=
  podRevision h d tc i == some tc.PD.StatefulSet.UpdateRevision && memberHealthy h tc i

/-- The pod of the ordinal carries a revision label that differs from the update
revision. -/
def ordinalOutdated (h : Helpers) (d : Dependencies) (tc : TidbCluster) (i : Int) : Bool :=
  match podRevision h d tc i with
  | some revision => revision != tc.PD.StatefulSet.UpdateRevision
  | none => false

/-- The checks of lines 37-68 all pass and line 70 reads partition `p`: the run enters the
ordinal loop. -/
def reachesLoop (h : Helpers) (oldSet : StatefulSet) (w : World) (p : Int) : Prop :=
  w.tc.PD.Synced = true
    ∧ h.PDScaling w.tc = false
    ∧ h.templateEqual w.newSet oldSet = true
    ∧ w.tc.PD.StatefulSet.UpdateRevision ≠ w.tc.PD.StatefulSet.CurrentRevision
    ∧ oldSet.UpdateStrategy.StrategyType ≠ OnDeleteStatefulSetStrategyType
    ∧ oldSet.UpdateStrategy.RollingUpdate = some { Partition := some p }

instance (h : Helpers) (oldSet : StatefulSet) (w : World) (p : Int) :
    Decidable (reachesLoop h oldSet w p) := by
  unfold reachesLoop
  exact inferInstance

/-- Modelled from the spec: a member's identity is "(group name, ordinal, namespace)", and
`PdName` and `PdPodName` (in the package, not in the file) name a member after its
ordinal.  The predicate says that neither name of ordinal `j` is a name of ordinal `i`. -/
def namesDiffer (h : Helpers) (tc : TidbCluster) (i j : Int) : Prop :=
  h.PdName tc.Name j tc.Namespace tc.ClusterDomain
      ≠ h.PdName tc.Name i tc.Namespace tc.ClusterDomain
    ∧ h.PdName tc.Name j tc.Namespace tc.ClusterDomain ≠ h.PdPodName tc.Name i
    ∧ h.PdPodName tc.Name j ≠ h.PdName tc.Name i tc.Namespace tc.ClusterDomain
    ∧ h.PdPodName tc.Name j ≠ h.PdPodName tc.Name i

instance (h : Helpers) (tc : TidbCluster) (i j : Int) : Decidable (namesDiffer h tc i j) := by
  unfold namesDiffer
  exact inferInstance

/-- The run ends with the requeue error `e` and has issued no leader transfer; the
partition of `newSet` is `p`, the partition of `oldSet` that line 70 copies, and no other
partition was written. -/
def requeuesAtPartition (h : Helpers) (d : Dependencies) (oldSet : StatefulSet) (w : World)
    (p : Int) (e : UpgradeError) : Prop :=
  (ComponentGracefulUpgrade h d oldSet w).1 = .ret (some e)
    ∧ e.isRequeue = true
    ∧ (∀ t, Effect.transferPDLeader t
        ∉ (ComponentGracefulUpgrade h d oldSet w).2.effects.drop w.effects.length)
    ∧ oldSet.UpdateStrategy.RollingUpdate = some { Partition := some p }
    ∧ (ComponentGracefulUpgrade h d oldSet w).2.newSet.UpdateStrategy.RollingUpdate
        = some { Partition := some p }
    ∧ (∀ j, Effect.setUpgradePartition j
        ∈ (ComponentGracefulUpgrade h d oldSet w).2.effects.drop w.effects.length → j = p)

/-- Lines 26-28. -/
def ComponentUpgrade (h : Helpers) (d : Dependencies) (oldSet : StatefulSet) (w : World) :
    Outcome × World :=
  ComponentGracefulUpgrade h d oldSet w

end member

/-! ## `pkg/controllers/pd/tasks/pod.go` -/

namespace tasks

open corev1

/-- Go `v1alpha1.Volume` of a PD spec: the fields `newPod` reads. -/
structure PDVolume where
  Name : String
  Path : String
  deriving DecidableEq, Repr

/-- The pod overlay of a PD spec, carried as a token: only `overlay.OverlayPod` reads it. -/
structure PodOverlay where
  raw : String
  deriving DecidableEq, Repr

/-- Go `v1alpha1.PD` (core API): metadata and the fields of `Spec` that `newPod` reads. -/
structure PD where
  Namespace : String
  Name : String
  UID : String
  Labels : List (String × String)
  Annotations : List (String × String)
  Volumes : List PDVolume
  Subdomain : String
  Topology : List (String × String)
  Image : String
  Version : String
  /-- Field `Spec.Resources`, carried as a token. -/
  Resources : String
  /-- Field `Spec.Overlay`, a pointer; the value is its field `Pod`. -/
  Overlay : Option PodOverlay
  deriving DecidableEq, Repr

/-- Go `v1alpha1.Cluster`, carried as a token: the code reads it through methods only. -/
structure Cluster where
  Name : String
  deriving DecidableEq, Repr

/-- Go `v1alpha1.PDGroup`: `Spec.ConfigUpdateStrategy` is read directly. -/
structure PDGroup where
  Name : String
  ConfigUpdateStrategy : String
  deriving DecidableEq, Repr

/-- Go `k8s.CompareResult`. -/
inductive CompareResult
  | CompareResultNoChange
  | CompareResultUpdate
  | CompareResultRecreate
  deriving DecidableEq, Repr

/-- Constants of package `v1alpha1` used by the file; their values are parameters. -/
structure Consts where
  VolumeNameConfig : String
  DirNameConfigPD : String
  ConfigFileName : String
  NamePrefix : String
  LabelKeyGroup : String
  LabelKeyInstance : String
  LabelKeyConfigHash : String
  AnnoKeyInitialClusterNum : String
  PDClusterTLSVolumeName : String
  PDClusterTLSMountPath : String
  ClusterTLSClientVolumeName : String
  ClusterTLSClientMountPath : String
  ContainerNamePD : String
  PDPortNameClient : String
  PDPortNamePeer : String
  ConfigUpdateStrategyRollingUpdate : String

/-- Functions of other packages that the file calls; they are parameters of the model. -/
structure Helpers where
  /-- Function `ConfigMapName(pdName)`. -/
  ConfigMapName : String → String
  /-- Function `PersistentVolumeClaimName(pdName, volName)`. -/
  PersistentVolumeClaimName : String → String → String
  /-- Method `cluster.IsTLSClusterEnabled()`. -/
  IsTLSClusterEnabled : Cluster → Bool
  /-- Method `cluster.TLSClusterSecretName(groupName)`. -/
  TLSClusterSecretName : Cluster → String → String
  /-- Method `cluster.ClusterClientTLSSecretName()`. -/
  ClusterClientTLSSecretName : Cluster → String
  /-- Method `pdg.MountClusterClientSecret()`. -/
  MountClusterClientSecret : PDGroup → Bool
  /-- Method `pd.GetClientPort()`. -/
  GetClientPort : PD → Int
  /-- Method `pd.GetPeerPort()`. -/
  GetPeerPort : PD → Int
  /-- Call `image.PD.Image(pd.Spec.Image, pd.Spec.Version)`. -/
  Image : String → String → String
  /-- Function `filepath.Join` on two elements. -/
  Join : String → String → String
  /-- Function `k8s.GetResourceRequirements`. -/
  GetResourceRequirements : String → ResourceRequirements
  /-- Function `overlay.OverlayPod(pod, overlay)`; the result is the pod after the call. -/
  OverlayPod : Pod → PodOverlay → Pod
  /-- Function `k8s.CalculateHashAndSetLabels(pod)`; the result is the pod after the call. -/
  CalculateHashAndSetLabels : Pod → Pod
  /-- Function `k8s.ComparePods(current, expected)`. -/
  ComparePods : Pod → Pod → CompareResult
  /-- Function `statefulset.IsPodReady(pod)`. -/
  IsPodReady : Pod → Bool
  /-- Function `LongestHealthPeer(pd, peers)`: a peer name, or the empty string. -/
  LongestHealthPeer : PD → List PD → String

/-- Modelled from the spec: `maputil.Copy` (package `utils/map`, not among the files): a
copy of the map. -/
def mapCopy (m : List (String × String)) : List (String × String) := m

/-- Modelled from the spec: `maputil.Merge` (package `utils/map`, not among the files),
used to "stamp" the pod with the instance and configuration-hash labels: the entries of
the first map whose key the second map does not hold, then the entries of the second. -/
def mapMerge (a b : List (String × String)) : List (String × String) :=
  a.filter (fun kv => !(b.any (fun kv2 => kv2.1 == kv.1))) ++ b

/-- Go builtin `delete(m, key)`. -/
def mapDelete (m : List (String × String)) (key : String) : List (String × String) :=
  m.filter (fun kv => !(kv.1 == key))

/-- Go map index `m[key]` on a string-valued map: the zero value when the key is absent. -/
def mapIndex (m : List (String × String)) (key : String) : String :=
  (m.lookup key).getD ""

/-- The constant `defaultReadinessProbeInitialDelaySeconds`. -/
def defaultReadinessProbeInitialDelaySeconds : Int := 5

/-- Lines 261-270. -/
def buildPDReadinessProbe (port : Int) : Probe :=
  { TCPSocketPort := port, InitialDelaySeconds := defaultReadinessProbeInitialDelaySeconds }

/-- Lines 151-169: the loop over `pd.Spec.Volumes`, appending to `vols` and `mounts`. -/
def appendPDVolumes (k : Consts) (h : Helpers) (pdName : String) :
    List PDVolume → List Volume × List VolumeMount → List Volume × List VolumeMount
  | [], acc => acc
  | vol :: rest, (vols, mounts) =>
    let name := k.NamePrefix ++ "pd"
    let name := if vol.Name ≠ "" then name ++ "-" ++ vol.Name else name
    appendPDVolumes k h pdName rest
      (vols ++ [{ Name := name,
                  VolumeSource := { ConfigMap := none,
                                    PersistentVolumeClaim :=
                                      some (h.PersistentVolumeClaimName pdName vol.Name),
                                    Secret := none } }],
       mounts ++ [{ Name := name, MountPath := vol.Path, ReadOnly := false }])

/-- Lines 130-259. -/
def newPod (k : Consts) (h : Helpers) (cluster : Cluster) (pdg : PDGroup) (pd : PD)
    (configHash : String) : Pod :=
  let vols : List Volume :=
    [{ Name := k.VolumeNameConfig,
       VolumeSource := { ConfigMap := some (h.ConfigMapName pd.Name),
                         PersistentVolumeClaim := none, Secret := none } }]
  let mounts : List VolumeMount :=
    [{ Name := k.VolumeNameConfig, MountPath := k.DirNameConfigPD, ReadOnly := false }]
  let vm := appendPDVolumes k h pd.Name pd.Volumes (vols, mounts)
  let vm : List Volume × List VolumeMount :=
    if h.IsTLSClusterEnabled cluster then
      let groupName := mapIndex pd.Labels k.LabelKeyGroup
      let vm1 : List Volume × List VolumeMount :=
        (vm.1 ++ [{ Name := k.PDClusterTLSVolumeName,
                    VolumeSource := { ConfigMap := none, PersistentVolumeClaim := none,
                                      Secret := some (h.TLSClusterSecretName cluster groupName) } }],
         vm.2 ++ [{ Name := k.PDClusterTLSVolumeName, MountPath := k.PDClusterTLSMountPath,
                    ReadOnly := true }])
      if h.MountClusterClientSecret pdg then
        (vm1.1 ++ [{ Name := k.ClusterTLSClientVolumeName,
                     VolumeSource := { ConfigMap := none, PersistentVolumeClaim := none,
                                       Secret := some (h.ClusterClientTLSSecretName cluster) } }],
         vm1.2 ++ [{ Name := k.ClusterTLSClientVolumeName,
                     MountPath := k.ClusterTLSClientMountPath, ReadOnly := true }])
      else vm1
    else vm
  let anno := mapDelete (mapCopy pd.Annotations) k.AnnoKeyInitialClusterNum
  let pod : Pod :=
    { ObjectMeta :=
        { Namespace := pd.Namespace
          Name := pd.Name
          UID := ""
          Labels := mapMerge pd.Labels
            [(k.LabelKeyInstance, pd.Name), (k.LabelKeyConfigHash, configHash)]
          Annotations := anno
          OwnerReferences := [{ Kind := "PD", Name := pd.Name, UID := pd.UID,
                                Controller := true }] }
      Spec :=
        { Hostname := pd.Name
          Subdomain := pd.Subdomain
          NodeSelector := pd.Topology
          Containers :=
            [{ Name := k.ContainerNamePD
               Image := h.Image pd.Image pd.Version
               ImagePullPolicy := "IfNotPresent"
               Command := ["/pd-server", "--config", h.Join k.DirNameConfigPD k.ConfigFileName]
               Ports := [{ Name := k.PDPortNameClient, ContainerPort := h.GetClientPort pd },
                         { Name := k.PDPortNamePeer, ContainerPort := h.GetPeerPort pd }]
               VolumeMounts := vm.2
               Resources := h.GetResourceRequirements pd.Resources
               ReadinessProbe := some (buildPDReadinessProbe (h.GetClientPort pd)) }]
          Volumes := vm.1 } }
  let pod := match pd.Overlay with
    | some o => h.OverlayPod pod o
    | none => pod
  h.CalculateHashAndSetLabels pod

/-- Go `task.Result`: its status. -/
inductive Status
  | Complete
  | Wait
  | Retry
  | Fail
  deriving DecidableEq, Repr

/-- Go `task.Result` as built by `task.Complete()`, `task.Wait()`, `task.Fail()` and
`.With(format, args)`. -/
structure Result where
  Status : Status
  Message : String
  deriving DecidableEq, Repr

/-- Go `ReconcileContext`: the fields the task reads or writes. -/
structure ReconcileContext where
  Cluster : tasks.Cluster
  PDGroup : tasks.PDGroup
  PD : tasks.PD
  ConfigHash : String
  Pod : Option corev1.Pod
  Peers : List tasks.PD
  Healthy : Bool
  IsLeader : Bool
  PodIsTerminating : Bool
  deriving DecidableEq, Repr

/-- Modelled from the spec: `ctx.SetPod` (a method of the context, not in the file): the
pod of the context becomes the given pod. -/
def ReconcileContext.SetPod (ctx : ReconcileContext) (pod : corev1.Pod) : ReconcileContext :=
  { ctx with Pod := some pod }

/-- The platform client `c` and the PD client `ctx.PDClient`: how each call answers. -/
structure Clients where
  /-- Call `c.Apply(ctx, obj)`: the object after the call (spec: `apply(object) -> object`),
  or the error. -/
  Apply : Pod → Except String Pod
  /-- Call `c.Delete(ctx, obj)`; `none` is a nil error. -/
  Delete : Pod → Option String
  /-- Call `pdc.Underlay().TransferPDLeader(ctx, peer)`; `none` is a nil error. -/
  TransferPDLeader : String → Option String

/-- Calls on the collaborators of one run, in program order. -/
inductive Effect
  | Refresh
  | Apply (pod : Pod)
  | Delete (pod : Pod)
  | TransferPDLeader (peer : String)
  deriving DecidableEq, Repr

/-- Lines 102-128: the pair `(wait, err)` and the calls issued. -/
def preDeleteCheck (h : Helpers) (c : Clients) (pd : PD) (peers : List PD) (isLeader : Bool) :
    (Bool × Option String) × List Effect :=
  if isLeader then
    let peer := h.LongestHealthPeer pd peers
    if peer = "" then ((false, some "no healthy transferee available"), [])
    else
      match c.TransferPDLeader peer with
      | some err => ((false, some ("transfer leader failed: " ++ err)), [.TransferPDLeader peer])
      | none => ((true, none), [.TransferPDLeader peer])
  else ((false, none), [])

/-- Lines 81-89: delete the observed pod. -/
def deletePod (c : Clients) (ctx : ReconcileContext) (pod : Pod) (effects : List Effect) :
    Result × ReconcileContext × List Effect :=
  match c.Delete pod with
  | some err =>
    ({ Status := .Fail, Message := "can\x27t delete pod of pd: " ++ err }, ctx,
      effects ++ [.Delete pod])
  | none =>
    ({ Status := .Complete, Message := "pod is deleting" },
      { ctx with PodIsTerminating := true }, effects ++ [.Delete pod])

/-- Lines 42-100: the body of the task function. -/
def TaskPod (k : Consts) (h : Helpers) (c : Clients) (ctx : ReconcileContext) :
    Result × ReconcileContext × List Effect :=
  let expected := newPod k h ctx.Cluster ctx.PDGroup ctx.PD ctx.ConfigHash
  match ctx.Pod with
  | none =>
    if ctx.Healthy then
      ({ Status := .Wait, Message := "wait until pd\x27s status becomes unhealthy" }, ctx,
        [.Refresh])
    else
      match c.Apply expected with
      | .error err =>
        ({ Status := .Fail, Message := "can\x27t create pod of pd: " ++ err }, ctx,
          [.Apply expected])
      | .ok applied =>
        ({ Status := .Complete, Message := "pod is synced" }, ctx.SetPod applied,
          [.Apply expected])
  | some pod =>
    let res := h.ComparePods pod expected
    let curHash := mapIndex pod.ObjectMeta.Labels k.LabelKeyConfigHash
    let expectHash := mapIndex expected.ObjectMeta.Labels k.LabelKeyConfigHash
    let configChanged := curHash != expectHash
    if res = .CompareResultRecreate
        ∨ (configChanged = true
            ∧ ctx.PDGroup.ConfigUpdateStrategy = k.ConfigUpdateStrategyRollingUpdate) then
      if ctx.Healthy = true ∨ h.IsPodReady pod = true then
        match preDeleteCheck h c ctx.PD ctx.Peers ctx.IsLeader with
        | ((_, some err), effects) =>
          ({ Status := .Fail, Message := "can\x27t delete pod of pd: " ++ err }, ctx, effects)
        | ((true, none), effects) =>
          ({ Status := .Wait, Message := "wait for pd leader being transferred" }, ctx, effects)
        | ((false, none), effects) => deletePod c ctx pod effects
      else deletePod c ctx pod []
    else if res = .CompareResultUpdate then
      match c.Apply expected with
      | .error err =>
        ({ Status := .Fail, Message := "can\x27t apply pod of pd: " ++ err }, ctx,
          [.Apply expected])
      | .ok applied =>
        ({ Status := .Complete, Message := "pod is synced" }, ctx.SetPod applied,
          [.Apply expected])
    else ({ Status := .Complete, Message := "pod is synced" }, ctx, [])

/-- Lines 60-66: the condition under which the observed pod is deleted to be created
anew: `ComparePods` yields `Recreate`, or the configuration-hash labels of the observed
and the expected pod differ and the group's `ConfigUpdateStrategy` is `RollingUpdate`. -/
def needsRecreate (k : Consts) (h : Helpers) (ctx : ReconcileContext) (pod : Pod) : Prop :=
  h.ComparePods pod (newPod k h ctx.Cluster ctx.PDGroup ctx.PD ctx.ConfigHash)
      = .CompareResultRecreate
    ∨ ((mapIndex pod.ObjectMeta.Labels k.LabelKeyConfigHash
          != mapIndex (newPod k h ctx.Cluster ctx.PDGroup ctx.PD ctx.ConfigHash).ObjectMeta.Labels
              k.LabelKeyConfigHash) = true
        ∧ ctx.PDGroup.ConfigUpdateStrategy = k.ConfigUpdateStrategyRollingUpdate)

instance (k : Consts) (h : Helpers) (ctx : ReconcileContext) (pod : Pod) :
    Decidable (needsRecreate k h ctx pod) := by
  unfold needsRecreate
  exact inferInstance

/-- Modelled from the spec: `k8s.ComparePods` (package `utils/k8s`, not among the files)
classifies a difference in a non-identity label, such as the configuration hash, as
`NeedsInPlaceUpdate`: it answers `NoChange` only for pods whose configuration-hash labels
agree. -/
def comparePodsSeesConfigHash (k : Consts) (h : Helpers) : Prop :=
  ∀ current expected : Pod, h.ComparePods current expected = .CompareResultNoChange →
    mapIndex current.ObjectMeta.Labels k.LabelKeyConfigHash
      = mapIndex expected.ObjectMeta.Labels k.LabelKeyConfigHash

/-- The number of mutating calls on the platform client (`Apply` or `Delete`) among the
effects of a run. -/
def mutatingCalls (effects : List Effect) : Nat :=
  (effects.filter (fun e =>
    match e with
    | .Apply _ => true
    | .Delete _ => true
    | _ => false)).length

/-- The number of leader-transfer requests among the effects of a run. -/
def transferCalls (effects : List Effect) : Nat :=
  (effects.filter (fun e =>
    match e with
    | .TransferPDLeader _ => true
    | _ => false)).length

/-- An assumption on the parameter `CalculateHashAndSetLabels` (the function
`k8s.CalculateHashAndSetLabels` of package `utils/k8s`, not among the files): the call
sets a label under `key` and nothing else of the metadata read here.  On every pod it
keeps the name, the namespace and the label stored under any key other than `key`; what
it stores under `key` is left open. -/
def setsOneLabel (h : Helpers) (key : String) : Prop :=
  ∀ pod : Pod,
    (h.CalculateHashAndSetLabels pod).ObjectMeta.Name = pod.ObjectMeta.Name
      ∧ (h.CalculateHashAndSetLabels pod).ObjectMeta.Namespace = pod.ObjectMeta.Namespace
      ∧ ∀ other : String, other ≠ key →
          (h.CalculateHashAndSetLabels pod).ObjectMeta.Labels.lookup other
            = pod.ObjectMeta.Labels.lookup other

/-- Modelled from the spec: `k8s.CalculateHashAndSetLabels` (package `utils/k8s`, not among
the files) stamps the pod with a hash label, a "durable marker" that is "opaque
otherwise".  The predicate says that, on the given pod, the call leaves the `Spec` (the
volumes and the containers with their mounts) as it is. -/
def hashLabelsKeepSpec (h : Helpers) (pod : Pod) : Prop :=
  (h.CalculateHashAndSetLabels pod).Spec = pod.Spec

/-- The number of TLS volumes that lines 171-202 add: none when cluster TLS is disabled,
one when it is enabled, two when in addition the group mounts the cluster client secret. -/
def tlsVolumeCount (h : Helpers) (cluster : Cluster) (pdg : PDGroup) : Nat :=
  if h.IsTLSClusterEnabled cluster then
    if h.MountClusterClientSecret pdg then 2 else 1
  else 0

end tasks

/-! ## Sample inputs for the pod task -/

namespace tasks

/-- Values for the constants of package `v1alpha1`. -/
def sampleConsts : Consts :=
  { VolumeNameConfig := "config"
    DirNameConfigPD := "/etc/pd"
    ConfigFileName := "config.toml"
    NamePrefix := "pingcap-"
    LabelKeyGroup := "pingcap.com/group"
    LabelKeyInstance := "pingcap.com/instance"
    LabelKeyConfigHash := "pingcap.com/config-hash"
    AnnoKeyInitialClusterNum := "pingcap.com/initial-cluster-num"
    PDClusterTLSVolumeName := "pingcap-pd-tls"
    PDClusterTLSMountPath := "/var/lib/pd-tls"
    ClusterTLSClientVolumeName := "pingcap-cluster-client-tls"
    ClusterTLSClientMountPath := "/var/lib/cluster-client-tls"
    ContainerNamePD := "pd"
    PDPortNameClient := "client"
    PDPortNamePeer := "peer"
    ConfigUpdateStrategyRollingUpdate := "RollingUpdate" }

/-- Helpers of a cluster without TLS: `ComparePods` always answers `compare`, `IsPodReady`
always answers `ready`, and the transferee is the first peer, if any. -/
def sampleHelpers (compare : CompareResult) (ready : Bool) : Helpers :=
  { ConfigMapName := fun pdName => pdName
    PersistentVolumeClaimName := fun pdName volName => volName ++ "-" ++ pdName
    IsTLSClusterEnabled := fun _ => false
    TLSClusterSecretName := fun _ groupName => groupName ++ "-cluster-secret"
    ClusterClientTLSSecretName := fun cluster => cluster.Name ++ "-cluster-client-secret"
    MountClusterClientSecret := fun _ => false
    GetClientPort := fun _ => 2379
    GetPeerPort := fun _ => 2380
    Image := fun image version => image ++ ":" ++ version
    Join := fun dir file => dir ++ "/" ++ file
    GetResourceRequirements := fun raw => { raw := raw }
    OverlayPod := fun pod _ => pod
    CalculateHashAndSetLabels := fun pod => pod
    ComparePods := fun _ _ => compare
    IsPodReady := fun _ => ready
    LongestHealthPeer := fun _ peers =>
      match peers with
      | [] => ""
      | peer :: _ => peer.Name }

/-- Clients whose calls all succeed; `Apply` hands the object back as it is. -/
def sampleClients : Clients :=
  { Apply := fun pod => .ok pod
    Delete := fun _ => none
    TransferPDLeader := fun _ => none }

/-- A PD instance named `name`, with one data volume. -/
def samplePD (name : String) : PD :=
  { Namespace := "ns", Name := name, UID := "uid-" ++ name
    Labels := [("pingcap.com/group", "pd")]
    Annotations := []
    Volumes := [{ Name := "data", Path := "/var/lib/pd" }]
    Subdomain := "pd-peer", Topology := []
    Image := "pingcap/pd", Version := "v8.1.0", Resources := "", Overlay := none }

/-- An observed pod of `pd-0`, stamped with configuration hash `hash`. -/
def sampleObservedPod (hash : String) : corev1.Pod :=
  { ObjectMeta := { Namespace := "ns", Name := "pd-0", UID := "pod-uid",
                    Labels := [("pingcap.com/instance", "pd-0"),
                               ("pingcap.com/config-hash", hash)],
                    Annotations := [], OwnerReferences := [] }
    Spec := { Hostname := "pd-0", Subdomain := "pd-peer", NodeSelector := [], Containers := [],
              Volumes := [] } }

/-- A reconcile context of `pd-0` with peer `pd-1`, target configuration hash `h2`. -/
def sampleContext (pod : Option corev1.Pod) (healthy isLeader : Bool) : ReconcileContext :=
  { Cluster := { Name := "db" }
    PDGroup := { Name := "pd", ConfigUpdateStrategy := "RollingUpdate" }
    PD := samplePD "pd-0"
    ConfigHash := "h2"
    Pod := pod
    Peers := [samplePD "pd-1"]
    Healthy := healthy
    IsLeader := isLeader
    PodIsTerminating := false }

/-- A comparison that looks at the labels and the annotations only: `NoChange` when both
agree, `Update` otherwise. -/
def sampleComparePods (current expected : corev1.Pod) : CompareResult :=
  if current.ObjectMeta.Labels = expected.ObjectMeta.Labels
      ∧ current.ObjectMeta.Annotations = expected.ObjectMeta.Annotations then
    .CompareResultNoChange
  else .CompareResultUpdate

/-- The helpers of `sampleHelpers`, comparing pods with `sampleComparePods`. -/
def sampleComparingHelpers : Helpers :=
  { sampleHelpers .CompareResultNoChange true with ComparePods := sampleComparePods }

/-- The pod that `newPod` builds for the sample context. -/
def sampleExpectedPod : corev1.Pod :=
  newPod sampleConsts sampleComparingHelpers { Name := "db" }
    { Name := "pd", ConfigUpdateStrategy := "RollingUpdate" } (samplePD "pd-0") "h2"

/-- The helpers of `sampleComparingHelpers` for a cluster with TLS enabled whose groups
mount the cluster client secret. -/
def sampleTLSHelpers : Helpers :=
  { sampleComparingHelpers with
    IsTLSClusterEnabled := fun _ => true
    MountClusterClientSecret := fun _ => true }

/-- The helpers of `sampleComparingHelpers` with a hash stamping that writes the label
`pingcap.com/pod-spec-hash`, here with the value `abc`, as a Go map assignment does. -/
def sampleStampingHelpers : Helpers :=
  { sampleComparingHelpers with
    CalculateHashAndSetLabels := fun pod =>
      { pod with ObjectMeta := { pod.ObjectMeta with Labels := mapMerge pod.ObjectMeta.Labels [("pingcap.com/pod-spec-hash", "abc")] } } }

/-- The PD of `samplePD`, carrying a label of its own under the key
`pingcap.com/pod-spec-hash`. -/
def sampleLabelledPD (name : String) : PD :=
  { samplePD name with
    Labels := [("pingcap.com/group", "pd"), ("pingcap.com/pod-spec-hash", "mine")] }

/-- Clients whose `Apply` and `Delete` fail. -/
def failingClients : Clients :=
  { Apply := fun _ => .error "conflict"
    Delete := fun _ => some "timeout"
    TransferPDLeader := fun _ => some "timeout" }

end tasks

/-! ## Sample inputs -/

namespace member

/-- A pod reduced to its revision label. -/
def samplePod (name revision : String) : corev1.Pod :=
  { ObjectMeta := { Namespace := "ns", Name := name, UID := "",
                    Labels := [(ControllerRevisionHashLabelKey, revision)],
                    Annotations := [], OwnerReferences := [] }
    Spec := { Hostname := name, Subdomain := "", NodeSelector := [], Containers := [],
              Volumes := [] } }

/-- The pod name of ordinals 0, 1 and 2 of cluster `tcName`, after the pattern
`<tcName>-pd-<ordinal>`. -/
def samplePdPodName (tcName : String) (ordinal : Int) : String :=
  tcName ++ "-pd-" ++ (if ordinal = 0 then "0" else if ordinal = 1 then "1" else
    if ordinal = 2 then "2" else "n")

/-- Helpers of a cluster without cluster domain (the PD name is the pod name) that is
not scaling, whose templates are equal and whose statefulset has `replicas` replicas. -/
def sampleHelpers (replicas : Int) : Helpers :=
  { PdName := fun tcName ordinal _ _ => samplePdPodName tcName ordinal
    PdPodName := samplePdPodName
    PDScaling := fun _ => false
    PDStsActualReplicas := fun _ => replicas
    templateEqual := fun _ _ => true
    GetLastAppliedConfig := fun set => .ok set.TemplateSpec }

/-- Collaborators: every pod `db-pd-0`, `db-pd-1`, `db-pd-2` is found, with the given
revision; every transfer succeeds. -/
def sampleDependencies (revision : Int → String) : Dependencies :=
  { PodLister := fun _ podName =>
      if podName = "db-pd-0" then .ok (samplePod podName (revision 0))
      else if podName = "db-pd-1" then .ok (samplePod podName (revision 1))
      else if podName = "db-pd-2" then .ok (samplePod podName (revision 2))
      else .error "not found"
    PodWebhookEnabled := false
    TransferPDLeader := fun _ _ => none }

/-- Cluster `ns/db` in phase `Normal`, synced, rolling from revision `r1` to `r2`, with the
given members, peer members and leader name. -/
def sampleCluster (members peers : List (String × PDMember)) (leader : String) : TidbCluster :=
  { Name := "db", Namespace := "ns", ClusterDomain := ""
    PD := { Synced := true, Phase := "Normal"
            StatefulSet := { CurrentRevision := "r1", UpdateRevision := "r2" }
            Members := members, PeerMembers := peers
            Leader := { Name := leader, Health := true } } }

/-- Three healthy members `db-pd-0`, `db-pd-1`, `db-pd-2`. -/
def threeMembers : List (String × PDMember) :=
  [("db-pd-0", { Name := "db-pd-0", Health := true }),
   ("db-pd-1", { Name := "db-pd-1", Health := true }),
   ("db-pd-2", { Name := "db-pd-2", Health := true })]

/-- A statefulset with the given pod ordinals and rolling-update partition. -/
def sampleSet (ordinals : List Int) (partition : Int) : StatefulSet :=
  { Name := "db-pd", PodOrdinals := ordinals
    TemplateSpec := { Hostname := "", Subdomain := "", NodeSelector := [], Containers := [],
                      Volumes := [] }
    UpdateStrategy := { StrategyType := "RollingUpdate"
                        RollingUpdate := some { Partition := some partition } } }

/-- The collaborators of `sampleDependencies`, with the pod webhook enabled. -/
def sampleWebhookDependencies (revision : Int → String) : Dependencies :=
  { sampleDependencies revision with PodWebhookEnabled := true }

/-- The helpers of `sampleHelpers` for a cluster with a cluster domain: the PD name is the
pod name followed by the peer-service domain. -/
def sampleDomainHelpers (replicas : Int) : Helpers :=
  { PdName := fun tcName ordinal _ _ =>
      samplePdPodName tcName ordinal ++ ".db-pd-peer.ns.svc.cluster.local"
    PdPodName := samplePdPodName
    PDScaling := fun _ => false
    PDStsActualReplicas := fun _ => replicas
    templateEqual := fun _ _ => true
    GetLastAppliedConfig := fun set => .ok set.TemplateSpec }

/-- The naming of the package for ordinals 0, 1 and 2: the pod name is
`<tcName>-pd-<ordinal>`, and the PD name is the pod name, followed by
`.<tcName>-pd-peer.<namespace>.svc.<clusterDomain>` when the cluster has a cluster
domain. -/
def sampleNamingHelpers (replicas : Int) : Helpers :=
  { PdName := fun tcName ordinal ns clusterDomain =>
      if clusterDomain.length > 0 then
        samplePdPodName tcName ordinal ++ "." ++ tcName ++ "-pd-peer." ++ ns ++ ".svc."
          ++ clusterDomain
      else samplePdPodName tcName ordinal
    PdPodName := samplePdPodName
    PDScaling := fun _ => false
    PDStsActualReplicas := fun _ => replicas
    templateEqual := fun _ _ => true
    GetLastAppliedConfig := fun set => .ok set.TemplateSpec }

/-- The cluster of `sampleCluster` with cluster domain `cluster.local`. -/
def sampleDomainCluster (members peers : List (String × PDMember)) (leader : String) :
    TidbCluster :=
  { sampleCluster members peers leader with ClusterDomain := "cluster.local" }

/-- Members `db-pd-0`, `db-pd-1`, `db-pd-2`, the middle one unhealthy. -/
def membersMiddleUnhealthy : List (String × PDMember) :=
  [("db-pd-0", { Name := "db-pd-0", Health := true }),
   ("db-pd-1", { Name := "db-pd-1", Health := false }),
   ("db-pd-2", { Name := "db-pd-2", Health := true })]

/-- Members `db-pd-0`, `db-pd-1`, `db-pd-2`, the last one unhealthy. -/
def membersLastUnhealthy : List (String × PDMember) :=
  [("db-pd-0", { Name := "db-pd-0", Health := true }),
   ("db-pd-1", { Name := "db-pd-1", Health := true }),
   ("db-pd-2", { Name := "db-pd-2", Health := false })]

end member

/-! ## `pkg/tiflashapi/v1/client.go` -/

namespace tiflashapi

/-- Go `type Status string`.  A Go string and a `[]byte` are byte sequences and the
conversion `Status(body)` keeps the bytes; both are `String` here. -/
abbrev Status := String

/-- The constant `storeStatusPath`. -/
def storeStatusPath : String := "tiflash/store-status"

/-- The constant `Idle`. -/
def Idle : Status := "Idle"

/-- The constant `Ready`. -/
def Ready : Status := "Ready"

/-- The constant `Running`. -/
def Running : Status := "Running"

/-- The constant `Stopping`. -/
def Stopping : Status := "Stopping"

/-- The constant `Terminated`. -/
def Terminated : Status := "Terminated"

/-- Go `tiflashClient`: its `url`; the `httpClient` is only handed to the HTTP helper. -/
structure tiflashClient where
  url : String
  deriving DecidableEq, Repr

/-- Lines 74-81.  `GetBodyOK` is the answer of `httputil.GetBodyOK(ctx, c.httpClient, apiURL)`
(a function of another package): the body of the response, or the error.  The result is
the pair `(Status, error)`, `none` being a nil error. -/
def GetStoreStatus (GetBodyOK : String → Except String String) (c : tiflashClient) :
    Status × Option String :=
  let apiURL := c.url ++ "/" ++ storeStatusPath
  match GetBodyOK apiURL with
  | .error err => ("", some err)
  | .ok body => (body, none)

/-- The server of `TestTiFlashControl`: it answers `Ready` on the store-status path of
its own URL. -/
def testServer (serverURL : String) (apiURL : String) : Except String String :=
  if apiURL = serverURL ++ "/tiflash/store-status" then .ok "Ready" else .error "404 Not Found"

end tiflashapi

/-! ## `pkg/apis/pingcap/v1alpha1/backup.go` -/

namespace v1alpha1

/-- Constants of the package that the file uses and that are declared in another file;
their values are parameters. -/
structure Consts where
  BackupModeLog : String
  LogStartCommand : String
  LogStopCommand : String
  LogPauseCommand : String
  LogResumeCommand : String
  LogTruncateCommand : String
  LogUnknownCommand : String
  BackupStopped : String
  BackupPaused : String
  BackupRunning : String
  BackupRestart : String

/-- Go `BackupCondition`: the fields the file reads or writes.  `Type_` is its field `Type`,
`LastTransitionTime` is the instant of a `metav1.Time`. -/
structure BackupCondition where
  Type_ : String
  Status : String
  LastTransitionTime : Nat
  Reason : String
  Message : String
  deriving DecidableEq, Repr

/-- Go `BackupStatus`: the fields the file reads or writes. -/
structure BackupStatus where
  Phase : String
  Conditions : List BackupCondition
  CommitTs : String
  LogSuccessTruncateUntil : String
  deriving DecidableEq, Repr

/-- Go `BatchDeleteOption`; `Rest` stands for the fields the file does not name. -/
structure BatchDeleteOption where
  BatchConcurrency : Int
  RoutineConcurrency : Int
  Rest : String
  deriving DecidableEq, Repr

/-- Go `CleanOption`, which embeds `BatchDeleteOption`; `Rest` stands for the fields the
file does not name. -/
structure CleanOption where
  PageSize : Int
  RetryCount : Int
  BatchDeleteOption : BatchDeleteOption
  Rest : String
  deriving DecidableEq, Repr

/-- Go `BackupSpec`: the fields the modelled functions read. -/
structure BackupSpec where
  Mode : String
  LogSubcommand : String
  LogStop : Bool
  LogTruncateUntil : String
  CleanOption : Option CleanOption
  deriving DecidableEq, Repr

/-- Go `Backup`. -/
structure Backup where
  Name : String
  Spec : BackupSpec
  Status : BackupStatus
  deriving DecidableEq, Repr

/-- Lines 27-30; the fields that the literal leaves out have their zero value. -/
def DefaultBatchDeleteOption : BatchDeleteOption :=
  { BatchConcurrency := 10, RoutineConcurrency := 100, Rest := "" }

/-- Lines 33-37. -/
def defaultCleanOption : CleanOption :=
  { PageSize := 10000, RetryCount := 5, BatchDeleteOption := DefaultBatchDeleteOption,
    Rest := "" }

/-- Lines 439-441. -/
def IsLogBackupAlreadyStop (k : Consts) (backup : Backup) : Bool :=
  backup.Spec.Mode == k.BackupModeLog && backup.Status.Phase == k.BackupStopped

/-- Lines 458-460. -/
def IsLogBackupAlreadyPaused (k : Consts) (backup : Backup) : Bool :=
  backup.Spec.Mode == k.BackupModeLog && backup.Status.Phase == k.BackupPaused

/-- Lines 463-465. -/
def IsLogBackupAlreadyRunning (k : Consts) (backup : Backup) : Bool :=
  backup.Spec.Mode == k.BackupModeLog && backup.Status.Phase == k.BackupRunning

/-- Lines 415-417. -/
def IsLogBackupAlreadyStart (k : Consts) (backup : Backup) : Bool :=
  backup.Spec.Mode == k.BackupModeLog && backup.Status.CommitTs != ""

/-- Lines 365-378; the `switch` takes the first case that matches. -/
def IsLogSubcommandAlreadySync (k : Consts) (backup : Backup) (subCommand : String) : Bool :=
  if subCommand = k.LogStartCommand then IsLogBackupAlreadyStart k backup
  else if subCommand = k.LogStopCommand then IsLogBackupAlreadyStop k backup
  else if subCommand = k.LogPauseCommand then IsLogBackupAlreadyPaused k backup
  else if subCommand = k.LogResumeCommand then IsLogBackupAlreadyRunning k backup
  else false

/-- Lines 333-353 of `ParseLogBackupSubcommand`: the value of `subCommand` after the
`switch`, `none` when the `default` case returns. -/
def baseLogSubcommand (k : Consts) (backup : Backup) : Option String :=
  if backup.Spec.LogSubcommand = "" then
    if backup.Spec.LogStop || IsLogBackupAlreadyStop k backup then some k.LogStopCommand
    else some k.LogStartCommand
  else if backup.Spec.LogSubcommand = k.LogStartCommand then
    if IsLogBackupAlreadyPaused k backup then some k.LogResumeCommand
    else some k.LogStartCommand
  else if backup.Spec.LogSubcommand = k.LogStopCommand then some k.LogStopCommand
  else if backup.Spec.LogSubcommand = k.LogPauseCommand then some k.LogPauseCommand
  else none

/-- Lines 326-361. -/
def ParseLogBackupSubcommand (k : Consts) (backup : Backup) : String :=
  if backup.Spec.Mode != k.BackupModeLog then ""
  else
    match baseLogSubcommand k backup with
    | none => k.LogUnknownCommand
    | some subCommand =>
      if IsLogSubcommandAlreadySync k backup subCommand && backup.Spec.LogTruncateUntil != ""
          && backup.Spec.LogTruncateUntil != backup.Status.LogSuccessTruncateUntil then
        k.LogTruncateCommand
      else subCommand

/-- Lines 51-56; `bk.GetName()` is the name of the object. -/
def Backup.GetBackupJobName (k : Consts) (bk : Backup) : String :=
  let command := ParseLogBackupSubcommand k bk
  if command != "" then "backup-" ++ bk.Name ++ "-" ++ command
  else "backup-" ++ bk.Name

/-- Lines 64-70. -/
def Backup.GetAllLogBackupJobName (k : Consts) (bk : Backup) : List String :=
  ["backup-" ++ bk.Name ++ "-" ++ k.LogStartCommand,
   "backup-" ++ bk.Name ++ "-" ++ k.LogStopCommand,
   "backup-" ++ bk.Name ++ "-" ++ k.LogTruncateCommand]

/-- Lines 93-113.  The option is copied at line 98 and the writes go to the copy; the
second component is the backup after the call. -/
def Backup.GetCleanOption (bk : Backup) : CleanOption × Backup :=
  match bk.Spec.CleanOption with
  | none => (defaultCleanOption, bk)
  | some cleanOption =>
    let ropt := cleanOption
    let ropt := if ropt.PageSize ≤ 0 then
      { ropt with PageSize := defaultCleanOption.PageSize } else ropt
    let ropt := if ropt.RetryCount ≤ 0 then
      { ropt with RetryCount := defaultCleanOption.RetryCount } else ropt
    let ropt := if ropt.BatchDeleteOption.BatchConcurrency ≤ 0 then
      { ropt with BatchDeleteOption := { ropt.BatchDeleteOption with
          BatchConcurrency := defaultCleanOption.BatchDeleteOption.BatchConcurrency } }
      else ropt
    let ropt := if ropt.BatchDeleteOption.RoutineConcurrency ≤ 0 then
      { ropt with BatchDeleteOption := { ropt.BatchDeleteOption with
          RoutineConcurrency := defaultCleanOption.BatchDeleteOption.RoutineConcurrency } }
      else ropt
    (ropt, bk)

/-- Lines 120-125: the loop over `status.Conditions`, from index `i` on. -/
def findBackupCondition (conditionType : String) :
    List BackupCondition → Nat → Int × Option BackupCondition
  | [], _ => (-1, none)
  | condition :: rest, i =>
    if condition.Type_ = conditionType then ((i : Int), some condition)
    else findBackupCondition conditionType rest (i + 1)

/-- Lines 116-126; the returned pointer is the condition it points to. -/
def GetBackupCondition (status : Option BackupStatus) (conditionType : String) :
    Int × Option BackupCondition :=
  match status with
  | none => (-1, none)
  | some status => findBackupCondition conditionType status.Conditions 0

/-- What the pointer `condition` of `UpdateBackupCondition` points to: nothing (nil), a
condition that is not part of the status, or the slot `status.Conditions[i]` of the status
itself, which is the pointer that `GetBackupCondition` hands out at line 122. -/
inductive ConditionPtr
  | nil
  | fresh (condition : BackupCondition)
  | stored (i : Nat)
  deriving DecidableEq, Repr

/-- Reading `*condition`; there is no pointer to a slot that the slice does not have. -/
def ConditionPtr.read (status : BackupStatus) : ConditionPtr → Option BackupCondition
  | .nil => none
  | .fresh condition => some condition
  | .stored i => status.Conditions[i]?

/-- The status after a write `*condition = value` (or a write to a field of `*condition`,
`value` being the condition after it): a write through a pointer to a slot of
`status.Conditions` changes the status, any other write does not. -/
def ConditionPtr.write (status : BackupStatus) (value : BackupCondition) :
    ConditionPtr → BackupStatus
  | .stored i => { status with Conditions := status.Conditions.set i value }
  | _ => status

/-- Lines 131-171.  `now` is the instant that `metav1.Now()` returns.  The result is `none`
when the call panics (a nil `status` is dereferenced at line 139) or the pointer does not
exist, and otherwise the returned boolean with the status and `*condition` as the call
leaves them.  The local `condition` is the value of `*condition`; every write to
`*condition` (lines 135 and 160) is also applied to the status, where it lands when the
pointer is into `status.Conditions`.  `oldCondition` is read at line 137, after the write
of line 135; when it is the same slot as `condition`, the write of line 160 copies a field
onto itself, so the value read at line 137 is still the value of `*oldCondition` at lines
163-166. -/
def UpdateBackupCondition (k : Consts) (now : Nat) (status : Option BackupStatus)
    (condition : ConditionPtr) :
    Option (Bool × Option BackupStatus × Option BackupCondition) :=
  match condition with
  | .nil => some (false, status, none)
  | ptr =>
    match status with
    | none => none
    | some status =>
      match ptr.read status with
      | none => none
      | some condition =>
        let condition := { condition with LastTransitionTime := now }
        let status := ptr.write status condition
        let found := GetBackupCondition (some status) condition.Type_
        let conditionIndex := found.1
        let oldCondition := found.2
        let isDiffPhase := status.Phase != condition.Type_
        let status :=
          if isDiffPhase && condition.Type_ != k.BackupRestart then
            { status with Phase := condition.Type_ }
          else status
        match oldCondition with
        | none =>
          some (true, some { status with Conditions := status.Conditions ++ [condition] },
            some condition)
        | some oldCondition =>
          if isDiffPhase then
            some (true,
              some { status with
                     Conditions := status.Conditions.set conditionIndex.toNat condition },
              some condition)
          else
            let condition :=
              if condition.Status = oldCondition.Status then
                { condition with LastTransitionTime := oldCondition.LastTransitionTime }
              else condition
            let status := ptr.write status condition
            let isUpdate := condition.Status == oldCondition.Status
              && condition.Reason == oldCondition.Reason
              && condition.Message == oldCondition.Message
              && condition.LastTransitionTime == oldCondition.LastTransitionTime
            some (!isUpdate,
              some { status with
                     Conditions := status.Conditions.set conditionIndex.toNat condition },
              some condition)

/-- Line 135: the condition with `LastTransitionTime` set to `metav1.Now()`. -/
def stampNow (now : Nat) (condition : BackupCondition) : BackupCondition :=
  { condition with LastTransitionTime := now }

/-- Lines 139-144: the status after the phase is brought to the type of the condition,
unless the type is `BackupRestart`. -/
def syncPhase (k : Consts) (status : BackupStatus) (condition : BackupCondition) :
    BackupStatus :=
  if status.Phase != condition.Type_ && condition.Type_ != k.BackupRestart then
    { status with Phase := condition.Type_ }
  else status

/-- Lines 159-161: the stamped condition takes the transition time of the old one when
their `Status` agree. -/
def keepTransitionTime (condition oldCondition : BackupCondition) : BackupCondition :=
  if condition.Status = oldCondition.Status then
    { condition with LastTransitionTime := oldCondition.LastTransitionTime }
  else condition

/-- Lines 163-166: the value of `isUpdate`. -/
def sameCondition (condition oldCondition : BackupCondition) : Bool :=
  condition.Status == oldCondition.Status
    && condition.Reason == oldCondition.Reason
    && condition.Message == oldCondition.Message
    && condition.LastTransitionTime == oldCondition.LastTransitionTime

/-- The command constants as the `switch` statements of the file need them to compile: the
cases of lines 335-349 (the empty string, start, stop, pause) are pairwise distinct, and
so are the cases of lines 384-388 (start, stop, pause, resume, truncate). -/
def Consts.distinctCommands (k : Consts) : Prop :=
  ["", k.LogStartCommand, k.LogStopCommand, k.LogPauseCommand].Nodup
    ∧ [k.LogStartCommand, k.LogStopCommand, k.LogPauseCommand, k.LogResumeCommand,
        k.LogTruncateCommand].Nodup

instance (k : Consts) : Decidable k.distinctCommands := by
  unfold Consts.distinctCommands
  exact inferInstance

/-- The base command of a log-mode backup in the words of the specification: for an empty
subcommand, stop if `Spec.LogStop` or the phase is `Stopped`, else start; for start, resume
if the phase is `Paused`, else start; for stop, stop; for pause, pause. -/
def specBaseCommand (k : Consts) (backup : Backup) (c : String) : Prop :=
  (backup.Spec.LogSubcommand = ""
      ∧ c = if backup.Spec.LogStop = true ∨ backup.Status.Phase = k.BackupStopped
            then k.LogStopCommand else k.LogStartCommand)
    ∨ (backup.Spec.LogSubcommand = k.LogStartCommand
      ∧ c = if backup.Status.Phase = k.BackupPaused then k.LogResumeCommand
            else k.LogStartCommand)
    ∨ (backup.Spec.LogSubcommand = k.LogStopCommand ∧ c = k.LogStopCommand)
    ∨ (backup.Spec.LogSubcommand = k.LogPauseCommand ∧ c = k.LogPauseCommand)

instance (k : Consts) (backup : Backup) (c : String) : Decidable (specBaseCommand k backup c) := by
  unfold specBaseCommand
  exact inferInstance

/-- The condition of line 356 in the words of the specification: the base command is
already in sync and `Spec.LogTruncateUntil` is set and differs from
`Status.LogSuccessTruncateUntil`. -/
def specTruncatePending (k : Consts) (backup : Backup) (c : String) : Prop :=
  IsLogSubcommandAlreadySync k backup c = true
    ∧ backup.Spec.LogTruncateUntil ≠ ""
    ∧ backup.Spec.LogTruncateUntil ≠ backup.Status.LogSuccessTruncateUntil

instance (k : Consts) (backup : Backup) (c : String) :
    Decidable (specTruncatePending k backup c) := by
  unfold specTruncatePending
  exact inferInstance

end v1alpha1

/-! ## Sample inputs for the backup API -/

namespace v1alpha1

/-- Values for the constants of the package. -/
def sampleConsts : Consts :=
  { BackupModeLog := "log"
    LogStartCommand := "log-start"
    LogStopCommand := "log-stop"
    LogPauseCommand := "log-pause"
    LogResumeCommand := "log-resume"
    LogTruncateCommand := "log-truncate"
    LogUnknownCommand := "log-unknown"
    BackupStopped := "Stopped"
    BackupPaused := "Paused"
    BackupRunning := "Running"
    BackupRestart := "Restart" }

/-- A backup named `demo` with the given mode and log subcommand, in phase `Running`,
started at commit timestamp `1`. -/
def sampleBackup (mode logSubcommand : String) : Backup :=
  { Name := "demo"
    Spec := { Mode := mode, LogSubcommand := logSubcommand, LogStop := false,
              LogTruncateUntil := "", CleanOption := none }
    Status := { Phase := "Running", Conditions := [], CommitTs := "1",
                LogSuccessTruncateUntil := "" } }

/-- A snapshot backup whose clean option leaves the page size and the batch concurrency
unset. -/
def sampleCleanBackup : Backup :=
  { Name := "demo"
    Spec := { Mode := "snapshot", LogSubcommand := "", LogStop := false, LogTruncateUntil := ""
              CleanOption := some { PageSize := 0, RetryCount := 3
                                    BatchDeleteOption := { BatchConcurrency := -1
                                                           RoutineConcurrency := 7
                                                           Rest := "x" }
                                    Rest := "y" } }
    Status := { Phase := "Complete", Conditions := [], CommitTs := "1",
                LogSuccessTruncateUntil := "" } }

/-- A log backup named `demo` with the given subcommand and phase, started at commit
timestamp `1`, asked to truncate until `wanted` and truncated until `done`. -/
def sampleLogBackup (logSubcommand phase wanted done : String) : Backup :=
  { Name := "demo"
    Spec := { Mode := "log", LogSubcommand := logSubcommand, LogStop := false,
              LogTruncateUntil := wanted, CleanOption := none }
    Status := { Phase := phase, Conditions := [], CommitTs := "1",
                LogSuccessTruncateUntil := done } }

/-- A condition of the given type and status, last changed at instant `t`. -/
def sampleCondition (type status : String) (t : Nat) : BackupCondition :=
  { Type_ := type, Status := status, LastTransitionTime := t, Reason := "reason",
    Message := "message" }

/-- A status in the given phase with the given conditions. -/
def sampleStatus (phase : String) (conditions : List BackupCondition) : BackupStatus :=
  { Phase := phase, Conditions := conditions, CommitTs := "", LogSuccessTruncateUntil := "" }

end v1alpha1

/-! ## Theorems: `ComponentUpgradePDPod` -/

namespace member

/-! ### The ordinal helpers -/

theorem foldl_max_spec (l : List Int) (a : Int) :
    a ≤ l.foldl (fun m k => if k > m then k else m) a
      ∧ (∀ k ∈ l, k ≤ l.foldl (fun m k => if k > m then k else m) a)
      ∧ (l.foldl (fun m k => if k > m then k else m) a = a
          ∨ l.foldl (fun m k => if k > m then k else m) a ∈ l) := by
  induction l generalizing a with
  | nil => simp
  | cons x xs ih =>
    simp only [List.foldl_cons, List.mem_cons]
    by_cases hx : x > a
    · simp only [hx, if_true]
      obtain ⟨h1, h2, h3⟩ := ih x
      refine ⟨by omega, ?_, ?_⟩
      · intro k hk
        rcases hk with rfl | hk
        · exact h1
        · exact h2 k hk
      · rcases h3 with h3 | h3
        · right; left; exact h3
        · right; right; exact h3
    · simp only [hx, if_false]
      obtain ⟨h1, h2, h3⟩ := ih a
      refine ⟨h1, ?_, ?_⟩
      · intro k hk
        rcases hk with rfl | hk
        · omega
        · exact h2 k hk
      · rcases h3 with h3 | h3
        · left; exact h3
        · right; right; exact h3

theorem foldl_min_spec (l : List Int) (a : Int) (ha : 0 ≤ a) (hl : ∀ k ∈ l, 0 ≤ k) :
    l.foldl (fun m k => if m = -1 ∨ k < m then k else m) a ≤ a
      ∧ (∀ k ∈ l, l.foldl (fun m k => if m = -1 ∨ k < m then k else m) a ≤ k)
      ∧ (l.foldl (fun m k => if m = -1 ∨ k < m then k else m) a = a
          ∨ l.foldl (fun m k => if m = -1 ∨ k < m then k else m) a ∈ l) := by
  induction l generalizing a with
  | nil => simp
  | cons x xs ih =>
    simp only [List.foldl_cons, List.mem_cons]
    have hx : 0 ≤ x := hl x (by simp)
    have hxs : ∀ k ∈ xs, 0 ≤ k := fun k hk => hl k (by simp [hk])
    have hne : a ≠ -1 := by omega
    by_cases hlt : x < a
    · simp only [hne, hlt, false_or, if_true]
      obtain ⟨h1, h2, h3⟩ := ih x hx hxs
      refine ⟨by omega, ?_, ?_⟩
      · intro k hk
        rcases hk with rfl | hk
        · exact h1
        · exact h2 k hk
      · rcases h3 with h3 | h3
        · right; left; exact h3
        · right; right; exact h3
    · simp only [hne, hlt, false_or, if_false]
      obtain ⟨h1, h2, h3⟩ := ih a ha hxs
      refine ⟨h1, ?_, ?_⟩
      · intro k hk
        rcases hk with rfl | hk
        · omega
        · exact h2 k hk
      · rcases h3 with h3 | h3
        · left; exact h3
        · right; right; exact h3

/-- On a non-empty set of non-negative ordinals `GetMaxPodOrdinal` is the greatest one. -/
theorem GetMaxPodOrdinal_spec (set : StatefulSet) (hne : set.PodOrdinals ≠ [])
    (hnn : ∀ k ∈ set.PodOrdinals, 0 ≤ k) :
    GetMaxPodOrdinal set ∈ set.PodOrdinals
      ∧ ∀ k ∈ set.PodOrdinals, k ≤ GetMaxPodOrdinal set := by
  obtain ⟨h1, h2, h3⟩ := foldl_max_spec set.PodOrdinals (-1)
  refine ⟨?_, h2⟩
  rcases h3 with h3 | h3
  · obtain ⟨x, hx⟩ := List.exists_mem_of_ne_nil _ hne
    have := h2 x hx
    have := hnn x hx
    omega
  · exact h3

/-- On a non-empty set of non-negative ordinals `GetMinPodOrdinal` is the least one. -/
theorem GetMinPodOrdinal_spec (set : StatefulSet) (hne : set.PodOrdinals ≠ [])
    (hnn : ∀ k ∈ set.PodOrdinals, 0 ≤ k) :
    GetMinPodOrdinal set ∈ set.PodOrdinals
      ∧ ∀ k ∈ set.PodOrdinals, GetMinPodOrdinal set ≤ k := by
  unfold GetMinPodOrdinal
  cases hl : set.PodOrdinals with
  | nil => exact absurd hl hne
  | cons x xs =>
    rw [hl] at hnn
    have hx : 0 ≤ x := hnn x (by simp)
    have hxs : ∀ k ∈ xs, 0 ≤ k := fun k hk => hnn k (by simp [hk])
    obtain ⟨h1, h2, h3⟩ := foldl_min_spec xs x hx hxs
    simp only [List.foldl_cons, true_or, if_true, List.mem_cons]
    refine ⟨?_, ?_⟩
    · rcases h3 with h3 | h3
      · left; exact h3
      · right; exact h3
    · intro k hk
      rcases hk with rfl | hk
      · exact h1
      · exact h2 k hk


theorem isLeaderOrdinal_eq_false (h : Helpers) (tc : TidbCluster) (ordinal : Int)
    (h1 : tc.PD.Leader.Name ≠ h.PdName tc.Name ordinal tc.Namespace tc.ClusterDomain)
    (h2 : tc.PD.Leader.Name ≠ h.PdPodName tc.Name ordinal) :
    isLeaderOrdinal h tc ordinal = false := by
  simp [isLeaderOrdinal, h1, h2]

theorem isLeaderOrdinal_eq_true (h : Helpers) (tc : TidbCluster) (ordinal : Int)
    (hl : tc.PD.Leader.Name = h.PdName tc.Name ordinal tc.Namespace tc.ClusterDomain
      ∨ tc.PD.Leader.Name = h.PdPodName tc.Name ordinal) :
    isLeaderOrdinal h tc ordinal = true := by
  simpa [isLeaderOrdinal] using hl

/-- C6: when the leader name is neither the PD name nor the pod name of the ordinal,
`ComponentUpgradePDPod` returns nil, sets the partition of `newSet` to exactly that
ordinal and issues no call at all (in particular no leader transfer); the cluster is
untouched. -/
theorem ComponentUpgradePDPod_not_leader (h : Helpers) (d : Dependencies) (ordinal : Int)
    (w : World)
    (h1 : w.tc.PD.Leader.Name ≠ h.PdName w.tc.Name ordinal w.tc.Namespace w.tc.ClusterDomain)
    (h2 : w.tc.PD.Leader.Name ≠ h.PdPodName w.tc.Name ordinal) :
    (ComponentUpgradePDPod h d ordinal w).1 = .ret none
      ∧ (ComponentUpgradePDPod h d ordinal w).2.newSet.UpdateStrategy.RollingUpdate
          = some { Partition := some ordinal }
      ∧ (ComponentUpgradePDPod h d ordinal w).2.newSet = setUpgradePartition w.newSet ordinal
      ∧ (ComponentUpgradePDPod h d ordinal w).2.effects
          = w.effects ++ [.setUpgradePartition ordinal]
      ∧ (∀ t, Effect.transferPDLeader t ∉ (ComponentUpgradePDPod h d ordinal w).2.effects.drop
          w.effects.length)
      ∧ (ComponentUpgradePDPod h d ordinal w).2.tc = w.tc := by
  have hl := isLeaderOrdinal_eq_false h w.tc ordinal h1 h2
  simp [ComponentUpgradePDPod, hl, setUpgradePartition]

/-- C6 at a concrete input: ordinal 1 of three, the leader being `db-pd-2`. -/
theorem ComponentUpgradePDPod_not_leader_witness :
    (ComponentUpgradePDPod (sampleHelpers 3) (sampleDependencies (fun _ => "r1")) 1
        { tc := sampleCluster threeMembers [] "db-pd-2", newSet := sampleSet [0, 1, 2] 2,
          effects := [] }).1 = .ret none
      ∧ (ComponentUpgradePDPod (sampleHelpers 3) (sampleDependencies (fun _ => "r1")) 1
        { tc := sampleCluster threeMembers [] "db-pd-2", newSet := sampleSet [0, 1, 2] 2,
          effects := [] }).2.newSet.UpdateStrategy.RollingUpdate = some { Partition := some 1 } :=
  have key := ComponentUpgradePDPod_not_leader (sampleHelpers 3)
    (sampleDependencies (fun _ => "r1")) 1
    { tc := sampleCluster threeMembers [] "db-pd-2", newSet := sampleSet [0, 1, 2] 2,
      effects := [] } (by decide) (by decide)
  ⟨key.1, key.2.1⟩

theorem length_pos_of_ne_empty (s : String) (hs : s ≠ "") : s.length > 0 := by
  rcases s with ⟨l⟩
  cases l with
  | nil => exact absurd rfl hs
  | cons c cs => simp [String.length]

theorem selectTargetName_single (h : Helpers) (tc : TidbCluster) (newSet : StatefulSet)
    (ordinal : Int) (hr : ¬ h.PDStsActualReplicas tc > 1) :
    selectTargetName h tc newSet ordinal
      = match tc.PD.PeerMembers.find? (fun kv =>
            kv.2.Name != h.PdName tc.Name ordinal tc.Namespace tc.ClusterDomain && kv.2.Health) with
        | some kv => kv.2.Name
        | none => "" := by
  simp [selectTargetName, hr]

theorem selectTargetName_multi (h : Helpers) (tc : TidbCluster) (newSet : StatefulSet)
    (ordinal : Int) (hr : h.PDStsActualReplicas tc > 1) :
    selectTargetName h tc newSet ordinal
      = if (tc.PD.Members.lookup (h.PdName tc.Name (selectTargetOrdinal newSet ordinal)
              tc.Namespace tc.ClusterDomain)).isSome
        then h.PdName tc.Name (selectTargetOrdinal newSet ordinal) tc.Namespace tc.ClusterDomain
        else h.PdPodName tc.Name (selectTargetOrdinal newSet ordinal) := by
  simp [selectTargetName, hr]

/-- What `ComponentUpgradePDPod` does when the ordinal is the leader and a target name is
selected: one transfer call, then the error of the call or a requeue error. -/
theorem ComponentUpgradePDPod_leader_target (h : Helpers) (d : Dependencies) (ordinal : Int)
    (w : World) (hl : isLeaderOrdinal h w.tc ordinal = true)
    (hsel : selectTargetName h w.tc w.newSet ordinal ≠ "") :
    ComponentUpgradePDPod h d ordinal w
      = (match d.TransferPDLeader w.tc (selectTargetName h w.tc w.newSet ordinal) with
         | some err => .ret (some (.transferFailed err))
         | none => .ret (some (.transferringLeader
              (h.PdName w.tc.Name ordinal w.tc.Namespace w.tc.ClusterDomain)
              (selectTargetName h w.tc w.newSet ordinal))),
         { w with effects := w.effects
              ++ [.transferPDLeader (selectTargetName h w.tc w.newSet ordinal)] }) := by
  have hpos := length_pos_of_ne_empty _ hsel
  simp only [ComponentUpgradePDPod, hl, if_true, hpos, ComponentTransferPDLeaderTo]
  cases d.TransferPDLeader w.tc (selectTargetName h w.tc w.newSet ordinal) <;> rfl

/-- What `ComponentUpgradePDPod` does when no target name is selected, or the ordinal is
not the leader: it falls through to line 140. -/
theorem ComponentUpgradePDPod_fall_through (h : Helpers) (d : Dependencies) (ordinal : Int)
    (w : World)
    (hno : isLeaderOrdinal h w.tc ordinal = false ∨ selectTargetName h w.tc w.newSet ordinal = "") :
    ComponentUpgradePDPod h d ordinal w
      = (.ret none, { w with newSet := setUpgradePartition w.newSet ordinal,
                             effects := w.effects ++ [.setUpgradePartition ordinal] }) := by
  rcases hno with hno | hno
  · simp [ComponentUpgradePDPod, hno]
  · simp [ComponentUpgradePDPod, hno]

/-- C3: when the ordinal is the leader, a non-empty target is selected and the transfer
call succeeds, `ComponentUpgradePDPod` issues exactly one call, the leader transfer to the
selected target, returns a requeue error, and leaves `newSet` (its partition included) and
the cluster as they were. -/
theorem ComponentUpgradePDPod_leader_transfer_requeue (h : Helpers) (d : Dependencies)
    (ordinal : Int) (w : World)
    (hl : w.tc.PD.Leader.Name = h.PdName w.tc.Name ordinal w.tc.Namespace w.tc.ClusterDomain
      ∨ w.tc.PD.Leader.Name = h.PdPodName w.tc.Name ordinal)
    (hsel : selectTargetName h w.tc w.newSet ordinal ≠ "")
    (hok : d.TransferPDLeader w.tc (selectTargetName h w.tc w.newSet ordinal) = none) :
    (ComponentUpgradePDPod h d ordinal w).2.effects
        = w.effects ++ [.transferPDLeader (selectTargetName h w.tc w.newSet ordinal)]
      ∧ (∃ e, (ComponentUpgradePDPod h d ordinal w).1 = .ret (some e) ∧ e.isRequeue = true)
      ∧ (ComponentUpgradePDPod h d ordinal w).2.newSet = w.newSet
      ∧ (ComponentUpgradePDPod h d ordinal w).2.tc = w.tc := by
  rw [ComponentUpgradePDPod_leader_target h d ordinal w
    (isLeaderOrdinal_eq_true h w.tc ordinal hl) hsel, hok]
  exact ⟨rfl, ⟨_, rfl, rfl⟩, rfl, rfl⟩

/-- C3 at a concrete input: ordinal 2 of three is the leader, the target is `db-pd-0`. -/
theorem ComponentUpgradePDPod_leader_transfer_requeue_witness :
    (ComponentUpgradePDPod (sampleHelpers 3) (sampleDependencies (fun _ => "r1")) 2
        { tc := sampleCluster threeMembers [] "db-pd-2", newSet := sampleSet [0, 1, 2] 3,
          effects := [] }).2.effects = [.transferPDLeader "db-pd-0"]
      ∧ (ComponentUpgradePDPod (sampleHelpers 3) (sampleDependencies (fun _ => "r1")) 2
        { tc := sampleCluster threeMembers [] "db-pd-2", newSet := sampleSet [0, 1, 2] 3,
          effects := [] }).2.newSet = sampleSet [0, 1, 2] 3 :=
  have key := ComponentUpgradePDPod_leader_transfer_requeue (sampleHelpers 3)
    (sampleDependencies (fun _ => "r1")) 2
    { tc := sampleCluster threeMembers [] "db-pd-2", newSet := sampleSet [0, 1, 2] 3,
      effects := [] } (by decide) (by decide) (by decide)
  ⟨key.1, key.2.2.1⟩

/-- C2, as stated, fails: `db-pd-0` is the leader and the only replica, the one known peer
is unhealthy, so no target is selected; yet the call returns nil and sets the partition
to ordinal 0. -/
theorem ComponentUpgradePDPod_no_target_counterexample :
    (sampleCluster [("db-pd-0", { Name := "db-pd-0", Health := true })]
        [("peer-pd-0", { Name := "peer-pd-0", Health := false })] "db-pd-0").PD.Leader.Name
        = (sampleHelpers 1).PdName "db" 0 "ns" ""
      ∧ ¬ (sampleHelpers 1).PDStsActualReplicas
          (sampleCluster [("db-pd-0", { Name := "db-pd-0", Health := true })]
            [("peer-pd-0", { Name := "peer-pd-0", Health := false })] "db-pd-0") > 1
      ∧ (∀ kv ∈ (sampleCluster [("db-pd-0", { Name := "db-pd-0", Health := true })]
            [("peer-pd-0", { Name := "peer-pd-0", Health := false })] "db-pd-0").PD.PeerMembers,
          ¬ (kv.2.Health = true ∧ kv.2.Name ≠ (sampleHelpers 1).PdName "db" 0 "ns" ""))
      ∧ (ComponentUpgradePDPod (sampleHelpers 1) (sampleDependencies (fun _ => "r1")) 0
          { tc := sampleCluster [("db-pd-0", { Name := "db-pd-0", Health := true })]
              [("peer-pd-0", { Name := "peer-pd-0", Health := false })] "db-pd-0",
            newSet := sampleSet [0] 1, effects := [] }).1 = .ret none
      ∧ (ComponentUpgradePDPod (sampleHelpers 1) (sampleDependencies (fun _ => "r1")) 0
          { tc := sampleCluster [("db-pd-0", { Name := "db-pd-0", Health := true })]
              [("peer-pd-0", { Name := "peer-pd-0", Health := false })] "db-pd-0",
            newSet := sampleSet [0] 1, effects := [] }).2.newSet.UpdateStrategy.RollingUpdate
          = some { Partition := some 0 } := by
  decide

/-- C2, amended: when the ordinal is the leader, `PDStsActualReplicas` is not greater
than 1 and no peer member is healthy with a name other than the PD name of the ordinal,
no target is selected; `ComponentUpgradePDPod` then issues no leader transfer, returns nil
and sets the partition of `newSet` to that ordinal. -/
theorem ComponentUpgradePDPod_no_target (h : Helpers) (d : Dependencies) (ordinal : Int)
    (w : World)
    (_hl : w.tc.PD.Leader.Name = h.PdName w.tc.Name ordinal w.tc.Namespace w.tc.ClusterDomain
      ∨ w.tc.PD.Leader.Name = h.PdPodName w.tc.Name ordinal)
    (hr : ¬ h.PDStsActualReplicas w.tc > 1)
    (hpeers : ∀ kv ∈ w.tc.PD.PeerMembers, ¬ (kv.2.Health = true
      ∧ kv.2.Name ≠ h.PdName w.tc.Name ordinal w.tc.Namespace w.tc.ClusterDomain)) :
    selectTargetName h w.tc w.newSet ordinal = ""
      ∧ (ComponentUpgradePDPod h d ordinal w).1 = .ret none
      ∧ (ComponentUpgradePDPod h d ordinal w).2.effects
          = w.effects ++ [.setUpgradePartition ordinal]
      ∧ (ComponentUpgradePDPod h d ordinal w).2.newSet.UpdateStrategy.RollingUpdate
          = some { Partition := some ordinal }
      ∧ (ComponentUpgradePDPod h d ordinal w).2.tc = w.tc := by
  have hsel : selectTargetName h w.tc w.newSet ordinal = "" := by
    rw [selectTargetName_single h w.tc w.newSet ordinal hr]
    have hnone : w.tc.PD.PeerMembers.find? (fun kv =>
        kv.2.Name != h.PdName w.tc.Name ordinal w.tc.Namespace w.tc.ClusterDomain && kv.2.Health)
        = none := by
      rw [List.find?_eq_none]
      intro kv hkv
      have := hpeers kv hkv
      simp only [bne_iff_ne, ne_eq, Bool.and_eq_true, decide_eq_true_eq, not_and] at this ⊢
      intro hne hh
      exact this hh hne
    rw [hnone]
  rw [ComponentUpgradePDPod_fall_through h d ordinal w (Or.inr hsel)]
  exact ⟨hsel, rfl, rfl, rfl, rfl⟩

/-- C2 amended, at a concrete input: the single replica `db-pd-0` is the leader and the one
known peer is unhealthy. -/
theorem ComponentUpgradePDPod_no_target_witness :
    (ComponentUpgradePDPod (sampleHelpers 1) (sampleDependencies (fun _ => "r1")) 0
        { tc := sampleCluster [("db-pd-0", { Name := "db-pd-0", Health := true })]
            [("peer-pd-0", { Name := "peer-pd-0", Health := false })] "db-pd-0",
          newSet := sampleSet [0] 1, effects := [] }).2.effects = [.setUpgradePartition 0] :=
  (ComponentUpgradePDPod_no_target (sampleHelpers 1) (sampleDependencies (fun _ => "r1")) 0
    { tc := sampleCluster [("db-pd-0", { Name := "db-pd-0", Health := true })]
        [("peer-pd-0", { Name := "peer-pd-0", Health := false })] "db-pd-0",
      newSet := sampleSet [0] 1, effects := [] } (by decide) (by decide) (by decide)).2.2.1

/-- Every leader transfer that one call of `ComponentUpgradePDPod` issues goes to the
selected target name, and it is issued only when the ordinal is the leader. -/
theorem ComponentUpgradePDPod_transfers (h : Helpers) (d : Dependencies) (ordinal : Int)
    (w : World) (name : String)
    (hmem : Effect.transferPDLeader name
      ∈ (ComponentUpgradePDPod h d ordinal w).2.effects.drop w.effects.length) :
    name = selectTargetName h w.tc w.newSet ordinal ∧ name ≠ ""
      ∧ isLeaderOrdinal h w.tc ordinal = true := by
  by_cases hl : isLeaderOrdinal h w.tc ordinal = true
  · by_cases hsel : selectTargetName h w.tc w.newSet ordinal = ""
    · rw [ComponentUpgradePDPod_fall_through h d ordinal w (Or.inr hsel)] at hmem
      simp at hmem
    · rw [ComponentUpgradePDPod_leader_target h d ordinal w hl hsel] at hmem
      simp only [List.drop_left, List.mem_singleton, Effect.transferPDLeader.injEq] at hmem
      exact ⟨hmem, hmem ▸ hsel, hl⟩
  · rw [ComponentUpgradePDPod_fall_through h d ordinal w (Or.inl (by simpa using hl))] at hmem
    simp at hmem

/-- C4: with the ordinal being the leader and `PDStsActualReplicas > 1`, on a non-empty set
of non-negative pod ordinals: `GetMaxPodOrdinal` and `GetMinPodOrdinal` are the greatest and
the least pod ordinal of `newSet`; the target ordinal is the greatest one when the upgraded
ordinal is not the greatest, and the least one when it is; the target name is the PD name
or the pod name of the target ordinal, and every transfer issued goes to it.  For pod
ordinals 0, 1, 2: upgrading 2 targets 0, upgrading 1 or 0 targets 2. -/
theorem ComponentUpgradePDPod_target_ordinal (h : Helpers) (d : Dependencies) (ordinal : Int)
    (w : World)
    (hl : w.tc.PD.Leader.Name = h.PdName w.tc.Name ordinal w.tc.Namespace w.tc.ClusterDomain
      ∨ w.tc.PD.Leader.Name = h.PdPodName w.tc.Name ordinal)
    (hr : h.PDStsActualReplicas w.tc > 1)
    (hne : w.newSet.PodOrdinals ≠ [])
    (hnn : ∀ k ∈ w.newSet.PodOrdinals, 0 ≤ k) :
    (GetMaxPodOrdinal w.newSet ∈ w.newSet.PodOrdinals
        ∧ ∀ k ∈ w.newSet.PodOrdinals, k ≤ GetMaxPodOrdinal w.newSet)
      ∧ (GetMinPodOrdinal w.newSet ∈ w.newSet.PodOrdinals
        ∧ ∀ k ∈ w.newSet.PodOrdinals, GetMinPodOrdinal w.newSet ≤ k)
      ∧ (ordinal ≠ GetMaxPodOrdinal w.newSet
          → selectTargetOrdinal w.newSet ordinal = GetMaxPodOrdinal w.newSet)
      ∧ (ordinal = GetMaxPodOrdinal w.newSet
          → selectTargetOrdinal w.newSet ordinal = GetMinPodOrdinal w.newSet)
      ∧ (selectTargetName h w.tc w.newSet ordinal
            = h.PdName w.tc.Name (selectTargetOrdinal w.newSet ordinal) w.tc.Namespace
                w.tc.ClusterDomain
          ∨ selectTargetName h w.tc w.newSet ordinal
            = h.PdPodName w.tc.Name (selectTargetOrdinal w.newSet ordinal))
      ∧ (∀ name, Effect.transferPDLeader name
            ∈ (ComponentUpgradePDPod h d ordinal w).2.effects.drop w.effects.length
          → name = selectTargetName h w.tc w.newSet ordinal)
      ∧ (selectTargetName h w.tc w.newSet ordinal ≠ ""
          → (ComponentUpgradePDPod h d ordinal w).2.effects
              = w.effects ++ [.transferPDLeader (selectTargetName h w.tc w.newSet ordinal)])
      ∧ (w.newSet.PodOrdinals = [0, 1, 2]
          → (ordinal = 2 → selectTargetOrdinal w.newSet ordinal = 0)
            ∧ (ordinal = 1 ∨ ordinal = 0 → selectTargetOrdinal w.newSet ordinal = 2)) := by
  refine ⟨GetMaxPodOrdinal_spec w.newSet hne hnn, GetMinPodOrdinal_spec w.newSet hne hnn,
    ?_, ?_, ?_, ?_, ?_, ?_⟩
  · intro hx
    simp [selectTargetOrdinal, hx]
  · intro hx
    simp [selectTargetOrdinal, hx]
  · rw [selectTargetName_multi h w.tc w.newSet ordinal hr]
    split_ifs
    · left; rfl
    · right; rfl
  · intro name hmem
    exact (ComponentUpgradePDPod_transfers h d ordinal w name hmem).1
  · intro hsel
    rw [ComponentUpgradePDPod_leader_target h d ordinal w
      (isLeaderOrdinal_eq_true h w.tc ordinal hl) hsel]
  · intro hords
    have hmax : GetMaxPodOrdinal w.newSet = 2 := by
      simp [GetMaxPodOrdinal, hords]
    have hmin : GetMinPodOrdinal w.newSet = 0 := by
      simp [GetMinPodOrdinal, hords]
    refine ⟨?_, ?_⟩
    · intro hx
      simp [selectTargetOrdinal, hx, hmax, hmin]
    · intro hx
      rcases hx with hx | hx <;> simp [selectTargetOrdinal, hx, hmax]

/-- C4 at a concrete input: pod ordinals 0, 1, 2, the leader is ordinal 2, and the
transfer goes to `db-pd-0`. -/
theorem ComponentUpgradePDPod_target_ordinal_witness :
    selectTargetOrdinal (sampleSet [0, 1, 2] 3) 2 = 0
      ∧ (ComponentUpgradePDPod (sampleHelpers 3) (sampleDependencies (fun _ => "r1")) 2
          { tc := sampleCluster threeMembers [] "db-pd-2", newSet := sampleSet [0, 1, 2] 3,
            effects := [] }).2.effects = [.transferPDLeader "db-pd-0"] :=
  have key := ComponentUpgradePDPod_target_ordinal (sampleHelpers 3)
    (sampleDependencies (fun _ => "r1")) 2
    { tc := sampleCluster threeMembers [] "db-pd-2", newSet := sampleSet [0, 1, 2] 3,
      effects := [] } (by decide) (by decide) (by decide) (by decide)
  ⟨(key.2.2.2.2.2.2.2 rfl).1 rfl, key.2.2.2.2.2.2.1 (by decide)⟩

/-! ## Theorems: `ComponentGracefulUpgrade` -/

theorem podRevision_markUpgrading (h : Helpers) (d : Dependencies) (tc : TidbCluster) (i : Int) :
    podRevision h d (markUpgrading tc) i = podRevision h d tc i := rfl

theorem memberHealthy_markUpgrading (h : Helpers) (tc : TidbCluster) (i : Int) :
    memberHealthy h (markUpgrading tc) i = memberHealthy h tc i := rfl

theorem ordinalUpgraded_markUpgrading (h : Helpers) (d : Dependencies) (tc : TidbCluster)
    (i : Int) : ordinalUpgraded h d (markUpgrading tc) i = ordinalUpgraded h d tc i := rfl

theorem ordinalOutdated_markUpgrading (h : Helpers) (d : Dependencies) (tc : TidbCluster)
    (i : Int) : ordinalOutdated h d (markUpgrading tc) i = ordinalOutdated h d tc i := rfl

/-- An ordinal is not both skipped and outdated. -/
theorem not_outdated_of_upgraded (h : Helpers) (d : Dependencies) (tc : TidbCluster) (i : Int)
    (hu : ordinalUpgraded h d tc i = true) : ordinalOutdated h d tc i = false := by
  simp only [ordinalUpgraded, Bool.and_eq_true, beq_iff_eq] at hu
  simp [ordinalOutdated, hu.1]

/-- One iteration of the loop on a skipped ordinal: the pod is looked up and the loop goes
on with the next ordinal. -/
theorem upgradeLoop_cons_upgraded (h : Helpers) (d : Dependencies) (i : Int) (rest : List Int)
    (w : World) (hu : ordinalUpgraded h d w.tc i = true) :
    upgradeLoop h d (i :: rest) w
      = upgradeLoop h d rest
          { w with effects := w.effects ++ [.getPod w.tc.Namespace (h.PdPodName w.tc.Name i)] } := by
  simp only [ordinalUpgraded, podRevision, memberHealthy, Bool.and_eq_true, beq_iff_eq] at hu
  obtain ⟨hrev, hhealth⟩ := hu
  rw [upgradeLoop]
  cases hpod : d.PodLister w.tc.Namespace (h.PdPodName w.tc.Name i) with
  | error e => simp [hpod] at hrev
  | ok pod =>
    simp only [hpod] at hrev
    simp only [hrev, if_true]
    cases hm : w.tc.PD.Members.lookup (h.PdName w.tc.Name i w.tc.Namespace w.tc.ClusterDomain) with
    | none => simp [hm] at hhealth
    | some m =>
      simp only [hm] at hhealth
      simp [hhealth]

/-- One iteration of the loop on an outdated ordinal: the pod is looked up, then the
webhook branch or `ComponentUpgradePDPod` ends the run. -/
theorem upgradeLoop_cons_outdated (h : Helpers) (d : Dependencies) (i : Int) (rest : List Int)
    (w : World) (ho : ordinalOutdated h d w.tc i = true) :
    upgradeLoop h d (i :: rest) w
      = if d.PodWebhookEnabled then
          (.ret none,
            { w with newSet := setUpgradePartition w.newSet i,
                     effects := (w.effects ++ [.getPod w.tc.Namespace (h.PdPodName w.tc.Name i)])
                        ++ [.setUpgradePartition i] })
        else ComponentUpgradePDPod h d i
          { w with effects := w.effects ++ [.getPod w.tc.Namespace (h.PdPodName w.tc.Name i)] } := by
  simp only [ordinalOutdated, podRevision] at ho
  rw [upgradeLoop]
  cases hpod : d.PodLister w.tc.Namespace (h.PdPodName w.tc.Name i) with
  | error e => simp [hpod] at ho
  | ok pod =>
    simp only [hpod] at ho
    cases hrev : pod.ObjectMeta.Labels.lookup ControllerRevisionHashLabelKey with
    | none => simp [hrev] at ho
    | some revision =>
      simp only [hrev, bne_iff_ne, ne_eq] at ho
      simp only [hrev, ho, if_false]

/-- One iteration of the loop on an ordinal that is neither skipped nor outdated: the run
ends with an error and nothing but the pod lookup happened. -/
theorem upgradeLoop_cons_stuck (h : Helpers) (d : Dependencies) (i : Int) (rest : List Int)
    (w : World) (hu : ordinalUpgraded h d w.tc i = false)
    (ho : ordinalOutdated h d w.tc i = false) :
    (∃ e, (upgradeLoop h d (i :: rest) w).1 = .ret (some e))
      ∧ (upgradeLoop h d (i :: rest) w).2
          = { w with effects := w.effects ++ [.getPod w.tc.Namespace (h.PdPodName w.tc.Name i)] } := by
  simp only [ordinalOutdated, podRevision] at ho
  simp only [ordinalUpgraded, podRevision, memberHealthy] at hu
  rw [upgradeLoop]
  cases hpod : d.PodLister w.tc.Namespace (h.PdPodName w.tc.Name i) with
  | error e => simp
  | ok pod =>
    simp only [hpod] at ho hu
    cases hrev : pod.ObjectMeta.Labels.lookup ControllerRevisionHashLabelKey with
    | none => simp [hrev]
    | some revision =>
      simp only [hrev, bne_eq_false_iff_eq] at ho
      simp only [hrev, ho, beq_self_eq_true, Bool.true_and] at hu
      simp only [hrev, ho, if_true]
      cases hm : w.tc.PD.Members.lookup (h.PdName w.tc.Name i w.tc.Namespace w.tc.ClusterDomain) with
      | none => simp [hm]
      | some m =>
        simp only [hm] at hu
        simp [hm, hu]

/-- The loop over skipped ordinals only: every pod is looked up, nothing else happens and
the loop ends with nil. -/
theorem upgradeLoop_all_upgraded (h : Helpers) (d : Dependencies) :
    ∀ (ords : List Int) (w : World), (∀ i ∈ ords, ordinalUpgraded h d w.tc i = true) →
      upgradeLoop h d ords w
        = (.ret none,
            { w with
              effects := w.effects ++ ords.map (fun i => Effect.getPod w.tc.Namespace (h.PdPodName w.tc.Name i)) })
  | [], w, _ => by simp [upgradeLoop]
  | i :: rest, w, hall => by
    rw [upgradeLoop_cons_upgraded h d i rest w (hall i (by simp))]
    rw [upgradeLoop_all_upgraded h d rest
      { w with effects := w.effects ++ [.getPod w.tc.Namespace (h.PdPodName w.tc.Name i)] }
      (fun j hj => hall j (by simp [hj]))]
    simp

/-- The loop, in general: it only appends effects and never touches the cluster; and if it
sets the partition to `i`, then `i` is an outdated ordinal, every ordinal visited before it
was skipped, the loop returns nil and `newSet` is the old one with partition `i`. -/
theorem upgradeLoop_spec (h : Helpers) (d : Dependencies) :
    ∀ (ords : List Int) (w : World), ∃ E : List Effect,
      (upgradeLoop h d ords w).2.effects = w.effects ++ E
        ∧ (upgradeLoop h d ords w).2.tc = w.tc
        ∧ ∀ i, Effect.setUpgradePartition i ∈ E →
            ∃ pre post, ords = pre ++ i :: post
              ∧ (∀ j ∈ pre, ordinalUpgraded h d w.tc j = true)
              ∧ ordinalOutdated h d w.tc i = true
              ∧ (upgradeLoop h d ords w).1 = .ret none
              ∧ (upgradeLoop h d ords w).2.newSet = setUpgradePartition w.newSet i
  | [], w => ⟨[], by simp [upgradeLoop]⟩
  | x :: rest, w => by
    by_cases hu : ordinalUpgraded h d w.tc x = true
    · obtain ⟨E, hE, htc, hset⟩ := upgradeLoop_spec h d rest
        { w with effects := w.effects ++ [.getPod w.tc.Namespace (h.PdPodName w.tc.Name x)] }
      rw [upgradeLoop_cons_upgraded h d x rest w hu]
      refine ⟨Effect.getPod w.tc.Namespace (h.PdPodName w.tc.Name x) :: E, ?_, htc, ?_⟩
      · rw [hE]; simp
      · intro i hi
        simp only [List.mem_cons, reduceCtorEq, false_or] at hi
        obtain ⟨pre, post, hords, hpre, hout, hret, hnew⟩ := hset i hi
        refine ⟨x :: pre, post, by simp [hords], ?_, hout, hret, hnew⟩
        intro j hj
        rcases List.mem_cons.mp hj with rfl | hj
        · exact hu
        · exact hpre j hj
    · by_cases ho : ordinalOutdated h d w.tc x = true
      · by_cases hft : d.PodWebhookEnabled = true ∨ isLeaderOrdinal h w.tc x = false
            ∨ selectTargetName h w.tc w.newSet x = ""
        · have heq : upgradeLoop h d (x :: rest) w
              = (.ret none,
                  { w with newSet := setUpgradePartition w.newSet x,
                           effects := w.effects
                             ++ [.getPod w.tc.Namespace (h.PdPodName w.tc.Name x),
                                 .setUpgradePartition x] }) := by
            rw [upgradeLoop_cons_outdated h d x rest w ho]
            by_cases hweb : d.PodWebhookEnabled = true
            · simp [hweb]
            · rw [if_neg hweb, ComponentUpgradePDPod_fall_through h d x
                { w with effects := w.effects ++ [.getPod w.tc.Namespace (h.PdPodName w.tc.Name x)] }
                (hft.resolve_left hweb)]
              simp
          rw [heq]
          refine ⟨[.getPod w.tc.Namespace (h.PdPodName w.tc.Name x), .setUpgradePartition x],
            rfl, rfl, ?_⟩
          intro i hi
          simp only [List.mem_cons, reduceCtorEq, false_or, Effect.setUpgradePartition.injEq,
            List.mem_singleton, List.not_mem_nil, or_false] at hi
          subst hi
          exact ⟨[], rest, rfl, by simp, ho, rfl, rfl⟩
        · simp only [not_or, Bool.not_eq_false] at hft
          have heq : (upgradeLoop h d (x :: rest) w).2
              = { w with effects := w.effects
                    ++ [.getPod w.tc.Namespace (h.PdPodName w.tc.Name x),
                        .transferPDLeader (selectTargetName h w.tc w.newSet x)] } := by
            rw [upgradeLoop_cons_outdated h d x rest w ho, if_neg hft.1,
              ComponentUpgradePDPod_leader_target h d x
                { w with effects := w.effects ++ [.getPod w.tc.Namespace (h.PdPodName w.tc.Name x)] }
                hft.2.1 hft.2.2]
            simp
          rw [heq]
          refine ⟨[.getPod w.tc.Namespace (h.PdPodName w.tc.Name x),
            .transferPDLeader (selectTargetName h w.tc w.newSet x)], rfl, rfl, ?_⟩
          intro i hi
          simp at hi
      · obtain ⟨_, hst⟩ := upgradeLoop_cons_stuck h d x rest w (by simpa using hu)
          (by simpa using ho)
        rw [hst]
        refine ⟨[.getPod w.tc.Namespace (h.PdPodName w.tc.Name x)], rfl, rfl, ?_⟩
        intro i hi
        simp at hi

/-- A run that passes the checks of lines 37-68 is the loop, started after line 70. -/
theorem ComponentGracefulUpgrade_of_reachesLoop (h : Helpers) (d : Dependencies)
    (oldSet : StatefulSet) (w : World) (p : Int) (hreach : reachesLoop h oldSet w p) :
    ComponentGracefulUpgrade h d oldSet w
      = upgradeLoop h d oldSet.PodOrdinals.reverse
          { tc := markUpgrading w.tc, newSet := setUpgradePartition w.newSet p,
            effects := w.effects ++ [.setUpgradePartition p] } := by
  obtain ⟨hs, hsc, hte, hrev, hty, hru⟩ := hreach
  have hrev2 : (markUpgrading w.tc).PD.StatefulSet.UpdateRevision
      ≠ (markUpgrading w.tc).PD.StatefulSet.CurrentRevision := hrev
  simp [ComponentGracefulUpgrade, hs, hsc, hte, hrev2, hty, hru]

/-- The run when the templates differ (line 53), or the revisions agree (line 57): only
the phase is marked. -/
theorem ComponentGracefulUpgrade_nothing_to_roll (h : Helpers) (d : Dependencies)
    (oldSet : StatefulSet) (w : World) (hs : w.tc.PD.Synced = true)
    (hsc : h.PDScaling w.tc = false)
    (hno : h.templateEqual w.newSet oldSet = false
      ∨ w.tc.PD.StatefulSet.UpdateRevision = w.tc.PD.StatefulSet.CurrentRevision) :
    ComponentGracefulUpgrade h d oldSet w = (.ret none, { w with tc := markUpgrading w.tc }) := by
  by_cases hte : h.templateEqual w.newSet oldSet = true
  · have hrev : (markUpgrading w.tc).PD.StatefulSet.UpdateRevision
        = (markUpgrading w.tc).PD.StatefulSet.CurrentRevision := by
      rcases hno with hno | hno
      · rw [hte] at hno; exact absurd hno (by decide)
      · exact hno
    simp [ComponentGracefulUpgrade, hs, hsc, hte, hrev]
  · simp [ComponentGracefulUpgrade, hs, hsc, hte]

/-- The run when the update strategy was overridden (lines 60-68): the phase is marked and
`newSet` adopts the strategy of `oldSet`. -/
theorem ComponentGracefulUpgrade_manual_override (h : Helpers) (d : Dependencies)
    (oldSet : StatefulSet) (w : World) (hs : w.tc.PD.Synced = true)
    (hsc : h.PDScaling w.tc = false) (hte : h.templateEqual w.newSet oldSet = true)
    (hrev : w.tc.PD.StatefulSet.UpdateRevision ≠ w.tc.PD.StatefulSet.CurrentRevision)
    (hov : oldSet.UpdateStrategy.StrategyType = OnDeleteStatefulSetStrategyType
      ∨ oldSet.UpdateStrategy.RollingUpdate = none) :
    ComponentGracefulUpgrade h d oldSet w
      = (.ret none,
          { w with tc := markUpgrading w.tc,
                   newSet := { w.newSet with UpdateStrategy := oldSet.UpdateStrategy } }) := by
  have hrev2 : (markUpgrading w.tc).PD.StatefulSet.UpdateRevision
      ≠ (markUpgrading w.tc).PD.StatefulSet.CurrentRevision := hrev
  simp [ComponentGracefulUpgrade, hs, hsc, hte, hrev2, hov]

/-- The run through the loop when every ordinal is skipped: the partition of line 70 stays,
every pod is looked up and nil is returned. -/
theorem ComponentGracefulUpgrade_loop_all_upgraded (h : Helpers) (d : Dependencies)
    (oldSet : StatefulSet) (w : World) (p : Int) (hreach : reachesLoop h oldSet w p)
    (hall : ∀ i ∈ oldSet.PodOrdinals, ordinalUpgraded h d w.tc i = true) :
    ComponentGracefulUpgrade h d oldSet w
      = (.ret none,
          { tc := markUpgrading w.tc, newSet := setUpgradePartition w.newSet p,
            effects := (w.effects ++ [.setUpgradePartition p]) ++ oldSet.PodOrdinals.reverse.map
              (fun i => Effect.getPod w.tc.Namespace (h.PdPodName w.tc.Name i)) }) := by
  rw [ComponentGracefulUpgrade_of_reachesLoop h d oldSet w p hreach]
  rw [upgradeLoop_all_upgraded h d oldSet.PodOrdinals.reverse
    { tc := markUpgrading w.tc, newSet := setUpgradePartition w.newSet p,
      effects := w.effects ++ [.setUpgradePartition p] }
    (fun i hi => hall i (List.mem_reverse.mp hi))]
  rfl

/-- C5: when the run reaches the ordinal loop, over pod ordinals listed in ascending order,
and the loop sets the partition of `newSet` to an ordinal `i` (an effect after the one of
line 70), then `i` is a pod ordinal whose revision label differs from the update revision,
no greater pod ordinal is outdated (`i` is the greatest such), every pod ordinal greater
than `i` has the update revision and a healthy member, the run returns nil with partition
`i`; so `i` is the only outdated ordinal at or above the new partition. -/
theorem ComponentGracefulUpgrade_partition_step (h : Helpers) (d : Dependencies)
    (oldSet : StatefulSet) (w : World) (p i : Int) (hreach : reachesLoop h oldSet w p)
    (hsorted : oldSet.PodOrdinals.Pairwise (fun a b => a < b))
    (hset : Effect.setUpgradePartition i
      ∈ (ComponentGracefulUpgrade h d oldSet w).2.effects.drop (w.effects.length + 1)) :
    i ∈ oldSet.PodOrdinals
      ∧ ordinalOutdated h d w.tc i = true
      ∧ (∀ j ∈ oldSet.PodOrdinals, ordinalOutdated h d w.tc j = true → j ≤ i)
      ∧ (∀ j ∈ oldSet.PodOrdinals, i < j →
          podRevision h d w.tc j = some w.tc.PD.StatefulSet.UpdateRevision
            ∧ memberHealthy h w.tc j = true)
      ∧ (ComponentGracefulUpgrade h d oldSet w).1 = .ret none
      ∧ (ComponentGracefulUpgrade h d oldSet w).2.newSet.UpdateStrategy.RollingUpdate
          = some { Partition := some i }
      ∧ (∀ j ∈ oldSet.PodOrdinals, i ≤ j → ordinalOutdated h d w.tc j = true → j = i) := by
  rw [ComponentGracefulUpgrade_of_reachesLoop h d oldSet w p hreach] at hset ⊢
  obtain ⟨E, hE, _, hspec⟩ := upgradeLoop_spec h d oldSet.PodOrdinals.reverse
    { tc := markUpgrading w.tc, newSet := setUpgradePartition w.newSet p,
      effects := w.effects ++ [.setUpgradePartition p] }
  rw [hE] at hset
  have hlen : w.effects.length + 1 = (w.effects ++ [Effect.setUpgradePartition p]).length := by
    simp
  rw [hlen, List.drop_left] at hset
  obtain ⟨pre, post, hords, hpre, hout, hret, hnew⟩ := hspec i hset
  have hpw : (pre ++ i :: post).Pairwise (fun a b => b < a) := by
    rw [← hords, List.pairwise_reverse]
    exact hsorted
  rw [List.pairwise_append] at hpw
  obtain ⟨_, hipost, hprepost⟩ := hpw
  rw [List.pairwise_cons] at hipost
  have hmem : ∀ j, j ∈ oldSet.PodOrdinals ↔ j ∈ pre ∨ j = i ∨ j ∈ post := by
    intro j
    rw [← List.mem_reverse, hords]
    simp
  have hgt : ∀ j ∈ oldSet.PodOrdinals, i < j → ordinalUpgraded h d w.tc j = true := by
    intro j hj hij
    rcases (hmem j).mp hj with hj | hj | hj
    · exact hpre j hj
    · omega
    · have := hipost.1 j hj
      omega
  have hle : ∀ j ∈ oldSet.PodOrdinals, ordinalOutdated h d w.tc j = true → j ≤ i := by
    intro j hj hjo
    by_contra hcon
    have hu := hgt j hj (by omega)
    rw [not_outdated_of_upgraded h d w.tc j hu] at hjo
    exact absurd hjo (by decide)
  refine ⟨(hmem i).mpr (Or.inr (Or.inl rfl)), hout, hle, ?_, hret, ?_, ?_⟩
  · intro j hj hij
    have hu := hgt j hj hij
    simp only [ordinalUpgraded, Bool.and_eq_true, beq_iff_eq] at hu
    exact hu
  · rw [hnew]
    rfl
  · intro j hj hij hjo
    have := hle j hj hjo
    omega

/-- C5 at a concrete input: ordinals 0, 1, 2 with ordinal 2 already at the update revision
and `db-pd-0` the leader; the loop sets the partition to 1. -/
theorem ComponentGracefulUpgrade_partition_step_witness :
    (1 : Int) ∈ (sampleSet [0, 1, 2] 2).PodOrdinals
      ∧ (ComponentGracefulUpgrade (sampleHelpers 3)
          (sampleDependencies (fun i => if i = 2 then "r2" else "r1")) (sampleSet [0, 1, 2] 2)
          { tc := sampleCluster threeMembers [] "db-pd-0", newSet := sampleSet [0, 1, 2] 0,
            effects := [] }).2.newSet.UpdateStrategy.RollingUpdate = some { Partition := some 1 } :=
  have key := ComponentGracefulUpgrade_partition_step (sampleHelpers 3)
    (sampleDependencies (fun i => if i = 2 then "r2" else "r1")) (sampleSet [0, 1, 2] 2)
    { tc := sampleCluster threeMembers [] "db-pd-0", newSet := sampleSet [0, 1, 2] 0,
      effects := [] } 2 1 (by decide) (by decide) (by decide)
  ⟨key.1, key.2.2.2.2.2.1⟩

/-- C7, as stated, fails: the run reaches the loop with last-applied partition 2, the three
pods all carry the update revision `r2` and their members are healthy; it returns nil and
the partition of `newSet` is 2, not 0. -/
theorem ComponentGracefulUpgrade_complete_counterexample :
    reachesLoop (sampleHelpers 3) (sampleSet [0, 1, 2] 2)
        { tc := sampleCluster threeMembers [] "db-pd-0", newSet := sampleSet [0, 1, 2] 0,
          effects := [] } 2
      ∧ (∀ i ∈ (sampleSet [0, 1, 2] 2).PodOrdinals,
          ordinalUpgraded (sampleHelpers 3) (sampleDependencies (fun _ => "r2"))
            (sampleCluster threeMembers [] "db-pd-0") i = true)
      ∧ (ComponentGracefulUpgrade (sampleHelpers 3) (sampleDependencies (fun _ => "r2"))
          (sampleSet [0, 1, 2] 2)
          { tc := sampleCluster threeMembers [] "db-pd-0", newSet := sampleSet [0, 1, 2] 0,
            effects := [] }).1 = .ret none
      ∧ (ComponentGracefulUpgrade (sampleHelpers 3) (sampleDependencies (fun _ => "r2"))
          (sampleSet [0, 1, 2] 2)
          { tc := sampleCluster threeMembers [] "db-pd-0", newSet := sampleSet [0, 1, 2] 0,
            effects := [] }).2.newSet.UpdateStrategy.RollingUpdate = some { Partition := some 2 }
      ∧ (ComponentGracefulUpgrade (sampleHelpers 3) (sampleDependencies (fun _ => "r2"))
          (sampleSet [0, 1, 2] 2)
          { tc := sampleCluster threeMembers [] "db-pd-0", newSet := sampleSet [0, 1, 2] 0,
            effects := [] }).2.newSet.UpdateStrategy.RollingUpdate ≠ some { Partition := some 0 } := by
  decide

/-- C7, amended: for every state that reaches the ordinal loop in which every pod ordinal
has the update revision and a healthy member, the run returns nil with the partition of
`newSet` equal to the last-applied partition of `oldSet` (the value set at line 70); the
loop only looks the pods up. -/
theorem ComponentGracefulUpgrade_complete (h : Helpers) (d : Dependencies)
    (oldSet : StatefulSet) (w : World) (p : Int) (hreach : reachesLoop h oldSet w p)
    (hall : ∀ i ∈ oldSet.PodOrdinals, ordinalUpgraded h d w.tc i = true) :
    (ComponentGracefulUpgrade h d oldSet w).1 = .ret none
      ∧ (ComponentGracefulUpgrade h d oldSet w).2.newSet.UpdateStrategy.RollingUpdate
          = some { Partition := some p }
      ∧ (ComponentGracefulUpgrade h d oldSet w).2.newSet.UpdateStrategy.RollingUpdate
          = oldSet.UpdateStrategy.RollingUpdate
      ∧ (ComponentGracefulUpgrade h d oldSet w).2.effects
          = (w.effects ++ [.setUpgradePartition p]) ++ oldSet.PodOrdinals.reverse.map
              (fun i => Effect.getPod w.tc.Namespace (h.PdPodName w.tc.Name i)) := by
  rw [ComponentGracefulUpgrade_loop_all_upgraded h d oldSet w p hreach hall]
  exact ⟨rfl, rfl, hreach.2.2.2.2.2.symm, rfl⟩

/-- C7 amended, at a concrete input: last-applied partition 0, all three pods upgraded. -/
theorem ComponentGracefulUpgrade_complete_witness :
    (ComponentGracefulUpgrade (sampleHelpers 3) (sampleDependencies (fun _ => "r2"))
        (sampleSet [0, 1, 2] 0)
        { tc := sampleCluster threeMembers [] "db-pd-0", newSet := sampleSet [0, 1, 2] 3,
          effects := [] }).2.newSet.UpdateStrategy.RollingUpdate = some { Partition := some 0 } :=
  (ComponentGracefulUpgrade_complete (sampleHelpers 3) (sampleDependencies (fun _ => "r2"))
    (sampleSet [0, 1, 2] 0)
    { tc := sampleCluster threeMembers [] "db-pd-0", newSet := sampleSet [0, 1, 2] 3,
      effects := [] } 0 (by decide) (by decide)).2.1

/-- C9: for a synced cluster that is scaling and whose last-applied config can be read, the
run puts the last-applied pod spec of `oldSet` into the template of `newSet`, returns nil,
issues no call (no leader transfer), and leaves the update strategy of `newSet` (its
partition included), its other fields and the cluster (its phase included) as they were. -/
theorem ComponentGracefulUpgrade_scaling (h : Helpers) (d : Dependencies)
    (oldSet : StatefulSet) (w : World) (podSpec : corev1.PodSpec)
    (hs : w.tc.PD.Synced = true) (hsc : h.PDScaling w.tc = true)
    (hcfg : h.GetLastAppliedConfig oldSet = .ok podSpec) :
    (ComponentGracefulUpgrade h d oldSet w).1 = .ret none
      ∧ (ComponentGracefulUpgrade h d oldSet w).2.newSet.TemplateSpec = podSpec
      ∧ (ComponentGracefulUpgrade h d oldSet w).2.effects = w.effects
      ∧ (ComponentGracefulUpgrade h d oldSet w).2.newSet.UpdateStrategy = w.newSet.UpdateStrategy
      ∧ (ComponentGracefulUpgrade h d oldSet w).2.newSet
          = { w.newSet with TemplateSpec := podSpec }
      ∧ (ComponentGracefulUpgrade h d oldSet w).2.tc.PD.Phase = w.tc.PD.Phase
      ∧ (ComponentGracefulUpgrade h d oldSet w).2.tc = w.tc := by
  simp [ComponentGracefulUpgrade, hs, hsc, hcfg]

/-- C9 at a concrete input: a scaling cluster in phase `Scale`. -/
theorem ComponentGracefulUpgrade_scaling_witness :
    (ComponentGracefulUpgrade { sampleHelpers 3 with PDScaling := fun tc => tc.PD.Phase == "Scale" }
        (sampleDependencies (fun _ => "r1")) (sampleSet [0, 1, 2] 3)
        { tc := { sampleCluster threeMembers [] "db-pd-0" with
                  PD := { (sampleCluster threeMembers [] "db-pd-0").PD with Phase := "Scale" } },
          newSet := sampleSet [0, 1, 2, 3] 0, effects := [] }).1 = .ret none :=
  (ComponentGracefulUpgrade_scaling { sampleHelpers 3 with PDScaling := fun tc => tc.PD.Phase == "Scale" }
    (sampleDependencies (fun _ => "r1")) (sampleSet [0, 1, 2] 3)
    { tc := { sampleCluster threeMembers [] "db-pd-0" with
              PD := { (sampleCluster threeMembers [] "db-pd-0").PD with Phase := "Scale" } },
      newSet := sampleSet [0, 1, 2, 3] 0, effects := [] }
    (sampleSet [0, 1, 2] 3).TemplateSpec (by decide) (by decide) rfl).1

/-- C10: for every state that passes the synced, scaling, template-equality and revision
checks in which the update strategy of `oldSet` has type `OnDelete` or no rolling-update
policy, the run makes the update strategy of `newSet` equal to that of `oldSet`, returns
nil, issues no call (no pod lookup, no leader transfer, no `setUpgradePartition`) and
leaves the other fields of `newSet` as they were. -/
theorem ComponentGracefulUpgrade_override (h : Helpers) (d : Dependencies)
    (oldSet : StatefulSet) (w : World) (hs : w.tc.PD.Synced = true)
    (hsc : h.PDScaling w.tc = false) (hte : h.templateEqual w.newSet oldSet = true)
    (hrev : w.tc.PD.StatefulSet.UpdateRevision ≠ w.tc.PD.StatefulSet.CurrentRevision)
    (hov : oldSet.UpdateStrategy.StrategyType = OnDeleteStatefulSetStrategyType
      ∨ oldSet.UpdateStrategy.RollingUpdate = none) :
    (ComponentGracefulUpgrade h d oldSet w).1 = .ret none
      ∧ (ComponentGracefulUpgrade h d oldSet w).2.newSet.UpdateStrategy = oldSet.UpdateStrategy
      ∧ (ComponentGracefulUpgrade h d oldSet w).2.effects = w.effects
      ∧ (ComponentGracefulUpgrade h d oldSet w).2.newSet
          = { w.newSet with UpdateStrategy := oldSet.UpdateStrategy } := by
  rw [ComponentGracefulUpgrade_manual_override h d oldSet w hs hsc hte hrev hov]
  exact ⟨rfl, rfl, rfl, rfl⟩

/-- C10 at a concrete input: the strategy of `oldSet` was set to `OnDelete` by hand. -/
theorem ComponentGracefulUpgrade_override_witness :
    (ComponentGracefulUpgrade (sampleHelpers 3) (sampleDependencies (fun _ => "r1"))
        { sampleSet [0, 1, 2] 3 with
          UpdateStrategy := { StrategyType := "OnDelete", RollingUpdate := none } }
        { tc := sampleCluster threeMembers [] "db-pd-0", newSet := sampleSet [0, 1, 2] 3,
          effects := [] }).2.newSet.UpdateStrategy
      = { StrategyType := "OnDelete", RollingUpdate := none } :=
  (ComponentGracefulUpgrade_override (sampleHelpers 3) (sampleDependencies (fun _ => "r1"))
    { sampleSet [0, 1, 2] 3 with
      UpdateStrategy := { StrategyType := "OnDelete", RollingUpdate := none } }
    { tc := sampleCluster threeMembers [] "db-pd-0", newSet := sampleSet [0, 1, 2] 3,
      effects := [] } (by decide) (by decide) (by decide) (by decide) (by decide)).2.1

/-- The three ways a run ends when the cluster is synced, not scaling and every pod ordinal
is upgraded and healthy: nothing to roll, manual override, or the loop over skipped
ordinals.  In each the run returns nil, marks the phase and issues no leader transfer. -/
theorem ComponentGracefulUpgrade_settled_cases (h : Helpers) (d : Dependencies)
    (oldSet : StatefulSet) (w : World) (hs : w.tc.PD.Synced = true)
    (hsc : h.PDScaling w.tc = false)
    (hall : ∀ i ∈ oldSet.PodOrdinals, ordinalUpgraded h d w.tc i = true)
    (hpart : ∀ ru, oldSet.UpdateStrategy.RollingUpdate = some ru → ru.Partition ≠ none) :
    ∃ (N : StatefulSet) (E : List Effect),
      ComponentGracefulUpgrade h d oldSet w
          = (.ret none, { tc := markUpgrading w.tc, newSet := N, effects := w.effects ++ E })
        ∧ (∀ t, Effect.transferPDLeader t ∉ E)
        ∧ ((N = w.newSet ∧ (h.templateEqual w.newSet oldSet = false
              ∨ w.tc.PD.StatefulSet.UpdateRevision = w.tc.PD.StatefulSet.CurrentRevision))
          ∨ (N = { w.newSet with UpdateStrategy := oldSet.UpdateStrategy }
              ∧ h.templateEqual w.newSet oldSet = true
              ∧ w.tc.PD.StatefulSet.UpdateRevision ≠ w.tc.PD.StatefulSet.CurrentRevision
              ∧ (oldSet.UpdateStrategy.StrategyType = OnDeleteStatefulSetStrategyType
                  ∨ oldSet.UpdateStrategy.RollingUpdate = none))
          ∨ (∃ p, N = setUpgradePartition w.newSet p ∧ reachesLoop h oldSet w p)) := by
  by_cases hno : h.templateEqual w.newSet oldSet = false
      ∨ w.tc.PD.StatefulSet.UpdateRevision = w.tc.PD.StatefulSet.CurrentRevision
  · refine ⟨w.newSet, [], ?_, by simp, Or.inl ⟨rfl, hno⟩⟩
    rw [ComponentGracefulUpgrade_nothing_to_roll h d oldSet w hs hsc hno]
    simp
  · simp only [not_or, Bool.not_eq_false] at hno
    obtain ⟨hte, hrev⟩ := hno
    by_cases hov : oldSet.UpdateStrategy.StrategyType = OnDeleteStatefulSetStrategyType
        ∨ oldSet.UpdateStrategy.RollingUpdate = none
    · refine ⟨{ w.newSet with UpdateStrategy := oldSet.UpdateStrategy }, [], ?_, by simp,
        Or.inr (Or.inl ⟨rfl, hte, hrev, hov⟩)⟩
      rw [ComponentGracefulUpgrade_manual_override h d oldSet w hs hsc hte hrev hov]
      simp
    · simp only [not_or] at hov
      obtain ⟨hty, hru⟩ := hov
      obtain ⟨ru, hru2⟩ := Option.ne_none_iff_exists'.mp hru
      obtain ⟨p, hp⟩ := Option.ne_none_iff_exists'.mp (hpart ru hru2)
      have hreach : reachesLoop h oldSet w p := by
        refine ⟨hs, hsc, hte, hrev, hty, ?_⟩
        rw [hru2]
        cases ru
        simp only at hp
        simp [hp]
      refine ⟨setUpgradePartition w.newSet p,
        Effect.setUpgradePartition p :: oldSet.PodOrdinals.reverse.map
          (fun i => Effect.getPod w.tc.Namespace (h.PdPodName w.tc.Name i)),
        ?_, ?_, Or.inr (Or.inr ⟨p, rfl, hreach⟩)⟩
      · rw [ComponentGracefulUpgrade_loop_all_upgraded h d oldSet w p hreach hall]
        simp
      · intro t ht
        simp at ht

/-- C8, as stated, fails: the cluster is synced and not scaling, the three pods carry the
update revision and their members are healthy; the run returns nil, yet `tc` comes back
changed (its phase went from `Normal` to `Upgrade`) and so does `newSet` (its partition
went from 3 to the last-applied 0). -/
theorem ComponentGracefulUpgrade_idempotent_counterexample :
    (sampleCluster threeMembers [] "db-pd-0").PD.Synced = true
      ∧ (sampleHelpers 3).PDScaling (sampleCluster threeMembers [] "db-pd-0") = false
      ∧ (∀ i ∈ (sampleSet [0, 1, 2] 0).PodOrdinals,
          ordinalUpgraded (sampleHelpers 3) (sampleDependencies (fun _ => "r2"))
            (sampleCluster threeMembers [] "db-pd-0") i = true)
      ∧ (ComponentGracefulUpgrade (sampleHelpers 3) (sampleDependencies (fun _ => "r2"))
          (sampleSet [0, 1, 2] 0)
          { tc := sampleCluster threeMembers [] "db-pd-0", newSet := sampleSet [0, 1, 2] 3,
            effects := [] }).1 = .ret none
      ∧ (ComponentGracefulUpgrade (sampleHelpers 3) (sampleDependencies (fun _ => "r2"))
          (sampleSet [0, 1, 2] 0)
          { tc := sampleCluster threeMembers [] "db-pd-0", newSet := sampleSet [0, 1, 2] 3,
            effects := [] }).2.tc ≠ sampleCluster threeMembers [] "db-pd-0"
      ∧ (ComponentGracefulUpgrade (sampleHelpers 3) (sampleDependencies (fun _ => "r2"))
          (sampleSet [0, 1, 2] 0)
          { tc := sampleCluster threeMembers [] "db-pd-0", newSet := sampleSet [0, 1, 2] 3,
            effects := [] }).2.tc.PD.Phase = "Upgrade"
      ∧ (ComponentGracefulUpgrade (sampleHelpers 3) (sampleDependencies (fun _ => "r2"))
          (sampleSet [0, 1, 2] 0)
          { tc := sampleCluster threeMembers [] "db-pd-0", newSet := sampleSet [0, 1, 2] 3,
            effects := [] }).2.newSet ≠ sampleSet [0, 1, 2] 3 := by
  decide

/-- C8, amended: for every state in which PD status is synced, PD is not scaling (before
and after the phase is marked), every pod ordinal has the update revision with a healthy
member, and the rolling-update policy of `oldSet`, when set, carries a partition, the run
returns nil and issues no leader transfer; of `tc` it changes only `Status.PD.Phase`, set
to `UpgradePhase`; `newSet` stays as it is when the templates differ or the update
revision is the current one, adopts the update strategy of `oldSet` when that strategy is
`OnDelete` or has no rolling-update policy, and otherwise has only its partition set to
the partition of `oldSet`; running it again on the resulting state returns nil again,
issues no leader transfer and changes neither `tc` nor `newSet`. -/
theorem ComponentGracefulUpgrade_idempotent (h : Helpers) (d : Dependencies)
    (oldSet : StatefulSet) (w : World) (hs : w.tc.PD.Synced = true)
    (hsc : h.PDScaling w.tc = false)
    (hsc2 : h.PDScaling { w.tc with PD := { w.tc.PD with Phase := UpgradePhase } } = false)
    (hall : ∀ i ∈ oldSet.PodOrdinals, ordinalUpgraded h d w.tc i = true)
    (hpart : ∀ ru, oldSet.UpdateStrategy.RollingUpdate = some ru → ru.Partition ≠ none) :
    (ComponentGracefulUpgrade h d oldSet w).1 = .ret none
      ∧ (∀ t, Effect.transferPDLeader t
          ∉ (ComponentGracefulUpgrade h d oldSet w).2.effects.drop w.effects.length)
      ∧ (ComponentGracefulUpgrade h d oldSet w).2.tc
          = { w.tc with PD := { w.tc.PD with Phase := UpgradePhase } }
      ∧ (h.templateEqual w.newSet oldSet = false
            ∨ w.tc.PD.StatefulSet.UpdateRevision = w.tc.PD.StatefulSet.CurrentRevision →
          (ComponentGracefulUpgrade h d oldSet w).2.newSet = w.newSet)
      ∧ (h.templateEqual w.newSet oldSet = true →
          w.tc.PD.StatefulSet.UpdateRevision ≠ w.tc.PD.StatefulSet.CurrentRevision →
          oldSet.UpdateStrategy.StrategyType = OnDeleteStatefulSetStrategyType
            ∨ oldSet.UpdateStrategy.RollingUpdate = none →
          (ComponentGracefulUpgrade h d oldSet w).2.newSet
            = { w.newSet with UpdateStrategy := oldSet.UpdateStrategy })
      ∧ (∀ p : Int, h.templateEqual w.newSet oldSet = true →
          w.tc.PD.StatefulSet.UpdateRevision ≠ w.tc.PD.StatefulSet.CurrentRevision →
          oldSet.UpdateStrategy.StrategyType ≠ OnDeleteStatefulSetStrategyType →
          oldSet.UpdateStrategy.RollingUpdate = some { Partition := some p } →
          (ComponentGracefulUpgrade h d oldSet w).2.newSet
            = { w.newSet with UpdateStrategy := { w.newSet.UpdateStrategy with RollingUpdate := some { Partition := some p } } })
      ∧ (ComponentGracefulUpgrade h d oldSet (ComponentGracefulUpgrade h d oldSet w).2).1
          = .ret none
      ∧ (∀ t, Effect.transferPDLeader t
          ∉ (ComponentGracefulUpgrade h d oldSet (ComponentGracefulUpgrade h d oldSet w).2).2.effects.drop
              (ComponentGracefulUpgrade h d oldSet w).2.effects.length)
      ∧ (ComponentGracefulUpgrade h d oldSet (ComponentGracefulUpgrade h d oldSet w).2).2.tc
          = (ComponentGracefulUpgrade h d oldSet w).2.tc
      ∧ (ComponentGracefulUpgrade h d oldSet (ComponentGracefulUpgrade h d oldSet w).2).2.newSet
          = (ComponentGracefulUpgrade h d oldSet w).2.newSet := by
  have hsc3 : h.PDScaling (markUpgrading w.tc) = false := hsc2
  refine ⟨?_, ?_, ?_, ?_, ?_, ?_, ?_⟩
  · obtain ⟨N, E, hR, _, _⟩ :=
      ComponentGracefulUpgrade_settled_cases h d oldSet w hs hsc hall hpart
    rw [hR]
  · obtain ⟨N, E, hR, hE, _⟩ :=
      ComponentGracefulUpgrade_settled_cases h d oldSet w hs hsc hall hpart
    rw [hR]
    intro t
    rw [List.drop_left]
    exact hE t
  · obtain ⟨N, E, hR, _, _⟩ :=
      ComponentGracefulUpgrade_settled_cases h d oldSet w hs hsc hall hpart
    rw [hR]
    rfl
  · intro hno
    rw [ComponentGracefulUpgrade_nothing_to_roll h d oldSet w hs hsc hno]
  · intro hte hrev hov
    rw [ComponentGracefulUpgrade_manual_override h d oldSet w hs hsc hte hrev hov]
  · intro p hte hrev hty hru
    rw [ComponentGracefulUpgrade_loop_all_upgraded h d oldSet w p
      ⟨hs, hsc, hte, hrev, hty, hru⟩ hall]
    rfl
  · obtain ⟨N, E, hR, hE, hN⟩ :=
      ComponentGracefulUpgrade_settled_cases h d oldSet w hs hsc hall hpart
    obtain ⟨N2, E2, hR2, hE2, hN2⟩ := ComponentGracefulUpgrade_settled_cases h d oldSet
      { tc := markUpgrading w.tc, newSet := N, effects := w.effects ++ E } hs hsc3 hall hpart
    rw [hR]
    dsimp only
    rw [hR2]
    dsimp only
    refine ⟨by trivial, ?_, by trivial, ?_⟩
    · intro t
      rw [List.drop_left]
      exact hE2 t
    · simp only [] at hN2
      rcases hN2 with ⟨hN2, _⟩ | ⟨hN2, hte2, hrev2, hov2⟩ | ⟨p2, hN2, hreach2⟩
      · exact hN2
      · rcases hN with ⟨hN, hno⟩ | ⟨hN, _⟩ | ⟨p, _, hreach⟩
        · rcases hno with hno | hno
          · rw [hN, hno] at hte2
            exact absurd hte2 (by decide)
          · exact absurd hno hrev2
        · rw [hN2, hN]
        · rcases hov2 with hov2 | hov2
          · exact absurd hov2 hreach.2.2.2.2.1
          · rw [hreach.2.2.2.2.2] at hov2
            exact absurd hov2 (by simp)
      · obtain ⟨_, _, hte2, hrev2, hty2, hru2⟩ := hreach2
        simp only [] at hte2
        rcases hN with ⟨hN, hno⟩ | ⟨hN, _, _, hov⟩ | ⟨p, hN, hreach⟩
        · rcases hno with hno | hno
          · rw [hN, hno] at hte2
            exact absurd hte2 (by decide)
          · exact absurd hno hrev2
        · rcases hov with hov | hov
          · exact absurd hov hty2
          · rw [hru2] at hov
            exact absurd hov (by simp)
        · have hp : p2 = p := by
            have := hreach.2.2.2.2.2
            rw [hru2] at this
            simpa using this
          rw [hN2, hN, hp]
          rfl

/-- C8 amended, at a concrete input: three upgraded, healthy pods, `oldSet` with partition
0 and `newSet` with partition 3.  The first run sets the phase of `tc` to `Upgrade` and
the partition of `newSet` to 0; the second run changes neither. -/
theorem ComponentGracefulUpgrade_idempotent_witness :
    (ComponentGracefulUpgrade (sampleHelpers 3) (sampleDependencies (fun _ => "r2"))
        (sampleSet [0, 1, 2] 0)
        { tc := sampleCluster threeMembers [] "db-pd-0", newSet := sampleSet [0, 1, 2] 3,
          effects := [] }).1 = .ret none
      ∧ (ComponentGracefulUpgrade (sampleHelpers 3) (sampleDependencies (fun _ => "r2"))
          (sampleSet [0, 1, 2] 0)
          { tc := sampleCluster threeMembers [] "db-pd-0", newSet := sampleSet [0, 1, 2] 3,
            effects := [] }).2.tc.PD.Phase = "Upgrade"
      ∧ (ComponentGracefulUpgrade (sampleHelpers 3) (sampleDependencies (fun _ => "r2"))
          (sampleSet [0, 1, 2] 0)
          { tc := sampleCluster threeMembers [] "db-pd-0", newSet := sampleSet [0, 1, 2] 3,
            effects := [] }).2.newSet = sampleSet [0, 1, 2] 0
      ∧ (ComponentGracefulUpgrade (sampleHelpers 3) (sampleDependencies (fun _ => "r2"))
          (sampleSet [0, 1, 2] 0)
          (ComponentGracefulUpgrade (sampleHelpers 3) (sampleDependencies (fun _ => "r2"))
            (sampleSet [0, 1, 2] 0)
            { tc := sampleCluster threeMembers [] "db-pd-0", newSet := sampleSet [0, 1, 2] 3,
              effects := [] }).2).2.newSet = sampleSet [0, 1, 2] 0 :=
  have key := ComponentGracefulUpgrade_idempotent (sampleHelpers 3)
    (sampleDependencies (fun _ => "r2")) (sampleSet [0, 1, 2] 0)
    { tc := sampleCluster threeMembers [] "db-pd-0", newSet := sampleSet [0, 1, 2] 3,
      effects := [] } (by decide) (by decide) (by decide) (by decide) (by decide)
  have hnew := key.2.2.2.2.2.1 0 (by decide) (by decide) (by decide) rfl
  ⟨key.1, congrArg (fun tc => tc.PD.Phase) key.2.2.1, hnew,
    key.2.2.2.2.2.2.2.2.2.trans hnew⟩

/-- The loop over a run of skipped ordinals followed by others: the skipped ones are only
looked up. -/
theorem upgradeLoop_append_upgraded (h : Helpers) (d : Dependencies) (rest : List Int) :
    ∀ (pre : List Int) (w : World), (∀ j ∈ pre, ordinalUpgraded h d w.tc j = true) →
      upgradeLoop h d (pre ++ rest) w
        = upgradeLoop h d rest
            { w with
              effects := w.effects ++ pre.map (fun j => Effect.getPod w.tc.Namespace (h.PdPodName w.tc.Name j)) }
  | [], w, _ => by simp
  | j :: pre, w, hall => by
    rw [List.cons_append, upgradeLoop_cons_upgraded h d j (pre ++ rest) w (hall j (by simp))]
    rw [upgradeLoop_append_upgraded h d rest pre
      { w with effects := w.effects ++ [.getPod w.tc.Namespace (h.PdPodName w.tc.Name j)] }
      (fun x hx => hall x (by simp [hx]))]
    simp

/-- In a list in ascending order, the reversed list splits at any of its elements into
the greater ones, the element, and the smaller ones. -/
theorem reverse_split_of_sorted (ords : List Int) (i : Int)
    (hsorted : ords.Pairwise (fun a b => a < b)) (hi : i ∈ ords) :
    ∃ pre post, ords.reverse = pre ++ i :: post ∧ (∀ j ∈ pre, i < j ∧ j ∈ ords)
      ∧ (∀ j ∈ post, j < i) := by
  obtain ⟨pre, post, hsplit⟩ := List.append_of_mem (List.mem_reverse.mpr hi)
  have hpw : (pre ++ i :: post).Pairwise (fun a b => b < a) := by
    rw [← hsplit, List.pairwise_reverse]
    exact hsorted
  rw [List.pairwise_append] at hpw
  obtain ⟨_, hipost, hprepost⟩ := hpw
  rw [List.pairwise_cons] at hipost
  refine ⟨pre, post, hsplit, ?_, hipost.1⟩
  intro j hj
  refine ⟨hprepost j hj i (by simp), ?_⟩
  rw [← List.mem_reverse, hsplit]
  simp [hj]

/-- The run that reaches the loop, skips every ordinal above `i` and finds `i` outdated:
what is left is the iteration on `i`. -/
theorem ComponentGracefulUpgrade_reaches_outdated (h : Helpers) (d : Dependencies)
    (oldSet : StatefulSet) (w : World) (p i : Int) (hreach : reachesLoop h oldSet w p)
    (hsorted : oldSet.PodOrdinals.Pairwise (fun a b => a < b)) (hi : i ∈ oldSet.PodOrdinals)
    (hout : ordinalOutdated h d w.tc i = true)
    (hup : ∀ j ∈ oldSet.PodOrdinals, i < j → ordinalUpgraded h d w.tc j = true) :
    ∃ E : List Effect, (∀ t, Effect.transferPDLeader t ∉ E)
      ∧ ComponentGracefulUpgrade h d oldSet w
        = if d.PodWebhookEnabled then
            (.ret none,
              { tc := markUpgrading w.tc, newSet := setUpgradePartition w.newSet i,
                effects := (w.effects ++ E) ++ [.setUpgradePartition i] })
          else ComponentUpgradePDPod h d i
            { tc := markUpgrading w.tc, newSet := setUpgradePartition w.newSet p,
              effects := w.effects ++ E } := by
  obtain ⟨pre, post, hsplit, hpre, _⟩ := reverse_split_of_sorted oldSet.PodOrdinals i hsorted hi
  refine ⟨Effect.setUpgradePartition p
    :: (pre.map (fun j => Effect.getPod w.tc.Namespace (h.PdPodName w.tc.Name j))
        ++ [.getPod w.tc.Namespace (h.PdPodName w.tc.Name i)]), ?_, ?_⟩
  · intro t ht
    simp at ht
  · rw [ComponentGracefulUpgrade_of_reachesLoop h d oldSet w p hreach, hsplit]
    rw [upgradeLoop_append_upgraded h d (i :: post) pre
      { tc := markUpgrading w.tc, newSet := setUpgradePartition w.newSet p,
        effects := w.effects ++ [.setUpgradePartition p] }
      (fun j hj => hup j (hpre j hj).2 (hpre j hj).1)]
    refine (upgradeLoop_cons_outdated h d i post
      { tc := markUpgrading w.tc, newSet := setUpgradePartition w.newSet p,
        effects := (w.effects ++ [.setUpgradePartition p])
          ++ pre.map (fun j => Effect.getPod w.tc.Namespace (h.PdPodName w.tc.Name j)) }
      hout).trans ?_
    by_cases hweb : d.PodWebhookEnabled = true
    · rw [if_pos hweb, if_pos hweb]
      simp [setUpgradePartition, markUpgrading]
    · rw [if_neg hweb, if_neg hweb]
      simp [markUpgrading]

/-- C11, as stated, fails: with the pod webhook enabled, ordinal 1 is the first ordinal from
the top whose revision differs (`r1`, the update revision being `r2`), but ordinal 2, which
has the update revision, has an unhealthy member; the run returns the requeue error of
line 87 and the partition of `newSet` stays at the last-applied 3, it is not set to 1. -/
theorem ComponentGracefulUpgrade_webhook_counterexample :
    (sampleWebhookDependencies (fun i => if i = 2 then "r2" else "r1")).PodWebhookEnabled = true
      ∧ reachesLoop (sampleHelpers 3) (sampleSet [0, 1, 2] 3)
          { tc := sampleCluster membersLastUnhealthy [] "db-pd-0",
            newSet := sampleSet [0, 1, 2] 3, effects := [] } 3
      ∧ podRevision (sampleHelpers 3)
          (sampleWebhookDependencies (fun i => if i = 2 then "r2" else "r1"))
          (sampleCluster membersLastUnhealthy [] "db-pd-0") 2 = some "r2"
      ∧ ordinalOutdated (sampleHelpers 3)
          (sampleWebhookDependencies (fun i => if i = 2 then "r2" else "r1"))
          (sampleCluster membersLastUnhealthy [] "db-pd-0") 1 = true
      ∧ (ComponentGracefulUpgrade (sampleHelpers 3)
          (sampleWebhookDependencies (fun i => if i = 2 then "r2" else "r1"))
          (sampleSet [0, 1, 2] 3)
          { tc := sampleCluster membersLastUnhealthy [] "db-pd-0",
            newSet := sampleSet [0, 1, 2] 3, effects := [] }).1
          = .ret (some (.upgradedPodNotReady "db-pd-2"))
      ∧ (ComponentGracefulUpgrade (sampleHelpers 3)
          (sampleWebhookDependencies (fun i => if i = 2 then "r2" else "r1"))
          (sampleSet [0, 1, 2] 3)
          { tc := sampleCluster membersLastUnhealthy [] "db-pd-0",
            newSet := sampleSet [0, 1, 2] 3, effects := [] }).2.newSet.UpdateStrategy.RollingUpdate
          = some { Partition := some 3 } := by
  decide

/-- C11, amended: with `PodWebhookEnabled = true`, in a run that reaches the loop over pod
ordinals in ascending order, let `i` be the first ordinal from the top whose revision
differs from the update revision, every greater ordinal having the update revision and a
healthy member.  Then the run sets the partition of `newSet` to exactly `i`, returns nil
and issues no leader transfer; nothing is assumed on who the leader is. -/
theorem ComponentGracefulUpgrade_webhook (h : Helpers) (d : Dependencies)
    (oldSet : StatefulSet) (w : World) (p i : Int) (hweb : d.PodWebhookEnabled = true)
    (hreach : reachesLoop h oldSet w p)
    (hsorted : oldSet.PodOrdinals.Pairwise (fun a b => a < b)) (hi : i ∈ oldSet.PodOrdinals)
    (hout : ordinalOutdated h d w.tc i = true)
    (hrev : ∀ j ∈ oldSet.PodOrdinals, i < j →
      podRevision h d w.tc j = some w.tc.PD.StatefulSet.UpdateRevision)
    (hhealth : ∀ j ∈ oldSet.PodOrdinals, i < j → memberHealthy h w.tc j = true) :
    (ComponentGracefulUpgrade h d oldSet w).1 = .ret none
      ∧ (ComponentGracefulUpgrade h d oldSet w).2.newSet.UpdateStrategy.RollingUpdate
          = some { Partition := some i }
      ∧ (ComponentGracefulUpgrade h d oldSet w).2.newSet = setUpgradePartition w.newSet i
      ∧ (∀ t, Effect.transferPDLeader t
          ∉ (ComponentGracefulUpgrade h d oldSet w).2.effects.drop w.effects.length)
      ∧ (ComponentGracefulUpgrade h d oldSet w).2.effects.getLast? = some (.setUpgradePartition i)
      ∧ (ComponentGracefulUpgrade h d oldSet w).2.tc = markUpgrading w.tc := by
  have hup : ∀ j ∈ oldSet.PodOrdinals, i < j → ordinalUpgraded h d w.tc j = true := by
    intro j hj hij
    simp [ordinalUpgraded, hrev j hj hij, hhealth j hj hij]
  obtain ⟨E, hE, hrun⟩ :=
    ComponentGracefulUpgrade_reaches_outdated h d oldSet w p i hreach hsorted hi hout hup
  rw [hrun, if_pos hweb]
  refine ⟨rfl, rfl, rfl, ?_, by simp, rfl⟩
  intro t ht
  simp only [List.append_assoc, List.drop_left, List.mem_append, List.mem_singleton,
    reduceCtorEq, or_false] at ht
  exact hE t ht

/-- C11 amended, at a concrete input: ordinal 2 is upgraded and healthy, ordinal 1 is
outdated and is the leader; the partition is set to 1 and no transfer is issued. -/
theorem ComponentGracefulUpgrade_webhook_witness :
    (ComponentGracefulUpgrade (sampleHelpers 3)
        (sampleWebhookDependencies (fun i => if i = 2 then "r2" else "r1"))
        (sampleSet [0, 1, 2] 2)
        { tc := sampleCluster threeMembers [] "db-pd-1", newSet := sampleSet [0, 1, 2] 3,
          effects := [] }).1 = .ret none
      ∧ (ComponentGracefulUpgrade (sampleHelpers 3)
        (sampleWebhookDependencies (fun i => if i = 2 then "r2" else "r1"))
        (sampleSet [0, 1, 2] 2)
        { tc := sampleCluster threeMembers [] "db-pd-1", newSet := sampleSet [0, 1, 2] 3,
          effects := [] }).2.newSet.UpdateStrategy.RollingUpdate = some { Partition := some 1 } :=
  have key := ComponentGracefulUpgrade_webhook (sampleHelpers 3)
    (sampleWebhookDependencies (fun i => if i = 2 then "r2" else "r1"))
    (sampleSet [0, 1, 2] 2)
    { tc := sampleCluster threeMembers [] "db-pd-1", newSet := sampleSet [0, 1, 2] 3,
      effects := [] } 2 1 (by decide) (by decide) (by decide) (by decide) (by decide)
    (by decide) (by decide)
  ⟨key.1, key.2.1⟩

/-- C12: with the ordinal being the leader and `PDStsActualReplicas > 1`, the selected
target name is `PdName` of the target ordinal when that name is a key of
`tc.Status.PD.Members` and `PdPodName` of the target ordinal otherwise; every transfer
call of the run is passed that name, and when the name is not empty the run is exactly
that one transfer call. -/
theorem ComponentUpgradePDPod_target_name (h : Helpers) (d : Dependencies) (ordinal : Int)
    (w : World)
    (hl : w.tc.PD.Leader.Name = h.PdName w.tc.Name ordinal w.tc.Namespace w.tc.ClusterDomain
      ∨ w.tc.PD.Leader.Name = h.PdPodName w.tc.Name ordinal)
    (hr : h.PDStsActualReplicas w.tc > 1) :
    ((∃ m, w.tc.PD.Members.lookup (h.PdName w.tc.Name (selectTargetOrdinal w.newSet ordinal)
          w.tc.Namespace w.tc.ClusterDomain) = some m)
        → selectTargetName h w.tc w.newSet ordinal
          = h.PdName w.tc.Name (selectTargetOrdinal w.newSet ordinal) w.tc.Namespace
              w.tc.ClusterDomain)
      ∧ (w.tc.PD.Members.lookup (h.PdName w.tc.Name (selectTargetOrdinal w.newSet ordinal)
          w.tc.Namespace w.tc.ClusterDomain) = none
        → selectTargetName h w.tc w.newSet ordinal
          = h.PdPodName w.tc.Name (selectTargetOrdinal w.newSet ordinal))
      ∧ (∀ name, Effect.transferPDLeader name
            ∈ (ComponentUpgradePDPod h d ordinal w).2.effects.drop w.effects.length
          → name = selectTargetName h w.tc w.newSet ordinal)
      ∧ (selectTargetName h w.tc w.newSet ordinal ≠ ""
          → (ComponentUpgradePDPod h d ordinal w).2.effects
              = w.effects ++ [.transferPDLeader (selectTargetName h w.tc w.newSet ordinal)]) := by
  refine ⟨?_, ?_, ?_, ?_⟩
  · rintro ⟨m, hm⟩
    rw [selectTargetName_multi h w.tc w.newSet ordinal hr, hm]
    simp
  · intro hm
    rw [selectTargetName_multi h w.tc w.newSet ordinal hr, hm]
    simp
  · intro name hmem
    exact (ComponentUpgradePDPod_transfers h d ordinal w name hmem).1
  · intro hsel
    rw [ComponentUpgradePDPod_leader_target h d ordinal w
      (isLeaderOrdinal_eq_true h w.tc ordinal hl) hsel]

/-- C12 at a concrete input: ordinal 2 of three is the leader; the target ordinal 0 is not
among the members, so the transfer goes to the pod name `db-pd-0`. -/
theorem ComponentUpgradePDPod_target_name_witness :
    (ComponentUpgradePDPod
        (sampleDomainHelpers 3)
        (sampleDependencies (fun _ => "r1")) 2
        { tc := sampleCluster threeMembers [] "db-pd-2", newSet := sampleSet [0, 1, 2] 3,
          effects := [] }).2.effects = [.transferPDLeader "db-pd-0"] :=
  (ComponentUpgradePDPod_target_name
    (sampleDomainHelpers 3)
    (sampleDependencies (fun _ => "r1")) 2
    { tc := sampleCluster threeMembers [] "db-pd-2", newSet := sampleSet [0, 1, 2] 3,
      effects := [] } (by decide) (by decide)).2.2.2 (by decide)

/-- A leader ordinal has its leadership transferred exactly when the selected target name
is not empty. -/
theorem ComponentUpgradePDPod_transfer_iff (h : Helpers) (d : Dependencies) (ordinal : Int)
    (w : World) (hl : isLeaderOrdinal h w.tc ordinal = true) :
    (∃ t, Effect.transferPDLeader t
        ∈ (ComponentUpgradePDPod h d ordinal w).2.effects.drop w.effects.length)
      ↔ selectTargetName h w.tc w.newSet ordinal ≠ "" := by
  constructor
  · rintro ⟨t, ht⟩
    obtain ⟨ht1, ht2, _⟩ := ComponentUpgradePDPod_transfers h d ordinal w t ht
    rw [← ht1]
    exact ht2
  · intro hsel
    refine ⟨selectTargetName h w.tc w.newSet ordinal, ?_⟩
    rw [ComponentUpgradePDPod_leader_target h d ordinal w hl hsel]
    simp

/-- C13, as stated, fails: `db-pd-0` is the leader and the only replica; the one peer member
is healthy and is not the member being vacated, but its name is empty, so the selected
target name is empty and no transfer is issued: the run sets the partition instead. -/
theorem ComponentUpgradePDPod_single_replica_counterexample :
    (sampleCluster [("db-pd-0", { Name := "db-pd-0", Health := true })]
        [("", { Name := "", Health := true })] "db-pd-0").PD.Leader.Name
        = (sampleHelpers 1).PdName "db" 0 "ns" ""
      ∧ ¬ (sampleHelpers 1).PDStsActualReplicas
          (sampleCluster [("db-pd-0", { Name := "db-pd-0", Health := true })]
            [("", { Name := "", Health := true })] "db-pd-0") > 1
      ∧ (∃ kv ∈ (sampleCluster [("db-pd-0", { Name := "db-pd-0", Health := true })]
            [("", { Name := "", Health := true })] "db-pd-0").PD.PeerMembers,
          kv.2.Health = true ∧ kv.2.Name ≠ (sampleHelpers 1).PdName "db" 0 "ns" "")
      ∧ (ComponentUpgradePDPod (sampleHelpers 1) (sampleDependencies (fun _ => "r1")) 0
          { tc := sampleCluster [("db-pd-0", { Name := "db-pd-0", Health := true })]
              [("", { Name := "", Health := true })] "db-pd-0",
            newSet := sampleSet [0] 1, effects := [] }).2.effects = [.setUpgradePartition 0]
      ∧ (ComponentUpgradePDPod (sampleHelpers 1) (sampleDependencies (fun _ => "r1")) 0
          { tc := sampleCluster [("db-pd-0", { Name := "db-pd-0", Health := true })]
              [("", { Name := "", Health := true })] "db-pd-0",
            newSet := sampleSet [0] 1, effects := [] }).1 = .ret none := by
  decide

/-- C13, amended: with the ordinal being the leader and `PDStsActualReplicas` not greater
than 1, a transfer is issued if and only if the first entry of `tc.Status.PD.PeerMembers`
(in iteration order) that is healthy and is not the member being vacated has a non-empty
name; the transfer target is then the name of a healthy peer that is not the member being
vacated; and when every peer member has a non-empty name, a transfer is issued if and only
if some entry is healthy and is not the member being vacated. -/
theorem ComponentUpgradePDPod_single_replica (h : Helpers) (d : Dependencies) (ordinal : Int)
    (w : World)
    (hl : w.tc.PD.Leader.Name = h.PdName w.tc.Name ordinal w.tc.Namespace w.tc.ClusterDomain
      ∨ w.tc.PD.Leader.Name = h.PdPodName w.tc.Name ordinal)
    (hr : ¬ h.PDStsActualReplicas w.tc > 1) :
    ((∃ t, Effect.transferPDLeader t
          ∈ (ComponentUpgradePDPod h d ordinal w).2.effects.drop w.effects.length)
        ↔ ∃ kv, w.tc.PD.PeerMembers.find? (fun kv =>
              kv.2.Name != h.PdName w.tc.Name ordinal w.tc.Namespace w.tc.ClusterDomain
                && kv.2.Health) = some kv
            ∧ kv.2.Name ≠ "")
      ∧ (∀ t, Effect.transferPDLeader t
            ∈ (ComponentUpgradePDPod h d ordinal w).2.effects.drop w.effects.length
          → (ComponentUpgradePDPod h d ordinal w).2.effects = w.effects ++ [.transferPDLeader t]
            ∧ ∃ kv ∈ w.tc.PD.PeerMembers, kv.2.Health = true
              ∧ kv.2.Name ≠ h.PdName w.tc.Name ordinal w.tc.Namespace w.tc.ClusterDomain
              ∧ kv.2.Name = t)
      ∧ ((∀ kv ∈ w.tc.PD.PeerMembers, kv.2.Name ≠ "")
          → ((∃ t, Effect.transferPDLeader t
                ∈ (ComponentUpgradePDPod h d ordinal w).2.effects.drop w.effects.length)
              ↔ ∃ kv ∈ w.tc.PD.PeerMembers, kv.2.Health = true
                ∧ kv.2.Name ≠ h.PdName w.tc.Name ordinal w.tc.Namespace w.tc.ClusterDomain)) := by
  have hlead := isLeaderOrdinal_eq_true h w.tc ordinal hl
  have hiff := ComponentUpgradePDPod_transfer_iff h d ordinal w hlead
  have hsel := selectTargetName_single h w.tc w.newSet ordinal hr
  have hfound : ∀ kv, w.tc.PD.PeerMembers.find? (fun kv =>
        kv.2.Name != h.PdName w.tc.Name ordinal w.tc.Namespace w.tc.ClusterDomain
          && kv.2.Health) = some kv →
      kv ∈ w.tc.PD.PeerMembers ∧ kv.2.Health = true
        ∧ kv.2.Name ≠ h.PdName w.tc.Name ordinal w.tc.Namespace w.tc.ClusterDomain := by
    intro kv hkv
    have hp := List.find?_some hkv
    simp only [bne_iff_ne, ne_eq, Bool.and_eq_true, decide_eq_true_eq] at hp
    exact ⟨List.mem_of_find?_eq_some hkv, hp.2, hp.1⟩
  have hfirst : selectTargetName h w.tc w.newSet ordinal ≠ ""
      ↔ ∃ kv, w.tc.PD.PeerMembers.find? (fun kv =>
            kv.2.Name != h.PdName w.tc.Name ordinal w.tc.Namespace w.tc.ClusterDomain
              && kv.2.Health) = some kv
          ∧ kv.2.Name ≠ "" := by
    rw [hsel]
    cases hf : w.tc.PD.PeerMembers.find? (fun kv =>
        kv.2.Name != h.PdName w.tc.Name ordinal w.tc.Namespace w.tc.ClusterDomain
          && kv.2.Health) with
    | none => simp
    | some kv => simp
  refine ⟨hiff.trans hfirst, ?_, ?_⟩
  · intro t ht
    obtain ⟨ht1, ht2, _⟩ := ComponentUpgradePDPod_transfers h d ordinal w t ht
    refine ⟨?_, ?_⟩
    · rw [ComponentUpgradePDPod_leader_target h d ordinal w hlead (ht1 ▸ ht2), ← ht1]
    · obtain ⟨kv, hkv, _⟩ := hfirst.mp (ht1 ▸ ht2)
      obtain ⟨hmem, hhealth, hne⟩ := hfound kv hkv
      refine ⟨kv, hmem, hhealth, hne, ?_⟩
      rw [ht1, hsel, hkv]
  · intro hnames
    rw [hiff, hfirst]
    constructor
    · rintro ⟨kv, hkv, _⟩
      obtain ⟨hmem, hhealth, hne⟩ := hfound kv hkv
      exact ⟨kv, hmem, hhealth, hne⟩
    · rintro ⟨kv, hmem, hhealth, hne⟩
      cases hf : w.tc.PD.PeerMembers.find? (fun kv =>
          kv.2.Name != h.PdName w.tc.Name ordinal w.tc.Namespace w.tc.ClusterDomain
            && kv.2.Health) with
      | none =>
        rw [List.find?_eq_none] at hf
        have := hf kv hmem
        simp [hhealth, hne] at this
      | some kv2 => exact ⟨kv2, rfl, hnames kv2 (List.mem_of_find?_eq_some hf)⟩

/-- C13 amended, at a concrete input: the single replica `db-pd-0` is the leader and the
healthy peer `peer-pd-0` receives the leadership. -/
theorem ComponentUpgradePDPod_single_replica_witness :
    ∃ t, Effect.transferPDLeader t
      ∈ (ComponentUpgradePDPod (sampleHelpers 1) (sampleDependencies (fun _ => "r1")) 0
          { tc := sampleCluster [("db-pd-0", { Name := "db-pd-0", Health := true })]
              [("peer-pd-0", { Name := "peer-pd-0", Health := true })] "db-pd-0",
            newSet := sampleSet [0] 1, effects := [] }).2.effects.drop 0 :=
  ((ComponentUpgradePDPod_single_replica (sampleHelpers 1)
    (sampleDependencies (fun _ => "r1")) 0
    { tc := sampleCluster [("db-pd-0", { Name := "db-pd-0", Health := true })]
        [("peer-pd-0", { Name := "peer-pd-0", Health := true })] "db-pd-0",
      newSet := sampleSet [0] 1, effects := [] } (by decide) (by decide)).2.2
    (by decide)).mpr (by decide)

/-! ### The transfer target and the leader -/

/-- On non-negative pod ordinals that hold another ordinal than the upgraded one, the
target ordinal of lines 114-117 is a pod ordinal of the set and is not the upgraded
one. -/
theorem selectTargetOrdinal_ne (newSet : StatefulSet) (ordinal : Int)
    (hnn : ∀ k ∈ newSet.PodOrdinals, 0 ≤ k)
    (hother : ∃ j ∈ newSet.PodOrdinals, j ≠ ordinal) :
    selectTargetOrdinal newSet ordinal ∈ newSet.PodOrdinals
      ∧ selectTargetOrdinal newSet ordinal ≠ ordinal := by
  obtain ⟨j, hj, hjo⟩ := hother
  have hne : newSet.PodOrdinals ≠ [] := List.ne_nil_of_mem hj
  obtain ⟨hmaxmem, hmax⟩ := GetMaxPodOrdinal_spec newSet hne hnn
  obtain ⟨hminmem, hmin⟩ := GetMinPodOrdinal_spec newSet hne hnn
  unfold selectTargetOrdinal
  by_cases ho : ordinal = GetMaxPodOrdinal newSet
  · simp only [ho, if_true]
    refine ⟨hminmem, ?_⟩
    have h1 := hmin j hj
    have h2 := hmax j hj
    omega
  · simp only [ho, if_false]
    exact ⟨hmaxmem, fun heq => ho heq.symm⟩

/-- The guard of lines 115-117 on a set whose only pod ordinal is the upgraded one: the
greatest ordinal is the upgraded one and so is the least, so the target ordinal is the
upgraded ordinal itself.  With `PDStsActualReplicas > 1`, the leader recorded under the PD
name of the ordinal and that name a key of `tc.Status.PD.Members`, the run is one
transfer call whose target is the current leader. -/
theorem ComponentUpgradePDPod_self_transfer (h : Helpers) (d : Dependencies) (ordinal : Int)
    (w : World)
    (hl : w.tc.PD.Leader.Name = h.PdName w.tc.Name ordinal w.tc.Namespace w.tc.ClusterDomain)
    (hr : h.PDStsActualReplicas w.tc > 1) (hords : w.newSet.PodOrdinals = [ordinal])
    (hnn : 0 ≤ ordinal)
    (hm : (w.tc.PD.Members.lookup w.tc.PD.Leader.Name).isSome = true)
    (hne : w.tc.PD.Leader.Name ≠ "") :
    selectTargetOrdinal w.newSet ordinal = ordinal
      ∧ (ComponentUpgradePDPod h d ordinal w).2.effects
          = w.effects ++ [.transferPDLeader w.tc.PD.Leader.Name] := by
  have hord : selectTargetOrdinal w.newSet ordinal = ordinal := by
    have h1 : ordinal > -1 := by omega
    simp [selectTargetOrdinal, GetMaxPodOrdinal, GetMinPodOrdinal, hords, h1]
  have hsel : selectTargetName h w.tc w.newSet ordinal = w.tc.PD.Leader.Name := by
    rw [selectTargetName_multi h w.tc w.newSet ordinal hr, hord, ← hl, if_pos hm]
  refine ⟨hord, ?_⟩
  rw [ComponentUpgradePDPod_leader_target h d ordinal w
    (isLeaderOrdinal_eq_true h w.tc ordinal (Or.inl hl)) (by rw [hsel]; exact hne), hsel]

/-- C32 fails on the code: `PDStsActualReplicas` is 2 while `newSet` has the single pod
ordinal 0, and `db-pd-0` is the leader and a member.  The target ordinal is the greatest
ordinal 0, which is the upgraded one, so line 116 replaces it by the least ordinal, 0
again; the run transfers the leadership to `db-pd-0`, the current leader, and returns the
requeue error of line 137. -/
theorem ComponentUpgradePDPod_transfers_to_leader :
    (sampleHelpers 2).PDStsActualReplicas
        (sampleCluster [("db-pd-0", { Name := "db-pd-0", Health := true })] [] "db-pd-0") > 1
      ∧ (sampleCluster [("db-pd-0", { Name := "db-pd-0", Health := true })] []
          "db-pd-0").PD.Leader.Name = "db-pd-0"
      ∧ (sampleHelpers 2).PdName "db" 0 "ns" "" = "db-pd-0"
      ∧ GetMaxPodOrdinal (sampleSet [0] 1) = 0
      ∧ GetMinPodOrdinal (sampleSet [0] 1) = 0
      ∧ (ComponentUpgradePDPod (sampleHelpers 2) (sampleDependencies (fun _ => "r1")) 0
          { tc := sampleCluster [("db-pd-0", { Name := "db-pd-0", Health := true })] []
              "db-pd-0",
            newSet := sampleSet [0] 1, effects := [] }).2.effects
          = [.transferPDLeader "db-pd-0"]
      ∧ (ComponentUpgradePDPod (sampleHelpers 2) (sampleDependencies (fun _ => "r1")) 0
          { tc := sampleCluster [("db-pd-0", { Name := "db-pd-0", Health := true })] []
              "db-pd-0",
            newSet := sampleSet [0] 1, effects := [] }).1
          = .ret (some (.transferringLeader "db-pd-0" "db-pd-0")) := by
  decide

/-- The guard of line 124 compares the peer names with the PD name of the ordinal only: in
a cluster with a cluster domain whose leader is recorded under its pod name `db-pd-0`
(line 111 accepts both names), a healthy peer member named `db-pd-0` receives the
transfer. -/
theorem ComponentUpgradePDPod_peer_named_as_pod :
    (sampleNamingHelpers 1).PdName "db" 0 "ns" "cluster.local"
        = "db-pd-0.db-pd-peer.ns.svc.cluster.local"
      ∧ (sampleNamingHelpers 1).PdPodName "db" 0 = "db-pd-0"
      ∧ (ComponentUpgradePDPod (sampleNamingHelpers 1) (sampleDependencies (fun _ => "r1")) 0
          { tc := sampleDomainCluster [] [("db-pd-0", { Name := "db-pd-0", Health := true })]
              "db-pd-0",
            newSet := sampleSet [0] 1, effects := [] }).2.effects
          = [.transferPDLeader "db-pd-0"] := by
  decide

/-- Where the guards of lines 115 and 124 do keep the target off the leader.  Let
`ComponentUpgradePDPod` issue a leader transfer to `t`.  With `PDStsActualReplicas > 1`,
when the pod ordinals of `newSet` are non-negative and hold another ordinal than the
upgraded one, and the names of those other ordinals are not names of the upgraded ordinal,
`t` differs from `tc.Status.PD.Leader.Name`.  With `PDStsActualReplicas` not greater than
1, `t` is the name of a healthy peer member and differs from the PD name of the upgraded
ordinal, hence from `tc.Status.PD.Leader.Name` when the leader is recorded under that PD
name. -/
theorem ComponentUpgradePDPod_transfer_target (h : Helpers) (d : Dependencies) (ordinal : Int)
    (w : World) (t : String)
    (hmem : Effect.transferPDLeader t
      ∈ (ComponentUpgradePDPod h d ordinal w).2.effects.drop w.effects.length) :
    (h.PDStsActualReplicas w.tc > 1 →
        (∀ k ∈ w.newSet.PodOrdinals, 0 ≤ k) →
        (∃ j ∈ w.newSet.PodOrdinals, j ≠ ordinal) →
        (∀ j ∈ w.newSet.PodOrdinals, j ≠ ordinal → namesDiffer h w.tc ordinal j) →
        t ≠ w.tc.PD.Leader.Name)
      ∧ (¬ h.PDStsActualReplicas w.tc > 1 →
          (∃ kv ∈ w.tc.PD.PeerMembers, kv.2.Health = true ∧ kv.2.Name = t)
            ∧ t ≠ h.PdName w.tc.Name ordinal w.tc.Namespace w.tc.ClusterDomain
            ∧ (w.tc.PD.Leader.Name
                  = h.PdName w.tc.Name ordinal w.tc.Namespace w.tc.ClusterDomain
                → t ≠ w.tc.PD.Leader.Name)) := by
  obtain ⟨ht1, ht2, hlead⟩ := ComponentUpgradePDPod_transfers h d ordinal w t hmem
  simp only [isLeaderOrdinal, Bool.or_eq_true, beq_iff_eq] at hlead
  refine ⟨?_, ?_⟩
  · intro hr hnn hother hnames
    obtain ⟨htmem, htne⟩ := selectTargetOrdinal_ne w.newSet ordinal hnn hother
    obtain ⟨n1, n2, n3, n4⟩ := hnames _ htmem htne
    rw [selectTargetName_multi h w.tc w.newSet ordinal hr] at ht1
    by_cases hm : (w.tc.PD.Members.lookup (h.PdName w.tc.Name
        (selectTargetOrdinal w.newSet ordinal) w.tc.Namespace w.tc.ClusterDomain)).isSome = true
    · rw [if_pos hm] at ht1
      rw [ht1]
      rcases hlead with hl | hl
      · rw [hl]; exact n1
      · rw [hl]; exact n2
    · rw [if_neg hm] at ht1
      rw [ht1]
      rcases hlead with hl | hl
      · rw [hl]; exact n3
      · rw [hl]; exact n4
  · intro hr
    rw [selectTargetName_single h w.tc w.newSet ordinal hr] at ht1
    cases hf : w.tc.PD.PeerMembers.find? (fun kv =>
        kv.2.Name != h.PdName w.tc.Name ordinal w.tc.Namespace w.tc.ClusterDomain
          && kv.2.Health) with
    | none =>
      rw [hf] at ht1
      exact absurd ht1 ht2
    | some kv =>
      rw [hf] at ht1
      have hp := List.find?_some hf
      simp only [bne_iff_ne, ne_eq, Bool.and_eq_true, decide_eq_true_eq] at hp
      have hne : t ≠ h.PdName w.tc.Name ordinal w.tc.Namespace w.tc.ClusterDomain := by
        rw [ht1]; exact hp.1
      refine ⟨⟨kv, List.mem_of_find?_eq_some hf, hp.2, ht1.symm⟩, hne, ?_⟩
      intro hl
      rw [hl]
      exact hne

/-- The guard of line 115 at a concrete input: ordinal 2 of three is the leader `db-pd-2`;
the transfer goes to `db-pd-0`, which is not the leader. -/
theorem ComponentUpgradePDPod_transfer_target_example :
    Effect.transferPDLeader "db-pd-0"
        ∈ (ComponentUpgradePDPod (sampleHelpers 3) (sampleDependencies (fun _ => "r1")) 2
            { tc := sampleCluster threeMembers [] "db-pd-2", newSet := sampleSet [0, 1, 2] 3,
              effects := [] }).2.effects.drop 0
      ∧ "db-pd-0" ≠ (sampleCluster threeMembers [] "db-pd-2").PD.Leader.Name :=
  ⟨by decide,
    (ComponentUpgradePDPod_transfer_target (sampleHelpers 3)
      (sampleDependencies (fun _ => "r1")) 2
      { tc := sampleCluster threeMembers [] "db-pd-2", newSet := sampleSet [0, 1, 2] 3,
        effects := [] } "db-pd-0" (by decide)).1 (by decide) (by decide) (by decide)
      (by decide)⟩

/-! ### An upgraded member that is not healthy -/

/-- One iteration of the loop on an ordinal whose pod has the update revision and whose
member is missing or not healthy: the requeue error of line 87, after the pod lookup. -/
theorem upgradeLoop_cons_not_ready (h : Helpers) (d : Dependencies) (i : Int) (rest : List Int)
    (w : World) (hrev : podRevision h d w.tc i = some w.tc.PD.StatefulSet.UpdateRevision)
    (hm : memberHealthy h w.tc i = false) :
    upgradeLoop h d (i :: rest) w
      = (.ret (some (.upgradedPodNotReady (h.PdPodName w.tc.Name i))),
          { w with effects := w.effects ++ [.getPod w.tc.Namespace (h.PdPodName w.tc.Name i)] }) := by
  simp only [podRevision] at hrev
  simp only [memberHealthy] at hm
  rw [upgradeLoop]
  cases hpod : d.PodLister w.tc.Namespace (h.PdPodName w.tc.Name i) with
  | error e => simp [hpod] at hrev
  | ok pod =>
    simp only [hpod] at hrev
    simp only [hrev, if_true]
    cases hl : w.tc.PD.Members.lookup (h.PdName w.tc.Name i w.tc.Namespace w.tc.ClusterDomain) with
    | none => rfl
    | some m =>
      simp only [hl] at hm
      simp [hm]

/-- One iteration of the loop on an ordinal whose pod has no revision label: the requeue
error of line 82, after the pod lookup. -/
theorem upgradeLoop_cons_no_label (h : Helpers) (d : Dependencies) (i : Int) (rest : List Int)
    (w : World) (pod : corev1.Pod)
    (hpod : d.PodLister w.tc.Namespace (h.PdPodName w.tc.Name i) = .ok pod)
    (hl : pod.ObjectMeta.Labels.lookup ControllerRevisionHashLabelKey = none) :
    upgradeLoop h d (i :: rest) w
      = (.ret (some (.noRevisionLabel (h.PdPodName w.tc.Name i))),
          { w with effects := w.effects ++ [.getPod w.tc.Namespace (h.PdPodName w.tc.Name i)] }) := by
  rw [upgradeLoop]
  simp only [hpod, hl]

/-- A run that reaches the loop, skips the ordinals of `pre` and stops at the next ordinal
`i` with an error after the pod lookup: the partition of `newSet` is the one read from
`oldSet` at line 70 and the calls are that write and the pod lookups. -/
theorem ComponentGracefulUpgrade_stops_at (h : Helpers) (d : Dependencies)
    (oldSet : StatefulSet) (w : World) (p i : Int) (pre post : List Int) (e : UpgradeError)
    (hreach : reachesLoop h oldSet w p)
    (hsplit : oldSet.PodOrdinals.reverse = pre ++ i :: post)
    (hpre : ∀ j ∈ pre, ordinalUpgraded h d w.tc j = true)
    (hstop : ∀ w1 : World, w1.tc = markUpgrading w.tc →
      upgradeLoop h d (i :: post) w1
        = (.ret (some e),
            { w1 with effects := w1.effects
                ++ [.getPod w.tc.Namespace (h.PdPodName w.tc.Name i)] })) :
    ComponentGracefulUpgrade h d oldSet w
      = (.ret (some e),
          { tc := markUpgrading w.tc, newSet := setUpgradePartition w.newSet p,
            effects := w.effects ++ Effect.setUpgradePartition p
              :: (pre ++ [i]).map (fun j =>
                    Effect.getPod w.tc.Namespace (h.PdPodName w.tc.Name j)) }) := by
  rw [ComponentGracefulUpgrade_of_reachesLoop h d oldSet w p hreach, hsplit]
  rw [upgradeLoop_append_upgraded h d (i :: post) pre
    { tc := markUpgrading w.tc, newSet := setUpgradePartition w.newSet p,
      effects := w.effects ++ [.setUpgradePartition p] } hpre]
  rw [hstop _ rfl]
  simp [markUpgrading]

/-- A run that stops as `ComponentGracefulUpgrade_stops_at` describes, with an error built
by `controller.RequeueErrorf`, requeues at the partition of `oldSet`. -/
theorem requeuesAtPartition_of_stop (h : Helpers) (d : Dependencies) (oldSet : StatefulSet)
    (w : World) (p i : Int) (pre : List Int) (e : UpgradeError)
    (hreach : reachesLoop h oldSet w p) (hrq : e.isRequeue = true)
    (hrun : ComponentGracefulUpgrade h d oldSet w
      = (.ret (some e),
          { tc := markUpgrading w.tc, newSet := setUpgradePartition w.newSet p,
            effects := w.effects ++ Effect.setUpgradePartition p
              :: (pre ++ [i]).map (fun j =>
                    Effect.getPod w.tc.Namespace (h.PdPodName w.tc.Name j)) })) :
    requeuesAtPartition h d oldSet w p e := by
  unfold requeuesAtPartition
  rw [hrun]
  refine ⟨rfl, hrq, ?_, hreach.2.2.2.2.2, rfl, ?_⟩
  · intro t ht
    simp at ht
  · intro j hj
    simpa using hj

/-- C33: in a run of `ComponentGracefulUpgrade` that reaches the ordinal loop with
partition `p` read from `oldSet`, let `i` be the first ordinal from the top that is not
skipped (every ordinal visited before it has the update revision and a healthy member).
If the pod of `i` has the update revision but its member is missing from
`tc.Status.PD.Members` or has `Health = false`, the run returns the requeue error of line
87, issues no leader transfer and leaves the partition of `newSet` at `p`; likewise, if
the pod of `i` lacks the controller-revision label, the run returns the requeue error of
line 82 with the partition at `p`. -/
theorem ComponentGracefulUpgrade_unhealthy_upgraded (h : Helpers) (d : Dependencies)
    (oldSet : StatefulSet) (w : World) (p i : Int) (pre post : List Int)
    (hreach : reachesLoop h oldSet w p)
    (hsplit : oldSet.PodOrdinals.reverse = pre ++ i :: post)
    (hpre : ∀ j ∈ pre, ordinalUpgraded h d w.tc j = true) :
    (podRevision h d w.tc i = some w.tc.PD.StatefulSet.UpdateRevision →
        (w.tc.PD.Members.lookup (h.PdName w.tc.Name i w.tc.Namespace w.tc.ClusterDomain) = none
          ∨ ∃ m, w.tc.PD.Members.lookup
                (h.PdName w.tc.Name i w.tc.Namespace w.tc.ClusterDomain) = some m
              ∧ m.Health = false) →
        requeuesAtPartition h d oldSet w p (.upgradedPodNotReady (h.PdPodName w.tc.Name i)))
      ∧ (∀ pod : corev1.Pod,
          d.PodLister w.tc.Namespace (h.PdPodName w.tc.Name i) = .ok pod →
          pod.ObjectMeta.Labels.lookup ControllerRevisionHashLabelKey = none →
          requeuesAtPartition h d oldSet w p (.noRevisionLabel (h.PdPodName w.tc.Name i))) := by
  refine ⟨?_, ?_⟩
  · intro hrev hmember
    have hm : memberHealthy h w.tc i = false := by
      rcases hmember with hnone | ⟨m, hsome, hhealth⟩
      · simp [memberHealthy, hnone]
      · simp [memberHealthy, hsome, hhealth]
    refine requeuesAtPartition_of_stop h d oldSet w p i pre _ hreach rfl ?_
    refine ComponentGracefulUpgrade_stops_at h d oldSet w p i pre post _ hreach hsplit hpre ?_
    intro w1 hw1
    have h1 : podRevision h d w1.tc i = some w1.tc.PD.StatefulSet.UpdateRevision := by
      rw [hw1]; exact hrev
    have h2 : memberHealthy h w1.tc i = false := by
      rw [hw1]; exact hm
    rw [upgradeLoop_cons_not_ready h d i post w1 h1 h2, hw1]
    rfl
  · intro pod hpod hlabel
    refine requeuesAtPartition_of_stop h d oldSet w p i pre _ hreach rfl ?_
    refine ComponentGracefulUpgrade_stops_at h d oldSet w p i pre post _ hreach hsplit hpre ?_
    intro w1 hw1
    have h1 : d.PodLister w1.tc.Namespace (h.PdPodName w1.tc.Name i) = .ok pod := by
      rw [hw1]; exact hpod
    rw [upgradeLoop_cons_no_label h d i post w1 pod h1 hlabel, hw1]
    rfl

/-- C33 at a concrete input: ordinal 2 is upgraded and healthy, ordinal 1 is upgraded but
its member is unhealthy; the run returns the requeue error for `db-pd-1` and the partition
stays at 3. -/
theorem ComponentGracefulUpgrade_unhealthy_upgraded_witness :
    requeuesAtPartition (sampleHelpers 3)
      (sampleDependencies (fun i => if i = 0 then "r1" else "r2")) (sampleSet [0, 1, 2] 3)
      { tc := sampleCluster membersMiddleUnhealthy [] "db-pd-0",
        newSet := sampleSet [0, 1, 2] 3, effects := [] } 3
      (.upgradedPodNotReady "db-pd-1") :=
  (ComponentGracefulUpgrade_unhealthy_upgraded (sampleHelpers 3)
    (sampleDependencies (fun i => if i = 0 then "r1" else "r2")) (sampleSet [0, 1, 2] 3)
    { tc := sampleCluster membersMiddleUnhealthy [] "db-pd-0",
      newSet := sampleSet [0, 1, 2] 3, effects := [] } 3 1 [2] [0]
    (by decide) (by decide) (by decide)).1 (by decide)
    (Or.inr ⟨{ Name := "db-pd-1", Health := false }, by decide, rfl⟩)

end member

/-! ## Theorems: `TaskPod` -/

namespace tasks

/-- The pre-delete check of a leader never answers "proceed": it fails or asks to wait; and
it calls neither `Apply` nor `Delete`. -/
theorem preDeleteCheck_leader (h : Helpers) (c : Clients) (pd : PD) (peers : List PD) :
    ((∃ err, (preDeleteCheck h c pd peers true).1 = (false, some err))
        ∨ (preDeleteCheck h c pd peers true).1 = (true, none))
      ∧ ∀ p, Effect.Delete p ∉ (preDeleteCheck h c pd peers true).2 := by
  unfold preDeleteCheck
  by_cases hp : h.LongestHealthPeer pd peers = ""
  · simp [hp]
  · simp only [hp, if_true, if_false]
    cases c.TransferPDLeader (h.LongestHealthPeer pd peers) with
    | none => simp
    | some err => simp

/-- C1, as stated, fails: the observed pod of `pd-0` must be recreated, the context marks
`pd-0` as leader, but it is neither known healthy nor ready, so the pre-delete check is
skipped and `Delete` is called on the observed pod. -/
theorem TaskPod_leader_delete_counterexample :
    (sampleContext (some (sampleObservedPod "h1")) false true).Pod
        = some (sampleObservedPod "h1")
      ∧ (sampleContext (some (sampleObservedPod "h1")) false true).IsLeader = true
      ∧ (TaskPod sampleConsts (sampleHelpers .CompareResultRecreate false) sampleClients
          (sampleContext (some (sampleObservedPod "h1")) false true)).2.2
        = [.Delete (sampleObservedPod "h1")]
      ∧ (TaskPod sampleConsts (sampleHelpers .CompareResultRecreate false) sampleClients
          (sampleContext (some (sampleObservedPod "h1")) false true)).1.Status = .Complete := by
  decide

/-- C1, amended: for every reconcile context in which an observed pod exists, `ctx.IsLeader`
is true and the pre-delete check is not skipped (`ctx.Healthy` is true or the observed pod
is ready), and for every behaviour of the platform client and of the PD client, one run of
`TaskPod` never calls `Delete`, and `ctx.PodIsTerminating` is left as it was. -/
theorem TaskPod_leader_never_deleted (k : Consts) (h : Helpers) (c : Clients)
    (ctx : ReconcileContext) (pod : corev1.Pod) (hpod : ctx.Pod = some pod)
    (hleader : ctx.IsLeader = true)
    (hcheck : ctx.Healthy = true ∨ h.IsPodReady pod = true) :
    (∀ p, Effect.Delete p ∉ (TaskPod k h c ctx).2.2)
      ∧ (TaskPod k h c ctx).2.1.PodIsTerminating = ctx.PodIsTerminating := by
  obtain ⟨hres, hnodel⟩ := preDeleteCheck_leader h c ctx.PD ctx.Peers
  unfold TaskPod
  simp only [hpod, hleader, hcheck, if_true]
  split_ifs with hrec hupd
  · rcases hres with ⟨err, hres⟩ | hres
    · rcases hpc : preDeleteCheck h c ctx.PD ctx.Peers true with ⟨⟨wait, e⟩, effects⟩
      rw [hpc] at hres hnodel
      simp only [Prod.mk.injEq] at hres
      obtain ⟨rfl, rfl⟩ := hres
      exact ⟨hnodel, rfl⟩
    · rcases hpc : preDeleteCheck h c ctx.PD ctx.Peers true with ⟨⟨wait, e⟩, effects⟩
      rw [hpc] at hres hnodel
      simp only [Prod.mk.injEq] at hres
      obtain ⟨rfl, rfl⟩ := hres
      exact ⟨hnodel, rfl⟩
  · cases c.Apply (newPod k h ctx.Cluster ctx.PDGroup ctx.PD ctx.ConfigHash) <;>
      simp [ReconcileContext.SetPod]
  · simp

/-- C1 amended, at a concrete input: the leader `pd-0` is known healthy and must be
recreated; the run transfers the leader to `pd-1`, waits and deletes nothing. -/
theorem TaskPod_leader_never_deleted_witness :
    (TaskPod sampleConsts (sampleHelpers .CompareResultRecreate false) sampleClients
        (sampleContext (some (sampleObservedPod "h1")) true true)).2.2
      = [.TransferPDLeader "pd-1"]
      ∧ Effect.Delete (sampleObservedPod "h1") ∉
        (TaskPod sampleConsts (sampleHelpers .CompareResultRecreate false) sampleClients
          (sampleContext (some (sampleObservedPod "h1")) true true)).2.2 :=
  ⟨by decide,
    (TaskPod_leader_never_deleted sampleConsts (sampleHelpers .CompareResultRecreate false)
      sampleClients (sampleContext (some (sampleObservedPod "h1")) true true)
      (sampleObservedPod "h1") rfl rfl (Or.inl rfl)).1 (sampleObservedPod "h1")⟩

/-- The run without an observed pod (lines 45-58). -/
theorem TaskPod_no_pod (k : Consts) (h : Helpers) (c : Clients) (ctx : ReconcileContext)
    (hpod : ctx.Pod = none) :
    TaskPod k h c ctx
      = if ctx.Healthy then
          ({ Status := .Wait, Message := "wait until pd\x27s status becomes unhealthy" }, ctx,
            [.Refresh])
        else
          match c.Apply (newPod k h ctx.Cluster ctx.PDGroup ctx.PD ctx.ConfigHash) with
          | .error err =>
            ({ Status := .Fail, Message := "can\x27t create pod of pd: " ++ err }, ctx,
              [.Apply (newPod k h ctx.Cluster ctx.PDGroup ctx.PD ctx.ConfigHash)])
          | .ok applied =>
            ({ Status := .Complete, Message := "pod is synced" }, ctx.SetPod applied,
              [.Apply (newPod k h ctx.Cluster ctx.PDGroup ctx.PD ctx.ConfigHash)]) := by
  unfold TaskPod
  simp only [hpod]

/-- The run with an observed pod that need not be recreated (lines 90-98). -/
theorem TaskPod_in_place (k : Consts) (h : Helpers) (c : Clients) (ctx : ReconcileContext)
    (pod : corev1.Pod) (hpod : ctx.Pod = some pod) (hrec : ¬ needsRecreate k h ctx pod) :
    TaskPod k h c ctx
      = if h.ComparePods pod (newPod k h ctx.Cluster ctx.PDGroup ctx.PD ctx.ConfigHash)
            = .CompareResultUpdate then
          match c.Apply (newPod k h ctx.Cluster ctx.PDGroup ctx.PD ctx.ConfigHash) with
          | .error err =>
            ({ Status := .Fail, Message := "can\x27t apply pod of pd: " ++ err }, ctx,
              [.Apply (newPod k h ctx.Cluster ctx.PDGroup ctx.PD ctx.ConfigHash)])
          | .ok applied =>
            ({ Status := .Complete, Message := "pod is synced" }, ctx.SetPod applied,
              [.Apply (newPod k h ctx.Cluster ctx.PDGroup ctx.PD ctx.ConfigHash)])
        else ({ Status := .Complete, Message := "pod is synced" }, ctx, []) := by
  unfold needsRecreate at hrec
  unfold TaskPod
  simp only [hpod]
  rw [if_neg hrec]

/-- The run with an observed pod that has to be recreated (lines 65-89). -/
theorem TaskPod_recreate (k : Consts) (h : Helpers) (c : Clients) (ctx : ReconcileContext)
    (pod : corev1.Pod) (hpod : ctx.Pod = some pod) (hrec : needsRecreate k h ctx pod) :
    TaskPod k h c ctx
      = if ctx.Healthy = true ∨ h.IsPodReady pod = true then
          match preDeleteCheck h c ctx.PD ctx.Peers ctx.IsLeader with
          | ((_, some err), effects) =>
            ({ Status := .Fail, Message := "can\x27t delete pod of pd: " ++ err }, ctx, effects)
          | ((true, none), effects) =>
            ({ Status := .Wait, Message := "wait for pd leader being transferred" }, ctx,
              effects)
          | ((false, none), effects) => deletePod c ctx pod effects
        else deletePod c ctx pod [] := by
  unfold needsRecreate at hrec
  unfold TaskPod
  simp only [hpod]
  rw [if_pos hrec]

/-- Deleting the observed pod (lines 81-89): one `Delete` call; on success `Complete` and
the context is marked terminating, on failure `Fail` and the context is left alone. -/
theorem deletePod_spec (c : Clients) (ctx : ReconcileContext) (pod : corev1.Pod) :
    (deletePod c ctx pod []).2.2 = [.Delete pod]
      ∧ (c.Delete pod = none → (deletePod c ctx pod []).1.Status = .Complete
          ∧ (deletePod c ctx pod []).2.1 = { ctx with PodIsTerminating := true })
      ∧ (∀ err, c.Delete pod = some err → (deletePod c ctx pod []).1.Status = .Fail
          ∧ (deletePod c ctx pod []).2.1 = ctx) := by
  unfold deletePod
  cases c.Delete pod <;> simp

/-- A pre-delete check that answers "proceed" has issued no call. -/
theorem preDeleteCheck_proceed (h : Helpers) (c : Clients) (pd : PD) (peers : List PD)
    (isLeader : Bool) (hres : (preDeleteCheck h c pd peers isLeader).1 = (false, none)) :
    preDeleteCheck h c pd peers isLeader = ((false, none), []) := by
  cases isLeader with
  | false => rfl
  | true =>
    rcases (preDeleteCheck_leader h c pd peers).1 with ⟨err, he⟩ | he
    · rw [he] at hres
      simp at hres
    · rw [he] at hres
      simp at hres

/-- C14: with no observed pod and `ctx.Healthy = true`, `TaskPod` returns `Wait`, its only
call is `Refresh` on the PD member cache (so neither `Apply` nor `Delete` is called), and
the context is left as it was: `ctx.Pod` stays nil. -/
theorem TaskPod_wait_for_unhealthy (k : Consts) (h : Helpers) (c : Clients)
    (ctx : ReconcileContext) (hpod : ctx.Pod = none) (hhealthy : ctx.Healthy = true) :
    (TaskPod k h c ctx).1.Status = .Wait
      ∧ (TaskPod k h c ctx).2.2 = [.Refresh]
      ∧ (∀ p, Effect.Apply p ∉ (TaskPod k h c ctx).2.2)
      ∧ (∀ p, Effect.Delete p ∉ (TaskPod k h c ctx).2.2)
      ∧ (TaskPod k h c ctx).2.1.Pod = none
      ∧ (TaskPod k h c ctx).2.1 = ctx := by
  rw [TaskPod_no_pod k h c ctx hpod, if_pos hhealthy]
  simp [hpod]

/-- C14 at a concrete input: `pd-0` has no pod and is still known healthy. -/
theorem TaskPod_wait_for_unhealthy_witness :
    (TaskPod sampleConsts sampleComparingHelpers sampleClients
        (sampleContext none true false)).1.Status = .Wait
      ∧ (TaskPod sampleConsts sampleComparingHelpers sampleClients
          (sampleContext none true false)).2.2 = [.Refresh] :=
  have key := TaskPod_wait_for_unhealthy sampleConsts sampleComparingHelpers sampleClients
    (sampleContext none true false) rfl rfl
  ⟨key.1, key.2.1⟩

/-- C15: with no observed pod and `ctx.Healthy = false`, `TaskPod` calls `Apply` exactly
once, with the pod built by `newPod`, and nothing else; if `Apply` succeeds the result is
`Complete` and `ctx.Pod` becomes the expected pod as `Apply` left it (the pod built by
`newPod` when `Apply` hands it back unchanged); if `Apply` fails the result is `Fail` and
the context is left as it was, `ctx.Pod` nil. -/
theorem TaskPod_create (k : Consts) (h : Helpers) (c : Clients) (ctx : ReconcileContext)
    (hpod : ctx.Pod = none) (hhealthy : ctx.Healthy = false) :
    (TaskPod k h c ctx).2.2
        = [.Apply (newPod k h ctx.Cluster ctx.PDGroup ctx.PD ctx.ConfigHash)]
      ∧ (∀ applied, c.Apply (newPod k h ctx.Cluster ctx.PDGroup ctx.PD ctx.ConfigHash)
            = .ok applied →
          (TaskPod k h c ctx).1.Status = .Complete
            ∧ (TaskPod k h c ctx).2.1.Pod = some applied
            ∧ (TaskPod k h c ctx).2.1 = { ctx with Pod := some applied })
      ∧ (c.Apply (newPod k h ctx.Cluster ctx.PDGroup ctx.PD ctx.ConfigHash)
            = .ok (newPod k h ctx.Cluster ctx.PDGroup ctx.PD ctx.ConfigHash) →
          (TaskPod k h c ctx).2.1.Pod
            = some (newPod k h ctx.Cluster ctx.PDGroup ctx.PD ctx.ConfigHash))
      ∧ (∀ err, c.Apply (newPod k h ctx.Cluster ctx.PDGroup ctx.PD ctx.ConfigHash)
            = .error err →
          (TaskPod k h c ctx).1.Status = .Fail
            ∧ (TaskPod k h c ctx).2.1.Pod = none
            ∧ (TaskPod k h c ctx).2.1 = ctx) := by
  rw [TaskPod_no_pod k h c ctx hpod, if_neg (by simp [hhealthy])]
  cases hap : c.Apply (newPod k h ctx.Cluster ctx.PDGroup ctx.PD ctx.ConfigHash) with
  | error e => simp [hpod]
  | ok applied => simp [ReconcileContext.SetPod]

/-- C15 at a concrete input: `pd-0` has no pod and is unhealthy; the expected pod is
applied and becomes the pod of the context. -/
theorem TaskPod_create_witness :
    (TaskPod sampleConsts sampleComparingHelpers sampleClients
        (sampleContext none false false)).2.2 = [.Apply sampleExpectedPod]
      ∧ (TaskPod sampleConsts sampleComparingHelpers sampleClients
          (sampleContext none false false)).2.1.Pod = some sampleExpectedPod :=
  have key := TaskPod_create sampleConsts sampleComparingHelpers sampleClients
    (sampleContext none false false) rfl rfl
  ⟨key.1, key.2.2.1 rfl⟩

/-- C16: with an observed pod that has to be recreated (`ComparePods` yields `Recreate`, or
the configuration-hash labels differ and the strategy is `RollingUpdate`), when the
pre-delete check is skipped (the member is neither known healthy nor ready) or reports no
wait and no error, `TaskPod` calls `Delete` on the observed pod and nothing else, so never
`Apply`; a successful `Delete` gives `Complete` and sets `ctx.PodIsTerminating`; a failed
`Delete` gives `Fail` and leaves the context, `ctx.PodIsTerminating` included, as it was. -/
theorem TaskPod_delete (k : Consts) (h : Helpers) (c : Clients) (ctx : ReconcileContext)
    (pod : corev1.Pod) (hpod : ctx.Pod = some pod)
    (hrec : h.ComparePods pod (newPod k h ctx.Cluster ctx.PDGroup ctx.PD ctx.ConfigHash)
        = .CompareResultRecreate
      ∨ (mapIndex pod.ObjectMeta.Labels k.LabelKeyConfigHash
            ≠ mapIndex (newPod k h ctx.Cluster ctx.PDGroup ctx.PD ctx.ConfigHash).ObjectMeta.Labels
                k.LabelKeyConfigHash
          ∧ ctx.PDGroup.ConfigUpdateStrategy = k.ConfigUpdateStrategyRollingUpdate))
    (hcheck : (ctx.Healthy = false ∧ h.IsPodReady pod = false)
      ∨ (preDeleteCheck h c ctx.PD ctx.Peers ctx.IsLeader).1 = (false, none)) :
    (TaskPod k h c ctx).2.2 = [.Delete pod]
      ∧ (∀ p, Effect.Apply p ∉ (TaskPod k h c ctx).2.2)
      ∧ (c.Delete pod = none →
          (TaskPod k h c ctx).1.Status = .Complete
            ∧ (TaskPod k h c ctx).2.1.PodIsTerminating = true
            ∧ (TaskPod k h c ctx).2.1 = { ctx with PodIsTerminating := true })
      ∧ (∀ err, c.Delete pod = some err →
          (TaskPod k h c ctx).1.Status = .Fail
            ∧ (TaskPod k h c ctx).2.1.PodIsTerminating = ctx.PodIsTerminating
            ∧ (TaskPod k h c ctx).2.1 = ctx) := by
  have hrec2 : needsRecreate k h ctx pod := by
    unfold needsRecreate
    rcases hrec with hrec | hrec
    · exact Or.inl hrec
    · exact Or.inr ⟨by simpa using hrec.1, hrec.2⟩
  have hrun : TaskPod k h c ctx = deletePod c ctx pod [] := by
    rw [TaskPod_recreate k h c ctx pod hpod hrec2]
    by_cases hgate : ctx.Healthy = true ∨ h.IsPodReady pod = true
    · rw [if_pos hgate]
      rcases hcheck with hskip | hres
      · rcases hgate with hg | hg
        · rw [hskip.1] at hg
          exact absurd hg (by decide)
        · rw [hskip.2] at hg
          exact absurd hg (by decide)
      · rw [preDeleteCheck_proceed h c ctx.PD ctx.Peers ctx.IsLeader hres]
    · rw [if_neg hgate]
  rw [hrun]
  obtain ⟨h1, h2, h3⟩ := deletePod_spec c ctx pod
  refine ⟨h1, ?_, ?_, ?_⟩
  · intro p hp
    rw [h1] at hp
    simp at hp
  · intro hok
    obtain ⟨hs, hc⟩ := h2 hok
    exact ⟨hs, by rw [hc], hc⟩
  · intro err herr
    obtain ⟨hs, hc⟩ := h3 err herr
    exact ⟨hs, by rw [hc], hc⟩

/-- C16 at a concrete input: the configuration hash of the observed pod of `pd-0` is stale
(`h1`, the target being `h2`), the strategy is `RollingUpdate`, `pd-0` is healthy and not
the leader; the pod is deleted. -/
theorem TaskPod_delete_witness :
    (TaskPod sampleConsts (sampleHelpers .CompareResultUpdate true) sampleClients
        (sampleContext (some (sampleObservedPod "h1")) true false)).2.2
      = [.Delete (sampleObservedPod "h1")]
      ∧ (TaskPod sampleConsts (sampleHelpers .CompareResultUpdate true) sampleClients
          (sampleContext (some (sampleObservedPod "h1")) true false)).2.1.PodIsTerminating
        = true :=
  have key := TaskPod_delete sampleConsts (sampleHelpers .CompareResultUpdate true)
    sampleClients (sampleContext (some (sampleObservedPod "h1")) true false)
    (sampleObservedPod "h1") rfl (Or.inr (by decide)) (Or.inr (by decide))
  ⟨key.1, (key.2.2.1 rfl).2.1⟩

/-- C17: with an observed pod for which `ComparePods` yields `Update` while the recreate
condition does not hold (the configuration hash is unchanged, or the strategy is not
`RollingUpdate`), `TaskPod` calls `Apply` once with the expected pod and nothing else: no
`Delete`, no leader transfer; on success the result is `Complete` and `ctx.Pod` is the
expected pod as `Apply` left it; on an `Apply` error the result is `Fail` and the context
is left as it was. -/
theorem TaskPod_update_in_place (k : Consts) (h : Helpers) (c : Clients)
    (ctx : ReconcileContext) (pod : corev1.Pod) (hpod : ctx.Pod = some pod)
    (hcmp : h.ComparePods pod (newPod k h ctx.Cluster ctx.PDGroup ctx.PD ctx.ConfigHash)
      = .CompareResultUpdate)
    (hno : mapIndex pod.ObjectMeta.Labels k.LabelKeyConfigHash
        = mapIndex (newPod k h ctx.Cluster ctx.PDGroup ctx.PD ctx.ConfigHash).ObjectMeta.Labels
            k.LabelKeyConfigHash
      ∨ ctx.PDGroup.ConfigUpdateStrategy ≠ k.ConfigUpdateStrategyRollingUpdate) :
    (TaskPod k h c ctx).2.2
        = [.Apply (newPod k h ctx.Cluster ctx.PDGroup ctx.PD ctx.ConfigHash)]
      ∧ (∀ p, Effect.Delete p ∉ (TaskPod k h c ctx).2.2)
      ∧ (∀ peer, Effect.TransferPDLeader peer ∉ (TaskPod k h c ctx).2.2)
      ∧ (∀ applied, c.Apply (newPod k h ctx.Cluster ctx.PDGroup ctx.PD ctx.ConfigHash)
            = .ok applied →
          (TaskPod k h c ctx).1.Status = .Complete
            ∧ (TaskPod k h c ctx).2.1.Pod = some applied
            ∧ (TaskPod k h c ctx).2.1 = { ctx with Pod := some applied })
      ∧ (c.Apply (newPod k h ctx.Cluster ctx.PDGroup ctx.PD ctx.ConfigHash)
            = .ok (newPod k h ctx.Cluster ctx.PDGroup ctx.PD ctx.ConfigHash) →
          (TaskPod k h c ctx).2.1.Pod
            = some (newPod k h ctx.Cluster ctx.PDGroup ctx.PD ctx.ConfigHash))
      ∧ (∀ err, c.Apply (newPod k h ctx.Cluster ctx.PDGroup ctx.PD ctx.ConfigHash)
            = .error err →
          (TaskPod k h c ctx).1.Status = .Fail ∧ (TaskPod k h c ctx).2.1 = ctx) := by
  have hrec : ¬ needsRecreate k h ctx pod := by
    unfold needsRecreate
    rw [hcmp]
    rintro (hr | ⟨hchanged, hstrategy⟩)
    · exact absurd hr (by decide)
    · rcases hno with hno | hno
      · simp [hno] at hchanged
      · exact hno hstrategy
  rw [TaskPod_in_place k h c ctx pod hpod hrec, if_pos hcmp]
  cases hap : c.Apply (newPod k h ctx.Cluster ctx.PDGroup ctx.PD ctx.ConfigHash) with
  | error e => simp
  | ok applied => simp [ReconcileContext.SetPod]

/-- C17 at a concrete input: the observed pod of `pd-0` carries the target hash `h2` but
lacks a label of the expected pod; the expected pod is applied in place. -/
theorem TaskPod_update_in_place_witness :
    (TaskPod sampleConsts sampleComparingHelpers sampleClients
        (sampleContext (some (sampleObservedPod "h2")) true true)).2.2
      = [.Apply sampleExpectedPod]
      ∧ (TaskPod sampleConsts sampleComparingHelpers sampleClients
          (sampleContext (some (sampleObservedPod "h2")) true true)).2.1.Pod
        = some sampleExpectedPod :=
  have key := TaskPod_update_in_place sampleConsts sampleComparingHelpers sampleClients
    (sampleContext (some (sampleObservedPod "h2")) true true) (sampleObservedPod "h2") rfl
    (by decide) (Or.inl (by decide))
  ⟨key.1, key.2.2.2.2.1 rfl⟩

/-- The sample comparison answers `NoChange` only when the labels agree. -/
theorem sampleComparePods_seesConfigHash :
    comparePodsSeesConfigHash sampleConsts sampleComparingHelpers := by
  intro current expected hres
  have hlabels : current.ObjectMeta.Labels = expected.ObjectMeta.Labels := by
    by_contra hne
    simp [sampleComparingHelpers, sampleComparePods, hne] at hres
  rw [hlabels]

/-- C18: with an observed pod for which `ComparePods` yields `NoChange`, the comparison
counting a difference of the configuration-hash label as a change, `TaskPod` returns
`Complete` with no side effect: no call at all (no `Apply`, no `Delete`, no leader
transfer), and the context, `ctx.Pod` and `ctx.PodIsTerminating` included, is left as it
was. -/
theorem TaskPod_no_change (k : Consts) (h : Helpers) (c : Clients) (ctx : ReconcileContext)
    (pod : corev1.Pod) (hhelper : comparePodsSeesConfigHash k h) (hpod : ctx.Pod = some pod)
    (hcmp : h.ComparePods pod (newPod k h ctx.Cluster ctx.PDGroup ctx.PD ctx.ConfigHash)
      = .CompareResultNoChange) :
    (TaskPod k h c ctx).1.Status = .Complete
      ∧ (TaskPod k h c ctx).2.2 = []
      ∧ (TaskPod k h c ctx).2.1.Pod = ctx.Pod
      ∧ (TaskPod k h c ctx).2.1.PodIsTerminating = ctx.PodIsTerminating
      ∧ (TaskPod k h c ctx).2.1 = ctx := by
  have hrec : ¬ needsRecreate k h ctx pod := by
    unfold needsRecreate
    rw [hcmp]
    rintro (hr | ⟨hchanged, _⟩)
    · exact absurd hr (by decide)
    · simp [hhelper pod _ hcmp] at hchanged
  rw [TaskPod_in_place k h c ctx pod hpod hrec, hcmp, if_neg (by decide)]
  exact ⟨rfl, rfl, rfl, rfl, rfl⟩

/-- C18 at a concrete input: the observed pod of `pd-0` is the expected pod itself. -/
theorem TaskPod_no_change_witness :
    (TaskPod sampleConsts sampleComparingHelpers sampleClients
        (sampleContext (some sampleExpectedPod) true true)).1.Status = .Complete
      ∧ (TaskPod sampleConsts sampleComparingHelpers sampleClients
          (sampleContext (some sampleExpectedPod) true true)).2.2 = [] :=
  have key := TaskPod_no_change sampleConsts sampleComparingHelpers sampleClients
    (sampleContext (some sampleExpectedPod) true true) sampleExpectedPod
    sampleComparePods_seesConfigHash rfl (by decide)
  ⟨key.1, key.2.1⟩

/-- C19: for every pd and every peer set, `preDeleteCheck` called with `isLeader = false`
returns `(wait = false, err = nil)` and issues no call, in particular no leader-transfer
request. -/
theorem preDeleteCheck_not_leader (h : Helpers) (c : Clients) (pd : PD) (peers : List PD) :
    (preDeleteCheck h c pd peers false).1 = (false, none)
      ∧ (preDeleteCheck h c pd peers false).2 = []
      ∧ ∀ peer, Effect.TransferPDLeader peer ∉ (preDeleteCheck h c pd peers false).2 := by
  simp [preDeleteCheck]

/-- C20: when `LongestHealthPeer` returns the empty name, `preDeleteCheck` called with
`isLeader = true` returns the error "no healthy transferee available" and issues no call;
and `TaskPod`, for a leader whose observed pod has to be recreated and whose pre-delete
check is run, then returns `Fail`, issues no call (the pod is not deleted) and leaves the
context as it was. -/
theorem TaskPod_no_transferee (k : Consts) (h : Helpers) (c : Clients)
    (ctx : ReconcileContext) (pod : corev1.Pod)
    (hpeer : h.LongestHealthPeer ctx.PD ctx.Peers = "")
    (hpod : ctx.Pod = some pod) (hrec : needsRecreate k h ctx pod)
    (hgate : ctx.Healthy = true ∨ h.IsPodReady pod = true) (hleader : ctx.IsLeader = true) :
    (preDeleteCheck h c ctx.PD ctx.Peers true).1 = (false, some "no healthy transferee available")
      ∧ (preDeleteCheck h c ctx.PD ctx.Peers true).2 = []
      ∧ (TaskPod k h c ctx).1.Status = .Fail
      ∧ (TaskPod k h c ctx).2.2 = []
      ∧ (∀ p, Effect.Delete p ∉ (TaskPod k h c ctx).2.2)
      ∧ (TaskPod k h c ctx).2.1 = ctx := by
  have hcheck : preDeleteCheck h c ctx.PD ctx.Peers true
      = ((false, some "no healthy transferee available"), []) := by
    simp [preDeleteCheck, hpeer]
  rw [TaskPod_recreate k h c ctx pod hpod hrec, if_pos hgate, hleader, hcheck]
  simp

/-- C20 at a concrete input: the leader `pd-0` has no peer at all and its pod has to be
recreated. -/
theorem TaskPod_no_transferee_witness :
    (TaskPod sampleConsts (sampleHelpers .CompareResultRecreate true) sampleClients
        { sampleContext (some (sampleObservedPod "h1")) true true with Peers := [] }).1.Status
      = .Fail
      ∧ (TaskPod sampleConsts (sampleHelpers .CompareResultRecreate true) sampleClients
        { sampleContext (some (sampleObservedPod "h1")) true true with Peers := [] }).2.2 = [] :=
  have key := TaskPod_no_transferee sampleConsts (sampleHelpers .CompareResultRecreate true)
    sampleClients { sampleContext (some (sampleObservedPod "h1")) true true with Peers := [] }
    (sampleObservedPod "h1") rfl rfl (by decide) (Or.inl rfl) rfl
  ⟨key.2.2.1, key.2.2.2.1⟩

/-- The pre-delete check of a leader with a transferee: one transfer request, then "wait"
or the wrapped error of the request. -/
theorem preDeleteCheck_transfer (h : Helpers) (c : Clients) (pd : PD) (peers : List PD)
    (hpeer : h.LongestHealthPeer pd peers ≠ "") :
    preDeleteCheck h c pd peers true
      = (match c.TransferPDLeader (h.LongestHealthPeer pd peers) with
         | some err => (false, some ("transfer leader failed: " ++ err))
         | none => (true, none),
         [.TransferPDLeader (h.LongestHealthPeer pd peers)]) := by
  unfold preDeleteCheck
  simp only [if_true, hpeer, if_false]
  cases c.TransferPDLeader (h.LongestHealthPeer pd peers) <;> rfl

/-- C21: when `LongestHealthPeer` returns a non-empty peer `p`, `preDeleteCheck` called with
`isLeader = true` issues exactly one call, `TransferPDLeader(p)`.  If the call succeeds the
check returns `(wait = true, nil)` and `TaskPod` (for a leader whose observed pod has to be
recreated and whose check is run) returns `Wait`; if it fails the check returns an error
that wraps the error of the call and `TaskPod` returns `Fail`.  In both cases the transfer
is the only call of `TaskPod`: the pod is not deleted, and the context is left as it was. -/
theorem TaskPod_transfer_leader (k : Consts) (h : Helpers) (c : Clients)
    (ctx : ReconcileContext) (pod : corev1.Pod)
    (hpeer : h.LongestHealthPeer ctx.PD ctx.Peers ≠ "")
    (hpod : ctx.Pod = some pod) (hrec : needsRecreate k h ctx pod)
    (hgate : ctx.Healthy = true ∨ h.IsPodReady pod = true) (hleader : ctx.IsLeader = true) :
    (preDeleteCheck h c ctx.PD ctx.Peers true).2
        = [.TransferPDLeader (h.LongestHealthPeer ctx.PD ctx.Peers)]
      ∧ (TaskPod k h c ctx).2.2 = [.TransferPDLeader (h.LongestHealthPeer ctx.PD ctx.Peers)]
      ∧ (∀ p, Effect.Delete p ∉ (TaskPod k h c ctx).2.2)
      ∧ (TaskPod k h c ctx).2.1 = ctx
      ∧ (c.TransferPDLeader (h.LongestHealthPeer ctx.PD ctx.Peers) = none →
          (preDeleteCheck h c ctx.PD ctx.Peers true).1 = (true, none)
            ∧ (TaskPod k h c ctx).1.Status = .Wait)
      ∧ (∀ err, c.TransferPDLeader (h.LongestHealthPeer ctx.PD ctx.Peers) = some err →
          (preDeleteCheck h c ctx.PD ctx.Peers true).1
              = (false, some ("transfer leader failed: " ++ err))
            ∧ (TaskPod k h c ctx).1.Status = .Fail) := by
  rw [TaskPod_recreate k h c ctx pod hpod hrec, if_pos hgate, hleader,
    preDeleteCheck_transfer h c ctx.PD ctx.Peers hpeer]
  cases c.TransferPDLeader (h.LongestHealthPeer ctx.PD ctx.Peers) <;> simp

/-- C21 at a concrete input: the healthy leader `pd-0` has the peer `pd-1`; the transfer
succeeds and the task waits. -/
theorem TaskPod_transfer_leader_witness :
    (TaskPod sampleConsts (sampleHelpers .CompareResultRecreate true) sampleClients
        (sampleContext (some (sampleObservedPod "h1")) true true)).1.Status = .Wait
      ∧ (TaskPod sampleConsts (sampleHelpers .CompareResultRecreate true) sampleClients
        (sampleContext (some (sampleObservedPod "h1")) true true)).2.2
        = [.TransferPDLeader "pd-1"] :=
  have key := TaskPod_transfer_leader sampleConsts (sampleHelpers .CompareResultRecreate true)
    sampleClients (sampleContext (some (sampleObservedPod "h1")) true true)
    (sampleObservedPod "h1") (by decide) rfl (by decide) (Or.inl rfl) rfl
  ⟨(key.2.2.2.2.1 rfl).2, key.2.1⟩

/-- C22: when the recreate condition holds, `ctx.Healthy` is false and the observed pod is
not ready, `TaskPod` does not run the pre-delete check: its only call is `Delete` on the
observed pod, so no leader transfer is attempted, whatever the value of `ctx.IsLeader`. -/
theorem TaskPod_unready_deleted (k : Consts) (h : Helpers) (c : Clients)
    (ctx : ReconcileContext) (pod : corev1.Pod) (hpod : ctx.Pod = some pod)
    (hrec : h.ComparePods pod (newPod k h ctx.Cluster ctx.PDGroup ctx.PD ctx.ConfigHash)
        = .CompareResultRecreate
      ∨ (mapIndex pod.ObjectMeta.Labels k.LabelKeyConfigHash
            ≠ mapIndex (newPod k h ctx.Cluster ctx.PDGroup ctx.PD ctx.ConfigHash).ObjectMeta.Labels
                k.LabelKeyConfigHash
          ∧ ctx.PDGroup.ConfigUpdateStrategy = k.ConfigUpdateStrategyRollingUpdate))
    (hhealthy : ctx.Healthy = false) (hready : h.IsPodReady pod = false) :
    (TaskPod k h c ctx).2.2 = [.Delete pod]
      ∧ (∀ peer, Effect.TransferPDLeader peer ∉ (TaskPod k h c ctx).2.2)
      ∧ TaskPod k h c ctx = deletePod c ctx pod []
      ∧ (c.Delete pod = none → (TaskPod k h c ctx).1.Status = .Complete)
      ∧ (∀ err, c.Delete pod = some err → (TaskPod k h c ctx).1.Status = .Fail) := by
  have hrec2 : needsRecreate k h ctx pod := by
    unfold needsRecreate
    rcases hrec with hrec | hrec
    · exact Or.inl hrec
    · exact Or.inr ⟨by simpa using hrec.1, hrec.2⟩
  have hgate : ¬ (ctx.Healthy = true ∨ h.IsPodReady pod = true) := by
    simp [hhealthy, hready]
  rw [TaskPod_recreate k h c ctx pod hpod hrec2, if_neg hgate]
  obtain ⟨h1, h2, h3⟩ := deletePod_spec c ctx pod
  refine ⟨h1, ?_, rfl, fun hok => (h2 hok).1, fun err herr => (h3 err herr).1⟩
  intro peer hp
  rw [h1] at hp
  simp at hp

/-- C22 at a concrete input: `pd-0` is marked leader, is not known healthy and its pod is
not ready; the pod is deleted without a transfer. -/
theorem TaskPod_unready_deleted_witness :
    (TaskPod sampleConsts (sampleHelpers .CompareResultRecreate false) sampleClients
        (sampleContext (some (sampleObservedPod "h1")) false true)).2.2
      = [.Delete (sampleObservedPod "h1")] :=
  (TaskPod_unready_deleted sampleConsts (sampleHelpers .CompareResultRecreate false)
    sampleClients (sampleContext (some (sampleObservedPod "h1")) false true)
    (sampleObservedPod "h1") rfl (Or.inl rfl) rfl rfl).1

/-- The effects of the pre-delete check: none, or one transfer request. -/
theorem preDeleteCheck_effects (h : Helpers) (c : Clients) (pd : PD) (peers : List PD)
    (isLeader : Bool) :
    (preDeleteCheck h c pd peers isLeader).2 = []
      ∨ ((preDeleteCheck h c pd peers isLeader).2
            = [.TransferPDLeader (h.LongestHealthPeer pd peers)]
          ∧ (preDeleteCheck h c pd peers isLeader).1 ≠ (false, none)) := by
  cases isLeader with
  | false => left; rfl
  | true =>
    by_cases hpeer : h.LongestHealthPeer pd peers = ""
    · left
      simp [preDeleteCheck, hpeer]
    · right
      rw [preDeleteCheck_transfer h c pd peers hpeer]
      cases c.TransferPDLeader (h.LongestHealthPeer pd peers) <;> simp

/-- C23: in any single run of `TaskPod`, for every context and every behaviour of the
clients, at most one mutating platform call is made (`Apply` and `Delete` together occur
at most once, so never both) and at most one leader-transfer request is issued. -/
theorem TaskPod_single_step (k : Consts) (h : Helpers) (c : Clients) (ctx : ReconcileContext) :
    mutatingCalls (TaskPod k h c ctx).2.2 ≤ 1 ∧ transferCalls (TaskPod k h c ctx).2.2 ≤ 1 := by
  cases hpod : ctx.Pod with
  | none =>
    rw [TaskPod_no_pod k h c ctx hpod]
    by_cases hh : ctx.Healthy = true
    · rw [if_pos hh]
      simp [mutatingCalls, transferCalls]
    · rw [if_neg hh]
      cases c.Apply (newPod k h ctx.Cluster ctx.PDGroup ctx.PD ctx.ConfigHash) <;>
        simp [mutatingCalls, transferCalls]
  | some pod =>
    by_cases hrec : needsRecreate k h ctx pod
    · rw [TaskPod_recreate k h c ctx pod hpod hrec]
      by_cases hgate : ctx.Healthy = true ∨ h.IsPodReady pod = true
      · rw [if_pos hgate]
        rcases hpc : preDeleteCheck h c ctx.PD ctx.Peers ctx.IsLeader with ⟨⟨wait, err⟩, effects⟩
        have heff := preDeleteCheck_effects h c ctx.PD ctx.Peers ctx.IsLeader
        rw [hpc] at heff
        simp only at heff
        rcases heff with heff | ⟨heff, hne⟩
        · subst heff
          cases err with
          | some e => simp [mutatingCalls, transferCalls]
          | none =>
            cases wait with
            | true => simp [mutatingCalls, transferCalls]
            | false =>
              simp only [deletePod]
              cases c.Delete pod <;> simp [mutatingCalls, transferCalls]
        · subst heff
          cases err with
          | some e => simp [mutatingCalls, transferCalls]
          | none =>
            cases wait with
            | true => simp [mutatingCalls, transferCalls]
            | false => exact absurd rfl hne
      · rw [if_neg hgate]
        simp only [deletePod]
        cases c.Delete pod <;> simp [mutatingCalls, transferCalls]
    · rw [TaskPod_in_place k h c ctx pod hpod hrec]
      split_ifs
      · cases c.Apply (newPod k h ctx.Cluster ctx.PDGroup ctx.PD ctx.ConfigHash) <;>
          simp [mutatingCalls, transferCalls]
      · simp [mutatingCalls, transferCalls]

/-! ## Theorems: `newPod` -/

/-- Looking up a key in the part of a map that `mapMerge` keeps: nothing for a key of the
second map, the entry of the first map otherwise. -/
theorem lookup_filter_not_in (a b : List (String × String)) (key : String) :
    (a.filter (fun kv => !(b.any (fun kv2 => kv2.1 == kv.1)))).lookup key
      = if b.any (fun kv2 => kv2.1 == key) then none else a.lookup key := by
  induction a with
  | nil => simp
  | cons x xs ih =>
    obtain ⟨xk, xv⟩ := x
    by_cases hx : b.any (fun kv2 => kv2.1 == xk) = true
    · simp only [List.filter_cons, hx, Bool.not_true, Bool.false_eq_true, if_false]
      rw [ih, List.lookup_cons]
      by_cases hkey : key = xk
      · subst hkey
        simp [hx]
      · have : (key == xk) = false := by simpa using hkey
        rw [this]
    · have hx2 : b.any (fun kv2 => kv2.1 == xk) = false := Bool.eq_false_iff.mpr hx
      simp only [List.filter_cons, hx2, Bool.not_false, if_true]
      rw [List.lookup_cons, List.lookup_cons, ih]
      by_cases hkey : key = xk
      · subst hkey
        simp [hx2]
      · have : (key == xk) = false := by simpa using hkey
        rw [this]

/-- Looking up a key in the labels that `newPod` merges: the instance and the
configuration hash for their keys, the label of the PD for any other key. -/
theorem lookup_merged_labels (labels : List (String × String))
    (instanceKey hashKey name configHash key : String) (hkeys : instanceKey ≠ hashKey) :
    (mapMerge labels [(instanceKey, name), (hashKey, configHash)]).lookup key
      = if key = instanceKey then some name
        else if key = hashKey then some configHash
        else labels.lookup key := by
  unfold mapMerge
  rw [List.lookup_append, lookup_filter_not_in]
  by_cases h1 : key = instanceKey
  · subst h1
    simp
  · by_cases h2 : key = hashKey
    · subst h2
      have : (key == instanceKey) = false := by simpa using h1
      simp [List.lookup_cons, this, Ne.symm hkeys]
    · have e1 : (key == instanceKey) = false := by simpa using h1
      have e2 : (key == hashKey) = false := by simpa using h2
      have e3 : ¬ instanceKey = key := fun h => h1 h.symm
      have e4 : ¬ hashKey = key := fun h => h2 h.symm
      simp [List.lookup_cons, e1, e2, e3, e4, h1, h2]

/-- The pod that `newPod` hands to `CalculateHashAndSetLabels` when the PD has no overlay:
its name, namespace and labels. -/
theorem newPod_without_overlay (k : Consts) (h : Helpers) (cluster : Cluster) (pdg : PDGroup)
    (pd : PD) (configHash : String) (hov : pd.Overlay = none) :
    ∃ pod : corev1.Pod, newPod k h cluster pdg pd configHash = h.CalculateHashAndSetLabels pod
      ∧ pod.ObjectMeta.Name = pd.Name
      ∧ pod.ObjectMeta.Namespace = pd.Namespace
      ∧ pod.ObjectMeta.Labels
          = mapMerge pd.Labels [(k.LabelKeyInstance, pd.Name), (k.LabelKeyConfigHash, configHash)] := by
  unfold newPod
  simp only [hov]
  exact ⟨_, rfl, rfl, rfl, rfl⟩

/-- The stamping of the sample helpers sets the label `pingcap.com/pod-spec-hash` only. -/
theorem sampleStampingHelpers_setsOneLabel :
    setsOneLabel sampleStampingHelpers "pingcap.com/pod-spec-hash" := by
  intro pod
  refine ⟨rfl, rfl, ?_⟩
  intro other hother
  show (mapMerge pod.ObjectMeta.Labels [("pingcap.com/pod-spec-hash", "abc")]).lookup other
    = pod.ObjectMeta.Labels.lookup other
  unfold mapMerge
  rw [List.lookup_append, lookup_filter_not_in]
  have h1 : ("pingcap.com/pod-spec-hash" == other) = false := by
    simpa using fun heq => hother heq.symm
  have h2 : (other == "pingcap.com/pod-spec-hash") = false := by simpa using hother
  simp [List.lookup_cons, h1, h2]

/-- C24, as stated, fails: `CalculateHashAndSetLabels` stamps the pod with the label
`pingcap.com/pod-spec-hash`; a PD that carries a label of its own under that key, which is
neither `LabelKeyInstance` nor `LabelKeyConfigHash`, does not find its value `mine` on the
pod built by `newPod`: the pod carries the stamped value `abc`. -/
theorem newPod_labels_counterexample :
    (sampleLabelledPD "pd-0").Overlay = none
      ∧ (sampleLabelledPD "pd-0").Labels.lookup "pingcap.com/pod-spec-hash" = some "mine"
      ∧ "pingcap.com/pod-spec-hash" ≠ sampleConsts.LabelKeyInstance
      ∧ "pingcap.com/pod-spec-hash" ≠ sampleConsts.LabelKeyConfigHash
      ∧ (newPod sampleConsts sampleStampingHelpers { Name := "db" }
          { Name := "pd", ConfigUpdateStrategy := "RollingUpdate" } (sampleLabelledPD "pd-0")
          "h2").ObjectMeta.Labels.lookup "pingcap.com/pod-spec-hash" = some "abc" := by
  decide

/-- C24, amended: let `CalculateHashAndSetLabels` set a label under `key` only, `key`
being neither `LabelKeyConfigHash` nor `LabelKeyInstance`, and let these two keys be
distinct.  For every cluster, group, PD without overlay and configuration hash, the pod
built by `newPod` carries the label `LabelKeyConfigHash = configHash` and the label
`LabelKeyInstance = pd.Name`, whatever `pd.Labels` holds for those keys, keeps every label
of the PD under a key other than these two and `key`, and has the name and namespace of
the PD; so two pods built from the same PD differ in the configuration-hash label exactly
when the configuration hashes differ. -/
theorem newPod_labels (k : Consts) (h : Helpers) (cluster : Cluster) (pdg : PDGroup) (pd : PD)
    (configHash otherHash key : String) (hov : pd.Overlay = none)
    (hkeys : k.LabelKeyInstance ≠ k.LabelKeyConfigHash)
    (hcalc : setsOneLabel h key)
    (hk1 : key ≠ k.LabelKeyConfigHash) (hk2 : key ≠ k.LabelKeyInstance) :
    (newPod k h cluster pdg pd configHash).ObjectMeta.Labels.lookup k.LabelKeyConfigHash
        = some configHash
      ∧ mapIndex (newPod k h cluster pdg pd configHash).ObjectMeta.Labels k.LabelKeyConfigHash
        = configHash
      ∧ (newPod k h cluster pdg pd configHash).ObjectMeta.Labels.lookup k.LabelKeyInstance
        = some pd.Name
      ∧ (∀ other value, other ≠ k.LabelKeyInstance → other ≠ k.LabelKeyConfigHash →
          other ≠ key → pd.Labels.lookup other = some value →
          (newPod k h cluster pdg pd configHash).ObjectMeta.Labels.lookup other = some value)
      ∧ (newPod k h cluster pdg pd configHash).ObjectMeta.Name = pd.Name
      ∧ (newPod k h cluster pdg pd configHash).ObjectMeta.Namespace = pd.Namespace
      ∧ (mapIndex (newPod k h cluster pdg pd configHash).ObjectMeta.Labels k.LabelKeyConfigHash
            ≠ mapIndex (newPod k h cluster pdg pd otherHash).ObjectMeta.Labels
                k.LabelKeyConfigHash
          ↔ configHash ≠ otherHash) := by
  have hhash : ∀ hash : String,
      (newPod k h cluster pdg pd hash).ObjectMeta.Labels.lookup k.LabelKeyConfigHash
        = some hash := by
    intro hash
    obtain ⟨pod, hnew, _, _, hlabels⟩ := newPod_without_overlay k h cluster pdg pd hash hov
    rw [hnew, (hcalc pod).2.2 _ (Ne.symm hk1), hlabels,
      lookup_merged_labels pd.Labels _ _ _ _ _ hkeys]
    simp [Ne.symm hkeys]
  have hindex : ∀ hash : String,
      mapIndex (newPod k h cluster pdg pd hash).ObjectMeta.Labels k.LabelKeyConfigHash
        = hash := by
    intro hash
    simp [mapIndex, hhash hash]
  obtain ⟨pod, hnew, hname, hns, hlabels⟩ :=
    newPod_without_overlay k h cluster pdg pd configHash hov
  have hkeep := hcalc pod
  refine ⟨hhash configHash, hindex configHash, ?_, ?_, ?_, ?_, ?_⟩
  · rw [hnew, hkeep.2.2 _ (Ne.symm hk2), hlabels,
      lookup_merged_labels pd.Labels _ _ _ _ _ hkeys]
    simp
  · intro other value h1 h2 h3 hl
    rw [hnew, hkeep.2.2 _ h3, hlabels, lookup_merged_labels pd.Labels _ _ _ _ _ hkeys]
    simp [h1, h2, hl]
  · rw [hnew, hkeep.1, hname]
  · rw [hnew, hkeep.2.1, hns]
  · rw [hindex configHash, hindex otherHash]

/-- C24 amended, at a concrete input: the pod of `pd-0`, whose PD carries a label under the
stamped key, built for hash `h2` with a stamping that writes `pingcap.com/pod-spec-hash`:
it carries the configuration hash `h2`, the name `pd-0` and the group label of the PD. -/
theorem newPod_labels_witness :
    mapIndex (newPod sampleConsts sampleStampingHelpers { Name := "db" }
        { Name := "pd", ConfigUpdateStrategy := "RollingUpdate" } (sampleLabelledPD "pd-0")
        "h2").ObjectMeta.Labels sampleConsts.LabelKeyConfigHash = "h2"
      ∧ (newPod sampleConsts sampleStampingHelpers { Name := "db" }
        { Name := "pd", ConfigUpdateStrategy := "RollingUpdate" } (sampleLabelledPD "pd-0")
        "h2").ObjectMeta.Name = "pd-0"
      ∧ (newPod sampleConsts sampleStampingHelpers { Name := "db" }
        { Name := "pd", ConfigUpdateStrategy := "RollingUpdate" } (sampleLabelledPD "pd-0")
        "h2").ObjectMeta.Labels.lookup "pingcap.com/group" = some "pd" :=
  have key := newPod_labels sampleConsts sampleStampingHelpers { Name := "db" }
    { Name := "pd", ConfigUpdateStrategy := "RollingUpdate" } (sampleLabelledPD "pd-0") "h2"
    "h1" "pingcap.com/pod-spec-hash" rfl (by decide) sampleStampingHelpers_setsOneLabel
    (by decide) (by decide)
  ⟨key.2.1, key.2.2.2.2.1,
    key.2.2.2.1 "pingcap.com/group" "pd" (by decide) (by decide) (by decide) (by decide)⟩

/-! ### Volumes and mounts -/

/-- The loop of lines 151-169 appends one volume and one mount per declared volume, both
under the same name. -/
theorem appendPDVolumes_spec (k : Consts) (h : Helpers) (pdName : String) :
    ∀ (volumes : List PDVolume) (vols : List corev1.Volume) (mounts : List corev1.VolumeMount),
      (appendPDVolumes k h pdName volumes (vols, mounts)).1.length
          = vols.length + volumes.length
        ∧ (appendPDVolumes k h pdName volumes (vols, mounts)).2.length
          = mounts.length + volumes.length
        ∧ (mounts.map (fun m => m.Name) = vols.map (fun v => v.Name) →
            (appendPDVolumes k h pdName volumes (vols, mounts)).2.map (fun m => m.Name)
              = (appendPDVolumes k h pdName volumes (vols, mounts)).1.map (fun v => v.Name))
  | [], vols, mounts => by simp [appendPDVolumes]
  | vol :: rest, vols, mounts => by
    have ih := appendPDVolumes_spec k h pdName rest
      (vols ++ [{ Name := if vol.Name ≠ "" then k.NamePrefix ++ "pd" ++ "-" ++ vol.Name
                          else k.NamePrefix ++ "pd",
                  VolumeSource := { ConfigMap := none,
                                    PersistentVolumeClaim :=
                                      some (h.PersistentVolumeClaimName pdName vol.Name),
                                    Secret := none } }])
      (mounts ++ [{ Name := if vol.Name ≠ "" then k.NamePrefix ++ "pd" ++ "-" ++ vol.Name
                            else k.NamePrefix ++ "pd",
                    MountPath := vol.Path, ReadOnly := false }])
    have hstep : appendPDVolumes k h pdName (vol :: rest) (vols, mounts)
        = appendPDVolumes k h pdName rest
            (vols ++ [{ Name := if vol.Name ≠ "" then k.NamePrefix ++ "pd" ++ "-" ++ vol.Name
                                else k.NamePrefix ++ "pd",
                        VolumeSource := { ConfigMap := none,
                                          PersistentVolumeClaim :=
                                            some (h.PersistentVolumeClaimName pdName vol.Name),
                                          Secret := none } }],
             mounts ++ [{ Name := if vol.Name ≠ "" then k.NamePrefix ++ "pd" ++ "-" ++ vol.Name
                                  else k.NamePrefix ++ "pd",
                          MountPath := vol.Path, ReadOnly := false }]) := rfl
    rw [hstep]
    obtain ⟨h1, h2, h3⟩ := ih
    refine ⟨?_, ?_, ?_⟩
    · rw [h1, List.length_append, List.length_singleton, List.length_cons]
      omega
    · rw [h2, List.length_append, List.length_singleton, List.length_cons]
      omega
    · intro hacc
      apply h3
      rw [List.map_append, List.map_append, hacc]
      rfl

/-- The pod that `newPod` hands to `CalculateHashAndSetLabels` when the PD has no overlay:
its volumes and the mounts of its single container. -/
theorem newPod_volumes_without_overlay (k : Consts) (h : Helpers) (cluster : Cluster)
    (pdg : PDGroup) (pd : PD) (configHash : String) (hov : pd.Overlay = none) :
    ∃ (pod : corev1.Pod) (c : corev1.Container),
      newPod k h cluster pdg pd configHash = h.CalculateHashAndSetLabels pod
        ∧ pod.ObjectMeta.Name = pd.Name
        ∧ pod.Spec.Containers = [c]
        ∧ pod.Spec.Volumes.length = 1 + pd.Volumes.length + tlsVolumeCount h cluster pdg
        ∧ c.VolumeMounts.length = 1 + pd.Volumes.length + tlsVolumeCount h cluster pdg
        ∧ c.VolumeMounts.map (fun m => m.Name) = pod.Spec.Volumes.map (fun v => v.Name) := by
  obtain ⟨h1, h2, h3⟩ := appendPDVolumes_spec k h pd.Name pd.Volumes
    [{ Name := k.VolumeNameConfig,
       VolumeSource := { ConfigMap := some (h.ConfigMapName pd.Name),
                         PersistentVolumeClaim := none, Secret := none } }]
    [{ Name := k.VolumeNameConfig, MountPath := k.DirNameConfigPD, ReadOnly := false }]
  have h3 := h3 rfl
  simp only [List.length_singleton] at h1 h2
  unfold newPod
  simp only [hov]
  refine ⟨_, _, rfl, rfl, rfl, ?_⟩
  simp only [tlsVolumeCount]
  cases htls : h.IsTLSClusterEnabled cluster with
  | false =>
    simp only [Bool.false_eq_true, if_false, h3]
    refine ⟨by omega, by omega, trivial⟩
  | true =>
    cases hmount : h.MountClusterClientSecret pdg with
    | false =>
      simp only [Bool.false_eq_true, if_true, if_false, List.length_append,
        List.length_singleton, List.map_append, List.map_cons, List.map_nil, h3]
      refine ⟨by omega, by omega, trivial⟩
    | true =>
      simp only [if_true, List.length_append, List.length_singleton,
        List.map_append, List.map_cons, List.map_nil, h3]
      refine ⟨by omega, by omega, trivial⟩

/-- C35: for every cluster, group and PD without overlay, the hash stamping leaving the
`Spec` of the pods built for this PD as it is: the pod built by `newPod` has exactly
`1 + len(pd.Spec.Volumes) + t` volumes, where `t` is 0 when cluster TLS is disabled, 1 when
it is enabled and 2 when in addition the group mounts the cluster client secret; its
single container has the same number of volume mounts, the i-th mount has the name of the
i-th volume, and so every mount refers to a volume defined in the pod. -/
theorem newPod_volumes (k : Consts) (h : Helpers) (cluster : Cluster) (pdg : PDGroup) (pd : PD)
    (configHash : String) (hov : pd.Overlay = none)
    (hcalc : ∀ pod : corev1.Pod, pod.ObjectMeta.Name = pd.Name → hashLabelsKeepSpec h pod) :
    (newPod k h cluster pdg pd configHash).Spec.Volumes.length
        = 1 + pd.Volumes.length + tlsVolumeCount h cluster pdg
      ∧ (h.IsTLSClusterEnabled cluster = false → tlsVolumeCount h cluster pdg = 0)
      ∧ (h.IsTLSClusterEnabled cluster = true → h.MountClusterClientSecret pdg = false →
          tlsVolumeCount h cluster pdg = 1)
      ∧ (h.IsTLSClusterEnabled cluster = true → h.MountClusterClientSecret pdg = true →
          tlsVolumeCount h cluster pdg = 2)
      ∧ ∃ c : corev1.Container,
          (newPod k h cluster pdg pd configHash).Spec.Containers = [c]
            ∧ c.VolumeMounts.length
              = (newPod k h cluster pdg pd configHash).Spec.Volumes.length
            ∧ (∀ i : Nat, (c.VolumeMounts[i]?).map (fun m => m.Name)
                = ((newPod k h cluster pdg pd configHash).Spec.Volumes[i]?).map
                    (fun v => v.Name))
            ∧ (∀ m ∈ c.VolumeMounts,
                ∃ v ∈ (newPod k h cluster pdg pd configHash).Spec.Volumes, v.Name = m.Name) := by
  obtain ⟨pod, c, hnew, hname, hcont, hvols, hmounts, hnames⟩ :=
    newPod_volumes_without_overlay k h cluster pdg pd configHash hov
  have hspec : (newPod k h cluster pdg pd configHash).Spec = pod.Spec := by
    rw [hnew]
    exact hcalc pod hname
  rw [hspec]
  refine ⟨hvols, ?_, ?_, ?_, c, hcont, ?_, ?_, ?_⟩
  · intro htls
    simp [tlsVolumeCount, htls]
  · intro htls hmount
    simp [tlsVolumeCount, htls, hmount]
  · intro htls hmount
    simp [tlsVolumeCount, htls, hmount]
  · rw [hmounts, hvols]
  · intro i
    rw [← List.getElem?_map, ← List.getElem?_map, hnames]
  · intro m hm
    have hmem : m.Name ∈ pod.Spec.Volumes.map (fun v => v.Name) := by
      rw [← hnames]
      exact List.mem_map.mpr ⟨m, hm, rfl⟩
    obtain ⟨v, hv, hvn⟩ := List.mem_map.mp hmem
    exact ⟨v, hv, hvn⟩

/-- C35 at a concrete input: with cluster TLS enabled and the client secret mounted, the
pod of `pd-0`, which declares one data volume, has four volumes. -/
theorem newPod_volumes_witness :
    (newPod sampleConsts sampleTLSHelpers { Name := "db" }
        { Name := "pd", ConfigUpdateStrategy := "RollingUpdate" } (samplePD "pd-0")
        "h2").Spec.Volumes.length = 4 :=
  (newPod_volumes sampleConsts sampleTLSHelpers { Name := "db" }
    { Name := "pd", ConfigUpdateStrategy := "RollingUpdate" } (samplePD "pd-0") "h2" rfl
    (fun _ _ => rfl)).1

end tasks

/-! ## Theorems: the TiFlash client -/

namespace tiflashapi

/-- C25: for every response body `b` that the HTTP helper returns for the URL
`<url>/tiflash/store-status`, `GetStoreStatus` returns `(Status(b), nil)`, so the body
`Ready` yields the constant `Ready`; when the helper returns an error, `GetStoreStatus`
returns the empty status and that error. -/
theorem GetStoreStatus_spec (GetBodyOK : String → Except String String) (c : tiflashClient) :
    (∀ body, GetBodyOK (c.url ++ "/tiflash/store-status") = .ok body →
        GetStoreStatus GetBodyOK c = (body, none))
      ∧ (GetBodyOK (c.url ++ "/tiflash/store-status") = .ok "Ready" →
        GetStoreStatus GetBodyOK c = (Ready, none))
      ∧ (∀ err, GetBodyOK (c.url ++ "/tiflash/store-status") = .error err →
        GetStoreStatus GetBodyOK c = ("", some err)) := by
  have hurl : c.url ++ "/" ++ storeStatusPath = c.url ++ "/tiflash/store-status" := by
    rw [String.append_assoc]
    rfl
  refine ⟨?_, ?_, ?_⟩
  · intro body hb
    simp only [GetStoreStatus, hurl, hb]
  · intro hb
    simp only [GetStoreStatus, hurl, hb]
    rfl
  · intro err he
    simp only [GetStoreStatus, hurl, he]

/-- C25 at the input of `TestTiFlashControl`: the server answers `Ready`. -/
theorem GetStoreStatus_spec_witness :
    GetStoreStatus (testServer "http://127.0.0.1:8080") { url := "http://127.0.0.1:8080" }
      = (Ready, none) :=
  (GetStoreStatus_spec (testServer "http://127.0.0.1:8080")
    { url := "http://127.0.0.1:8080" }).2.1 rfl

end tiflashapi

/-! ## Theorems: the backup API -/

namespace v1alpha1

/-- The loop of `GetBackupCondition`: either no condition has the type and the answer is
`(-1, nil)`, or the list splits at the first condition of the type and the answer is its
index and the condition. -/
theorem findBackupCondition_spec (conditionType : String) :
    ∀ (l : List BackupCondition) (i : Nat),
      ((∀ x ∈ l, x.Type_ ≠ conditionType) ∧ findBackupCondition conditionType l i = (-1, none))
        ∨ ∃ pre o post, l = pre ++ o :: post ∧ (∀ x ∈ pre, x.Type_ ≠ conditionType)
            ∧ o.Type_ = conditionType
            ∧ findBackupCondition conditionType l i = (((i + pre.length : Nat) : Int), some o)
  | [], i => Or.inl ⟨by simp, rfl⟩
  | x :: xs, i => by
    by_cases hx : x.Type_ = conditionType
    · right
      refine ⟨[], x, xs, rfl, by simp, hx, ?_⟩
      simp [findBackupCondition, hx]
    · rcases findBackupCondition_spec conditionType xs (i + 1) with ⟨hall, hres⟩
        | ⟨pre, o, post, hsplit, hpre, ho, hres⟩
      · left
        refine ⟨?_, ?_⟩
        · intro y hy
          rcases List.mem_cons.mp hy with rfl | hy
          · exact hx
          · exact hall y hy
        · simp [findBackupCondition, hx, hres]
      · right
        refine ⟨x :: pre, o, post, by simp [hsplit], ?_, ho, ?_⟩
        · intro y hy
          rcases List.mem_cons.mp hy with rfl | hy
          · exact hx
          · exact hpre y hy
        · simp only [findBackupCondition, hx, if_false, hres, List.length_cons]
          congr 2
          omega

/-- The loop on a list split at the first condition of the type. -/
theorem findBackupCondition_of_split (conditionType : String) (pre post : List BackupCondition)
    (o : BackupCondition) (i : Nat) (hpre : ∀ x ∈ pre, x.Type_ ≠ conditionType)
    (ho : o.Type_ = conditionType) :
    findBackupCondition conditionType (pre ++ o :: post) i
      = (((i + pre.length : Nat) : Int), some o) := by
  induction pre generalizing i with
  | nil => simp [findBackupCondition, ho]
  | cons x xs ih =>
    have hx : x.Type_ ≠ conditionType := hpre x (by simp)
    have hstep : findBackupCondition conditionType (x :: (xs ++ o :: post)) i
        = findBackupCondition conditionType (xs ++ o :: post) (i + 1) := by
      simp [findBackupCondition, hx]
    rw [List.cons_append, hstep, ih (i + 1) (fun y hy => hpre y (by simp [hy])),
      List.length_cons]
    congr 2
    omega

/-- The loop on a list without a condition of the type, followed by one of the type. -/
theorem findBackupCondition_append (conditionType : String) (l : List BackupCondition)
    (c : BackupCondition) (i : Nat) (hl : ∀ x ∈ l, x.Type_ ≠ conditionType)
    (hc : c.Type_ = conditionType) :
    findBackupCondition conditionType (l ++ [c]) i = (((i + l.length : Nat) : Int), some c) :=
  findBackupCondition_of_split conditionType l [] c i hl hc

/-- Writing the slot of the first condition of a type. -/
theorem set_split (pre post : List BackupCondition) (o c : BackupCondition) :
    (pre ++ o :: post).set pre.length c = pre ++ c :: post := by
  induction pre with
  | nil => rfl
  | cons x xs ih => simp [List.set, ih]

/-- The call with a nil condition (lines 132-134). -/
theorem UpdateBackupCondition_nil (k : Consts) (now : Nat) (status : Option BackupStatus) :
    UpdateBackupCondition k now status .nil = some (false, status, none) := rfl

/-- The call when no condition of the type is stored (lines 146-150): the stamped
condition is appended. -/
theorem UpdateBackupCondition_new (k : Consts) (now : Nat) (status : BackupStatus)
    (c : BackupCondition) (hnone : ∀ x ∈ status.Conditions, x.Type_ ≠ c.Type_) :
    UpdateBackupCondition k now (some status) (.fresh c)
      = some (true,
          some { syncPhase k status c with
                 Conditions := status.Conditions ++ [stampNow now c] },
          some (stampNow now c)) := by
  have hfind : findBackupCondition c.Type_ status.Conditions 0 = (-1, none) := by
    rcases findBackupCondition_spec c.Type_ status.Conditions 0 with ⟨_, hres⟩
      | ⟨pre, o, post, hsplit, _, ho, _⟩
    · exact hres
    · exact absurd ho (hnone o (by simp [hsplit]))
  simp only [UpdateBackupCondition, ConditionPtr.read, ConditionPtr.write, GetBackupCondition, hfind, syncPhase, stampNow]
  split_ifs <;> rfl

/-- The call when a condition of the type is stored and the phase differs from the type
(lines 153-156): the stamped condition replaces the stored one. -/
theorem UpdateBackupCondition_diff_phase (k : Consts) (now : Nat) (status : BackupStatus)
    (c : BackupCondition) (pre post : List BackupCondition) (o : BackupCondition)
    (hsplit : status.Conditions = pre ++ o :: post) (hpre : ∀ x ∈ pre, x.Type_ ≠ c.Type_)
    (ho : o.Type_ = c.Type_) (hphase : status.Phase ≠ c.Type_) :
    UpdateBackupCondition k now (some status) (.fresh c)
      = some (true,
          some { syncPhase k status c with Conditions := pre ++ stampNow now c :: post },
          some (stampNow now c)) := by
  have hfind : findBackupCondition c.Type_ status.Conditions 0
      = (((0 + pre.length : Nat) : Int), some o) := by
    rw [hsplit]
    exact findBackupCondition_of_split c.Type_ pre post o 0 hpre ho
  have hset : ∀ s : BackupStatus, s.Conditions = status.Conditions →
      s.Conditions.set ((0 + pre.length : Nat) : Int).toNat (stampNow now c)
        = pre ++ stampNow now c :: post := by
    intro s hs
    rw [hs, hsplit]
    simp only [Nat.zero_add, Int.toNat_ofNat]
    exact set_split pre post o (stampNow now c)
  have hne : (status.Phase != c.Type_) = true := by simpa using hphase
  simp only [UpdateBackupCondition, ConditionPtr.read, ConditionPtr.write, GetBackupCondition, hfind, syncPhase, stampNow, hne,
    Bool.true_and, if_true]
  split_ifs
  · have := hset { status with Phase := c.Type_ } rfl
    simp only [stampNow] at this
    simp only [this]
  · have := hset status rfl
    simp only [stampNow] at this
    simp only [this]

/-- The call when a condition of the type is stored and the phase is the type (lines
158-170): the transition time is kept when the `Status` agree, the condition replaces the
stored one and the answer tells whether they differ. -/
theorem UpdateBackupCondition_same_phase (k : Consts) (now : Nat) (status : BackupStatus)
    (c : BackupCondition) (pre post : List BackupCondition) (o : BackupCondition)
    (hsplit : status.Conditions = pre ++ o :: post) (hpre : ∀ x ∈ pre, x.Type_ ≠ c.Type_)
    (ho : o.Type_ = c.Type_) (hphase : status.Phase = c.Type_) :
    UpdateBackupCondition k now (some status) (.fresh c)
      = some (!sameCondition (keepTransitionTime (stampNow now c) o) o,
          some { status with
                 Conditions := pre ++ keepTransitionTime (stampNow now c) o :: post },
          some (keepTransitionTime (stampNow now c) o)) := by
  have hfind : findBackupCondition c.Type_ status.Conditions 0
      = (((0 + pre.length : Nat) : Int), some o) := by
    rw [hsplit]
    exact findBackupCondition_of_split c.Type_ pre post o 0 hpre ho
  have hset : status.Conditions.set ((0 + pre.length : Nat) : Int).toNat
        (keepTransitionTime (stampNow now c) o)
      = pre ++ keepTransitionTime (stampNow now c) o :: post := by
    rw [hsplit]
    simp only [Nat.zero_add, Int.toNat_ofNat]
    exact set_split pre post o _
  have heq : (status.Phase != c.Type_) = false := by simpa using hphase
  simp only [UpdateBackupCondition, ConditionPtr.read, ConditionPtr.write, GetBackupCondition, hfind, heq, Bool.false_and,
    Bool.false_eq_true, if_false]
  simp only [keepTransitionTime, stampNow, sameCondition] at hset ⊢
  rw [hset]

/-- The three ways a call with a status and a condition ends, each with the lookup of the
type before and after the call: the condition is appended; or it replaces the stored one
because the phase differs; or it replaces the stored one with the transition time kept
when the `Status` agree. -/
theorem UpdateBackupCondition_cases (k : Consts) (now : Nat) (status : BackupStatus)
    (c : BackupCondition) :
    ((∀ x ∈ status.Conditions, x.Type_ ≠ c.Type_)
        ∧ GetBackupCondition (some status) c.Type_ = (-1, none)
        ∧ UpdateBackupCondition k now (some status) (.fresh c)
          = some (true,
              some { syncPhase k status c with
                     Conditions := status.Conditions ++ [stampNow now c] },
              some (stampNow now c))
        ∧ GetBackupCondition
            (some { syncPhase k status c with
                    Conditions := status.Conditions ++ [stampNow now c] }) c.Type_
          = (((status.Conditions.length : Nat) : Int), some (stampNow now c)))
      ∨ (∃ pre o post, status.Conditions = pre ++ o :: post
          ∧ (∀ x ∈ pre, x.Type_ ≠ c.Type_) ∧ o.Type_ = c.Type_
          ∧ GetBackupCondition (some status) c.Type_ = (((pre.length : Nat) : Int), some o)
          ∧ status.Phase ≠ c.Type_
          ∧ UpdateBackupCondition k now (some status) (.fresh c)
            = some (true,
                some { syncPhase k status c with Conditions := pre ++ stampNow now c :: post },
                some (stampNow now c))
          ∧ GetBackupCondition
              (some { syncPhase k status c with Conditions := pre ++ stampNow now c :: post })
              c.Type_
            = (((pre.length : Nat) : Int), some (stampNow now c)))
      ∨ (∃ pre o post, status.Conditions = pre ++ o :: post
          ∧ (∀ x ∈ pre, x.Type_ ≠ c.Type_) ∧ o.Type_ = c.Type_
          ∧ GetBackupCondition (some status) c.Type_ = (((pre.length : Nat) : Int), some o)
          ∧ status.Phase = c.Type_
          ∧ UpdateBackupCondition k now (some status) (.fresh c)
            = some (!sameCondition (keepTransitionTime (stampNow now c) o) o,
                some { status with
                       Conditions := pre ++ keepTransitionTime (stampNow now c) o :: post },
                some (keepTransitionTime (stampNow now c) o))
          ∧ GetBackupCondition
              (some { status with
                      Conditions := pre ++ keepTransitionTime (stampNow now c) o :: post })
              c.Type_
            = (((pre.length : Nat) : Int), some (keepTransitionTime (stampNow now c) o))) := by
  have hkeep : ∀ o : BackupCondition, (keepTransitionTime (stampNow now c) o).Type_ = c.Type_ := by
    intro o
    unfold keepTransitionTime stampNow
    split_ifs <;> rfl
  rcases findBackupCondition_spec c.Type_ status.Conditions 0 with ⟨hall, hres⟩
    | ⟨pre, o, post, hsplit, hpre, ho, hres⟩
  · left
    refine ⟨hall, hres, UpdateBackupCondition_new k now status c hall, ?_⟩
    have := findBackupCondition_append c.Type_ status.Conditions (stampNow now c) 0 hall rfl
    simpa [GetBackupCondition] using this
  · have hold : GetBackupCondition (some status) c.Type_ = (((pre.length : Nat) : Int), some o) := by
      simpa [GetBackupCondition] using hres
    by_cases hphase : status.Phase = c.Type_
    · right; right
      refine ⟨pre, o, post, hsplit, hpre, ho, hold, hphase,
        UpdateBackupCondition_same_phase k now status c pre post o hsplit hpre ho hphase, ?_⟩
      have := findBackupCondition_of_split c.Type_ pre post
        (keepTransitionTime (stampNow now c) o) 0 hpre (hkeep o)
      simpa [GetBackupCondition] using this
    · right; left
      refine ⟨pre, o, post, hsplit, hpre, ho, hold, hphase,
        UpdateBackupCondition_diff_phase k now status c pre post o hsplit hpre ho hphase, ?_⟩
      have := findBackupCondition_of_split c.Type_ pre post (stampNow now c) 0 hpre rfl
      simpa [GetBackupCondition] using this

/-- What `isUpdate` says: the stored condition and the new one agree in `Status`, `Reason`,
`Message` and `LastTransitionTime`. -/
theorem sameCondition_iff (n o : BackupCondition) :
    sameCondition n o = true
      ↔ n.Status = o.Status ∧ n.Reason = o.Reason ∧ n.Message = o.Message
        ∧ n.LastTransitionTime = o.LastTransitionTime := by
  simp [sameCondition, and_assoc]

/-! ### A condition pointer into the status -/

/-- Keeping the transition time of a condition against itself changes nothing, and a
condition is the same as itself. -/
theorem keepTransitionTime_self (c : BackupCondition) :
    keepTransitionTime c c = c ∧ sameCondition c c = true := by
  refine ⟨?_, by simp [sameCondition]⟩
  unfold keepTransitionTime
  simp

/-- The fields that `stampNow` and `keepTransitionTime` leave alone. -/
theorem keepTransitionTime_fields (now : Nat) (c o : BackupCondition) :
    (keepTransitionTime (stampNow now c) o).Type_ = c.Type_
      ∧ (keepTransitionTime (stampNow now c) o).Status = c.Status
      ∧ (keepTransitionTime (stampNow now c) o).Reason = c.Reason
      ∧ (keepTransitionTime (stampNow now c) o).Message = c.Message := by
  unfold keepTransitionTime stampNow
  split_ifs <;> exact ⟨rfl, rfl, rfl, rfl⟩

/-- Writing a condition over a slot that holds a condition of the same type: the length
and the types stay, every condition of another type stays in its slot, and no condition of
another type is added. -/
theorem set_same_type (l : List BackupCondition) (m : Nat) (c y : BackupCondition)
    (hm : l[m]? = some c) (hy : y.Type_ = c.Type_) :
    (l.set m y).length = l.length
      ∧ (l.set m y).map (fun x => x.Type_) = l.map (fun x => x.Type_)
      ∧ (∀ (n : Nat) (x : BackupCondition), l[n]? = some x → x.Type_ ≠ c.Type_ →
          (l.set m y)[n]? = some x)
      ∧ (∀ x ∈ l.set m y, x.Type_ ≠ c.Type_ → x ∈ l) := by
  refine ⟨List.length_set _ _ _, ?_, ?_, ?_⟩
  · apply List.ext_getElem?
    intro n
    rw [List.getElem?_map, List.getElem?_map, List.getElem?_set]
    by_cases hmn : m = n
    · subst hmn
      have hlt : m < l.length := (List.getElem?_eq_some.mp hm).1
      simp [hlt, hm, hy]
    · simp [hmn]
  · intro n x hx hxt
    by_cases hmn : m = n
    · subst hmn
      rw [hm] at hx
      simp only [Option.some.injEq] at hx
      subst hx
      exact absurd rfl hxt
    · rw [List.getElem?_set_ne hmn]
      exact hx
  · intro x hx hxt
    rcases List.mem_or_eq_of_mem_set hx with hx | hx
    · exact hx
    · subst hx
      exact absurd hy hxt

/-- The call through a pointer to slot `i` when the phase differs from the type (lines
153-156): line 135 has stamped the slot, and the stamped condition is written over the
first condition of the type. -/
theorem UpdateBackupCondition_stored_diff_phase (k : Consts) (now : Nat)
    (status : BackupStatus) (i : Nat) (c : BackupCondition)
    (pre post1 : List BackupCondition) (o1 : BackupCondition)
    (hi : status.Conditions[i]? = some c)
    (hsplit : status.Conditions.set i (stampNow now c) = pre ++ o1 :: post1)
    (hpre : ∀ x ∈ pre, x.Type_ ≠ c.Type_) (ho1 : o1.Type_ = c.Type_)
    (hphase : status.Phase ≠ c.Type_) :
    UpdateBackupCondition k now (some status) (.stored i)
      = some (true,
          some { syncPhase k status c with Conditions := pre ++ stampNow now c :: post1 },
          some (stampNow now c)) := by
  have hfind : findBackupCondition c.Type_ (pre ++ o1 :: post1) 0
      = (((0 + pre.length : Nat) : Int), some o1) :=
    findBackupCondition_of_split c.Type_ pre post1 o1 0 hpre ho1
  have hset : (pre ++ o1 :: post1).set ((0 + pre.length : Nat) : Int).toNat (stampNow now c)
      = pre ++ stampNow now c :: post1 := by
    simp only [Nat.zero_add, Int.toNat_ofNat]
    exact set_split pre post1 o1 (stampNow now c)
  have hne : (status.Phase != c.Type_) = true := by simpa using hphase
  simp only [stampNow] at hsplit hset
  simp only [UpdateBackupCondition, ConditionPtr.read, hi, ConditionPtr.write,
    GetBackupCondition, hsplit, hfind, syncPhase, stampNow, hne, Bool.true_and, if_true]
  split_ifs
  · simp only [hset]
  · simp only [hset]

/-- The call through a pointer to slot `i` when the phase is the type (lines 158-170): line
135 has stamped the slot, line 160 writes the kept transition time into it, and the
condition is written over the first condition of the type. -/
theorem UpdateBackupCondition_stored_same_phase (k : Consts) (now : Nat)
    (status : BackupStatus) (i : Nat) (c : BackupCondition)
    (pre post1 : List BackupCondition) (o1 : BackupCondition)
    (hi : status.Conditions[i]? = some c)
    (hsplit : status.Conditions.set i (stampNow now c) = pre ++ o1 :: post1)
    (hpre : ∀ x ∈ pre, x.Type_ ≠ c.Type_) (ho1 : o1.Type_ = c.Type_)
    (hphase : status.Phase = c.Type_) :
    UpdateBackupCondition k now (some status) (.stored i)
      = some (!sameCondition (keepTransitionTime (stampNow now c) o1) o1,
          some { status with
                 Conditions := ((pre ++ o1 :: post1).set i
                    (keepTransitionTime (stampNow now c) o1)).set pre.length
                    (keepTransitionTime (stampNow now c) o1) },
          some (keepTransitionTime (stampNow now c) o1)) := by
  have hfind : findBackupCondition c.Type_ (pre ++ o1 :: post1) 0
      = (((0 + pre.length : Nat) : Int), some o1) :=
    findBackupCondition_of_split c.Type_ pre post1 o1 0 hpre ho1
  have heq : (status.Phase != c.Type_) = false := by simpa using hphase
  simp only [stampNow] at hsplit
  simp only [UpdateBackupCondition, ConditionPtr.read, hi, ConditionPtr.write,
    GetBackupCondition, hsplit, hfind, heq, Bool.false_and, Bool.false_eq_true, if_false,
    keepTransitionTime, stampNow, sameCondition, Nat.zero_add, Int.toNat_ofNat]

/-- The ways a call through a pointer to slot `i` ends.  The status holds a first condition
`o` of the type of `*condition`, at or before slot `i`.  After the call the first condition
of the type is the value `fin` of `*condition`, the conditions before it are untouched,
and those after it differ at most in slot `i`, which then holds `fin` too.  The call
returns true when the phase differs from the type; otherwise it returns false when the
pointer is to the first condition of the type, and compares with `o` when it is to a later
one. -/
theorem UpdateBackupCondition_stored_cases (k : Consts) (now : Nat) (status : BackupStatus)
    (i : Nat) (c : BackupCondition) (hi : status.Conditions[i]? = some c) :
    ∃ (pre : List BackupCondition) (o : BackupCondition) (post : List BackupCondition),
      status.Conditions = pre ++ o :: post
        ∧ (∀ x ∈ pre, x.Type_ ≠ c.Type_) ∧ o.Type_ = c.Type_
        ∧ GetBackupCondition (some status) c.Type_ = (((pre.length : Nat) : Int), some o)
        ∧ pre.length ≤ i
        ∧ (pre.length = i → o = c)
        ∧ ∃ (r : Bool) (after : BackupStatus) (fin : BackupCondition)
            (post2 : List BackupCondition),
          UpdateBackupCondition k now (some status) (.stored i)
              = some (r, some after, some fin)
            ∧ after.Conditions = pre ++ fin :: post2
            ∧ post2.length = post.length
            ∧ post2.map (fun x => x.Type_) = post.map (fun x => x.Type_)
            ∧ (∀ (n : Nat) (x : BackupCondition), post[n]? = some x → x.Type_ ≠ c.Type_ →
                post2[n]? = some x)
            ∧ (∀ x ∈ post2, x.Type_ ≠ c.Type_ → x ∈ post)
            ∧ (status.Phase ≠ c.Type_ → r = true ∧ fin = stampNow now c)
            ∧ (status.Phase = c.Type_ → pre.length = i → r = false ∧ fin = stampNow now c)
            ∧ (status.Phase = c.Type_ → pre.length < i →
                r = !sameCondition (keepTransitionTime (stampNow now c) o) o
                  ∧ fin = keepTransitionTime (stampNow now c) o) := by
  have hmem : c ∈ status.Conditions := by
    obtain ⟨hlt, hget⟩ := List.getElem?_eq_some.mp hi
    rw [← hget]
    exact List.getElem_mem _
  rcases findBackupCondition_spec c.Type_ status.Conditions 0 with ⟨hall, _⟩
    | ⟨pre, o, post, hsplit, hpre, ho, hres⟩
  · exact absurd rfl (hall c hmem)
  · have hold : GetBackupCondition (some status) c.Type_
        = (((pre.length : Nat) : Int), some o) := by
      simpa [GetBackupCondition] using hres
    have hle : pre.length ≤ i := by
      by_contra hlt
      have hlt2 : i < pre.length := by omega
      have hi2 := hi
      rw [hsplit, List.getElem?_append_left hlt2] at hi2
      obtain ⟨hlt3, hget⟩ := List.getElem?_eq_some.mp hi2
      have hcpre : c ∈ pre := by
        rw [← hget]
        exact List.getElem_mem _
      exact hpre c hcpre rfl
    refine ⟨pre, o, post, hsplit, hpre, ho, hold, hle, ?_, ?_⟩
    · intro heq
      have hi2 := hi
      rw [hsplit, ← heq, List.getElem?_append_right (Nat.le_refl _)] at hi2
      simpa using hi2
    · rcases Nat.eq_or_lt_of_le hle with heq | hlt
      · have hoc : o = c := by
          have hi2 := hi
          rw [hsplit, ← heq, List.getElem?_append_right (Nat.le_refl _)] at hi2
          simpa using hi2
        have hset1 : status.Conditions.set i (stampNow now c)
            = pre ++ stampNow now c :: post := by
          rw [hsplit, ← heq]
          exact set_split pre post o _
        by_cases hphase : status.Phase = c.Type_
        · have hrun := UpdateBackupCondition_stored_same_phase k now status i c pre post
            (stampNow now c) hi hset1 hpre rfl hphase
          rw [(keepTransitionTime_self (stampNow now c)).1,
            (keepTransitionTime_self (stampNow now c)).2, ← heq,
            set_split pre post (stampNow now c) (stampNow now c),
            set_split pre post (stampNow now c) (stampNow now c), heq] at hrun
          refine ⟨_, _, _, post, hrun, rfl, rfl, rfl, fun _ x hx _ => hx, fun _ hx _ => hx,
            ?_, ?_, ?_⟩
          · intro hp
            exact absurd hphase hp
          · intro _ _
            exact ⟨rfl, rfl⟩
          · intro _ hlt
            omega
        · have hrun := UpdateBackupCondition_stored_diff_phase k now status i c pre post
            (stampNow now c) hi hset1 hpre rfl hphase
          refine ⟨_, _, _, post, hrun, rfl, rfl, rfl, fun _ x hx _ => hx, fun _ hx _ => hx,
            ?_, ?_, ?_⟩
          · intro _
            exact ⟨rfl, rfl⟩
          · intro hp
            exact absurd hp hphase
          · intro hp
            exact absurd hp hphase
      · obtain ⟨m, hm⟩ : ∃ m, i - pre.length = m + 1 := ⟨i - pre.length - 1, by omega⟩
        have hpostm : post[m]? = some c := by
          have hi2 := hi
          rw [hsplit, List.getElem?_append_right hle, hm] at hi2
          simpa using hi2
        have hset1 : ∀ y : BackupCondition,
            (pre ++ o :: post).set i y = pre ++ o :: post.set m y := by
          intro y
          rw [List.set_append_right _ _ hle, hm, List.set_cons_succ]
        have hset2 : ∀ y z : BackupCondition,
            ((pre ++ o :: post.set m y).set i z).set pre.length z
              = pre ++ z :: post.set m z := by
          intro y z
          rw [List.set_append_right _ _ hle, hm, List.set_cons_succ, List.set_set]
          exact set_split pre (post.set m z) o z
        have hsetS : status.Conditions.set i (stampNow now c)
            = pre ++ o :: post.set m (stampNow now c) := by
          rw [hsplit]
          exact hset1 _
        by_cases hphase : status.Phase = c.Type_
        · have hrun := UpdateBackupCondition_stored_same_phase k now status i c pre
            (post.set m (stampNow now c)) o hi hsetS hpre ho hphase
          rw [hset2] at hrun
          obtain ⟨f1, f2, f3, f4⟩ := set_same_type post m c
            (keepTransitionTime (stampNow now c) o) hpostm
            (keepTransitionTime_fields now c o).1
          refine ⟨_, _, _, post.set m (keepTransitionTime (stampNow now c) o), hrun, rfl,
            f1, f2, f3, f4, ?_, ?_, ?_⟩
          · intro hp
            exact absurd hphase hp
          · intro _ heq
            omega
          · intro _ _
            exact ⟨rfl, rfl⟩
        · have hrun := UpdateBackupCondition_stored_diff_phase k now status i c pre
            (post.set m (stampNow now c)) o hi hsetS hpre ho hphase
          obtain ⟨f1, f2, f3, f4⟩ := set_same_type post m c (stampNow now c) hpostm rfl
          refine ⟨_, _, _, post.set m (stampNow now c), hrun, rfl, f1, f2, f3, f4,
            ?_, ?_, ?_⟩
          · intro _
            exact ⟨rfl, rfl⟩
          · intro hp
            exact absurd hp hphase
          · intro hp
            exact absurd hp hphase

/-- The call through a pointer to slot `i`, in short: what `UpdateBackupCondition_stored_cases`
says, with the fields of the final condition and the lookup of the type after the call. -/
theorem UpdateBackupCondition_stored_summary (k : Consts) (now : Nat) (status : BackupStatus)
    (i : Nat) (c : BackupCondition) (hi : status.Conditions[i]? = some c) :
    ∃ (pre : List BackupCondition) (o : BackupCondition) (post : List BackupCondition)
        (r : Bool) (after : BackupStatus) (fin : BackupCondition)
        (post2 : List BackupCondition),
      status.Conditions = pre ++ o :: post
        ∧ o.Type_ = c.Type_
        ∧ GetBackupCondition (some status) c.Type_ = (((pre.length : Nat) : Int), some o)
        ∧ pre.length ≤ i
        ∧ (pre.length = i → o = c)
        ∧ UpdateBackupCondition k now (some status) (.stored i)
            = some (r, some after, some fin)
        ∧ after.Conditions = pre ++ fin :: post2
        ∧ GetBackupCondition (some after) c.Type_ = (((pre.length : Nat) : Int), some fin)
        ∧ (fin.Type_ = c.Type_ ∧ fin.Status = c.Status ∧ fin.Reason = c.Reason
            ∧ fin.Message = c.Message)
        ∧ post2.length = post.length
        ∧ post2.map (fun x => x.Type_) = post.map (fun x => x.Type_)
        ∧ (∀ (n : Nat) (x : BackupCondition), post[n]? = some x → x.Type_ ≠ c.Type_ →
            post2[n]? = some x)
        ∧ (∀ x ∈ post2, x.Type_ ≠ c.Type_ → x ∈ post)
        ∧ (status.Phase ≠ c.Type_ → r = true ∧ fin = stampNow now c)
        ∧ (status.Phase = c.Type_ → pre.length = i → r = false ∧ fin = stampNow now c)
        ∧ (status.Phase = c.Type_ → pre.length < i →
            r = !sameCondition (keepTransitionTime (stampNow now c) o) o
              ∧ fin = keepTransitionTime (stampNow now c) o) := by
  obtain ⟨pre, o, post, hsplit, hpre, ho, hold, hle, hoc, r, after, fin, post2, hrun, hafter,
    hlen, hmap, hslot, hmemb, hdiff, hfirst, hlater⟩ :=
    UpdateBackupCondition_stored_cases k now status i c hi
  have hfields : fin.Type_ = c.Type_ ∧ fin.Status = c.Status ∧ fin.Reason = c.Reason
      ∧ fin.Message = c.Message := by
    by_cases hphase : status.Phase = c.Type_
    · rcases Nat.eq_or_lt_of_le hle with heq | hlt
      · rw [(hfirst hphase heq).2]
        exact ⟨rfl, rfl, rfl, rfl⟩
      · rw [(hlater hphase hlt).2]
        exact keepTransitionTime_fields now c o
    · rw [(hdiff hphase).2]
      exact ⟨rfl, rfl, rfl, rfl⟩
  have hlookup : GetBackupCondition (some after) c.Type_
      = (((pre.length : Nat) : Int), some fin) := by
    have := findBackupCondition_of_split c.Type_ pre post2 fin 0 hpre hfields.1
    simpa [GetBackupCondition, hafter] using this
  exact ⟨pre, o, post, r, after, fin, post2, hsplit, ho, hold, hle, hoc, hrun, hafter, hlookup,
    hfields, hlen, hmap, hslot, hmemb, hdiff, hfirst, hlater⟩

/-- Reading a slot of a list whose first condition of a type and whose later conditions of
that type were replaced: a condition of another type is where it was. -/
theorem getElem?_replace_tail (pre post post2 : List BackupCondition)
    (o fin x : BackupCondition) (conditionType : String) (n : Nat)
    (ho : o.Type_ = conditionType)
    (hslot : ∀ (m : Nat) (y : BackupCondition), post[m]? = some y → y.Type_ ≠ conditionType →
      post2[m]? = some y)
    (hx : (pre ++ o :: post)[n]? = some x) (hxt : x.Type_ ≠ conditionType) :
    (pre ++ fin :: post2)[n]? = some x := by
  rcases Nat.lt_trichotomy n pre.length with hlt | heq | hgt
  · rw [List.getElem?_append_left hlt] at hx
    rw [List.getElem?_append_left hlt]
    exact hx
  · subst heq
    rw [List.getElem?_append_right (Nat.le_refl _)] at hx
    simp only [Nat.sub_self, List.getElem?_cons_zero, Option.some.injEq] at hx
    subst hx
    exact absurd ho hxt
  · have hle : pre.length ≤ n := by omega
    rw [List.getElem?_append_right hle] at hx ⊢
    obtain ⟨j, hj⟩ : ∃ j, n - pre.length = j + 1 := ⟨n - pre.length - 1, by omega⟩
    rw [hj] at hx ⊢
    simp only [List.getElem?_cons_succ] at hx ⊢
    exact hslot j x hx hxt

/-- A call with the pointer that `GetBackupCondition` hands out: the phase is `Scheduled`,
the `Scheduled` condition stored in slot 0 has transition time 1, and `condition` points to
that slot.  At instant 9 the call returns false and the stored transition time is 9. -/
theorem UpdateBackupCondition_stored_example :
    (GetBackupCondition (some (sampleStatus "Scheduled" [sampleCondition "Scheduled" "True" 1]))
        "Scheduled") = (0, some (sampleCondition "Scheduled" "True" 1))
      ∧ UpdateBackupCondition sampleConsts 9
          (some (sampleStatus "Scheduled" [sampleCondition "Scheduled" "True" 1])) (.stored 0)
        = some (false, some (sampleStatus "Scheduled" [sampleCondition "Scheduled" "True" 9]),
            some (sampleCondition "Scheduled" "True" 9)) := by
  decide

/-- C26, as stated, fails: the phase is `Running`, a `Scheduled` condition is stored with
transition time 5, and the same condition is passed in at instant 5.  The call returns
true although the condition is not new and the stored condition of that type is the same
after the call as before. -/
theorem UpdateBackupCondition_returns_counterexample :
    (∃ status, UpdateBackupCondition sampleConsts 5
          (some (sampleStatus "Running" [sampleCondition "Scheduled" "True" 5]))
          (.fresh (sampleCondition "Scheduled" "True" 0))
        = some (true, some status, some (sampleCondition "Scheduled" "True" 5))
        ∧ (GetBackupCondition (some status) "Scheduled").2
          = some (sampleCondition "Scheduled" "True" 5))
      ∧ (GetBackupCondition (some (sampleStatus "Running" [sampleCondition "Scheduled" "True" 5]))
          "Scheduled").2 = some (sampleCondition "Scheduled" "True" 5) :=
  ⟨⟨sampleStatus "Scheduled" [sampleCondition "Scheduled" "True" 5], by decide, by decide⟩,
    by decide⟩

/-- C26, amended: for every non-nil status and every condition that is not part of the
status, `UpdateBackupCondition` returns true if and only if the condition was newly added
(no condition of that type existed), or `status.Phase` differed from the type of the
condition, or the stored condition of that type changed in `Status`, `Reason`, `Message`
or `LastTransitionTime`.  When `condition` points to the slot `status.Conditions[i]` (the
pointer that `GetBackupCondition` hands out), the call returns true if and only if
`status.Phase` differed from the type, or the slot is not the first condition of its type
and that first condition changed in one of the four fields; for the first condition of its
type with the phase equal to the type it returns false, although line 135 has set the
stored `LastTransitionTime` to now.  With a nil condition it returns false and leaves the
status unchanged. -/
theorem UpdateBackupCondition_returns (k : Consts) (now : Nat) (status : BackupStatus)
    (c : BackupCondition) :
    (∀ s, UpdateBackupCondition k now s .nil = some (false, s, none))
      ∧ (∃ r status2 c2, UpdateBackupCondition k now (some status) (.fresh c)
            = some (r, some status2, some c2)
          ∧ (r = true ↔
              (GetBackupCondition (some status) c.Type_).2 = none
                ∨ status.Phase ≠ c.Type_
                ∨ ∃ o n, (GetBackupCondition (some status) c.Type_).2 = some o
                    ∧ (GetBackupCondition (some status2) c.Type_).2 = some n
                    ∧ ¬ (n.Status = o.Status ∧ n.Reason = o.Reason ∧ n.Message = o.Message
                          ∧ n.LastTransitionTime = o.LastTransitionTime)))
      ∧ (∀ i : Nat, status.Conditions[i]? = some c →
          ∃ (r : Bool) (status2 : BackupStatus) (c2 : BackupCondition) (j : Nat)
              (o n : BackupCondition),
            UpdateBackupCondition k now (some status) (.stored i)
                = some (r, some status2, some c2)
              ∧ GetBackupCondition (some status) c.Type_ = ((j : Int), some o)
              ∧ (GetBackupCondition (some status2) c.Type_).2 = some n
              ∧ (r = true ↔
                  status.Phase ≠ c.Type_
                    ∨ (j ≠ i
                      ∧ ¬ (n.Status = o.Status ∧ n.Reason = o.Reason ∧ n.Message = o.Message
                            ∧ n.LastTransitionTime = o.LastTransitionTime)))
              ∧ (j = i → status.Phase = c.Type_ →
                  r = false ∧ o = c ∧ n = { c with LastTransitionTime := now })) := by
  refine ⟨fun s => rfl, ?_, ?_⟩
  · rcases UpdateBackupCondition_cases k now status c with ⟨_, hold, hrun, _⟩
      | ⟨pre, o, post, _, _, _, hold, hphase, hrun, _⟩
      | ⟨pre, o, post, _, _, _, hold, hphase, hrun, hnew⟩
    · exact ⟨_, _, _, hrun, by simp [hold]⟩
    · exact ⟨_, _, _, hrun, by simp [hphase]⟩
    · refine ⟨_, _, _, hrun, ?_⟩
      rw [hold, hnew]
      simp only [Bool.not_eq_true', hphase, ne_eq, not_true_eq_false, false_or,
        Option.some.injEq, reduceCtorEq]
      constructor
      · intro hs
        refine ⟨o, _, rfl, rfl, ?_⟩
        rw [← sameCondition_iff, hs]
        decide
      · rintro ⟨o2, n2, ho2, hn2, hchanged⟩
        subst ho2
        subst hn2
        rw [← sameCondition_iff] at hchanged
        simpa using hchanged
  · intro i hi
    obtain ⟨pre, o, post, r, after, fin, post2, _, _, hold, hle, hoc, hrun, _, hlookup, _, _,
      _, _, _, hdiff, hfirst, hlater⟩ := UpdateBackupCondition_stored_summary k now status i c hi
    refine ⟨r, after, fin, pre.length, o, fin, hrun, hold, by rw [hlookup], ?_, ?_⟩
    · by_cases hphase : status.Phase = c.Type_
      · rcases Nat.eq_or_lt_of_le hle with heq | hlt
        · rw [(hfirst hphase heq).1]
          simp [hphase, heq]
        · obtain ⟨hr, hfin⟩ := hlater hphase hlt
          rw [hr, hfin, ← sameCondition_iff]
          have hne : pre.length ≠ i := by omega
          simp [hphase, hne]
      · rw [(hdiff hphase).1]
        simp [hphase]
    · intro heq hphase
      exact ⟨(hfirst hphase heq).1, hoc heq, (hfirst hphase heq).2⟩

/-- C27: after `UpdateBackupCondition(status, c)` on a non-nil status and condition, be the
condition apart from the status or a slot of `status.Conditions`, the lookup
`GetBackupCondition(status, c.Type)` returns a non-negative index and a condition whose
`Type`, `Status`, `Reason` and `Message` are those of `c`; and `GetBackupCondition`
returns `(-1, nil)` for a nil status or when no condition has the requested type, and
otherwise the index of the first condition of that type, with that condition. -/
theorem GetBackupCondition_after_update (k : Consts) (now : Nat) (status : BackupStatus)
    (c : BackupCondition) (conditionType : String) :
    (∃ r status2 c2 n, ∃ i : Nat,
        UpdateBackupCondition k now (some status) (.fresh c) = some (r, some status2, some c2)
          ∧ GetBackupCondition (some status2) c.Type_ = ((i : Int), some n)
          ∧ n.Type_ = c.Type_ ∧ n.Status = c.Status ∧ n.Reason = c.Reason
          ∧ n.Message = c.Message)
      ∧ (∀ slot : Nat, status.Conditions[slot]? = some c →
          ∃ r status2 c2 n, ∃ i : Nat,
            UpdateBackupCondition k now (some status) (.stored slot)
                = some (r, some status2, some c2)
              ∧ GetBackupCondition (some status2) c.Type_ = ((i : Int), some n)
              ∧ n.Type_ = c.Type_ ∧ n.Status = c.Status ∧ n.Reason = c.Reason
              ∧ n.Message = c.Message)
      ∧ GetBackupCondition none conditionType = (-1, none)
      ∧ ((∀ x ∈ status.Conditions, x.Type_ ≠ conditionType) →
          GetBackupCondition (some status) conditionType = (-1, none))
      ∧ ((∃ x ∈ status.Conditions, x.Type_ = conditionType) →
          ∃ pre o post, status.Conditions = pre ++ o :: post
            ∧ (∀ x ∈ pre, x.Type_ ≠ conditionType) ∧ o.Type_ = conditionType
            ∧ GetBackupCondition (some status) conditionType
              = (((pre.length : Nat) : Int), some o)) := by
  have hkeep : ∀ o : BackupCondition,
      (keepTransitionTime (stampNow now c) o).Type_ = c.Type_
        ∧ (keepTransitionTime (stampNow now c) o).Status = c.Status
        ∧ (keepTransitionTime (stampNow now c) o).Reason = c.Reason
        ∧ (keepTransitionTime (stampNow now c) o).Message = c.Message := by
    intro o
    unfold keepTransitionTime stampNow
    split_ifs <;> exact ⟨rfl, rfl, rfl, rfl⟩
  refine ⟨?_, ?_, rfl, ?_, ?_⟩
  · rcases UpdateBackupCondition_cases k now status c with ⟨_, _, hrun, hnew⟩
      | ⟨pre, o, post, _, _, _, _, _, hrun, hnew⟩
      | ⟨pre, o, post, _, _, _, _, _, hrun, hnew⟩
    · exact ⟨_, _, _, _, _, hrun, hnew, rfl, rfl, rfl, rfl⟩
    · exact ⟨_, _, _, _, _, hrun, hnew, rfl, rfl, rfl, rfl⟩
    · exact ⟨_, _, _, _, _, hrun, hnew, hkeep o⟩
  · intro slot hslot
    obtain ⟨pre, o, post, r, after, fin, post2, _, _, _, _, _, hrun, _, hlookup, hfields, _⟩ :=
      UpdateBackupCondition_stored_summary k now status slot c hslot
    exact ⟨r, after, fin, fin, pre.length, hrun, hlookup, hfields⟩
  · intro hall
    rcases findBackupCondition_spec conditionType status.Conditions 0 with ⟨_, hres⟩
      | ⟨pre, o, post, hsplit, _, ho, _⟩
    · exact hres
    · exact absurd ho (hall o (by simp [hsplit]))
  · rintro ⟨x, hx, hxt⟩
    rcases findBackupCondition_spec conditionType status.Conditions 0 with ⟨hall, _⟩
      | ⟨pre, o, post, hsplit, hpre, ho, hres⟩
    · exact absurd hxt (hall x hx)
    · exact ⟨pre, o, post, hsplit, hpre, ho, by simpa [GetBackupCondition] using hres⟩

/-- C28, as stated, fails: the phase is `Running`, a `Scheduled` condition with `Status`
`True` is stored with transition time 1, and a `Scheduled` condition with the same `Status`
is passed in at instant 9.  The stored transition time becomes 9; it is not kept. -/
theorem UpdateBackupCondition_transition_time_counterexample :
    (GetBackupCondition (some (sampleStatus "Running" [sampleCondition "Scheduled" "True" 1]))
        "Scheduled").2 = some (sampleCondition "Scheduled" "True" 1)
      ∧ (sampleCondition "Scheduled" "True" 0).Status = (sampleCondition "Scheduled" "True" 1).Status
      ∧ UpdateBackupCondition sampleConsts 9
          (some (sampleStatus "Running" [sampleCondition "Scheduled" "True" 1]))
          (.fresh (sampleCondition "Scheduled" "True" 0))
        = some (true, some (sampleStatus "Scheduled" [sampleCondition "Scheduled" "True" 9]),
            some (sampleCondition "Scheduled" "True" 9))
      ∧ (GetBackupCondition (some (sampleStatus "Scheduled" [sampleCondition "Scheduled" "True" 9]))
          "Scheduled").2 = some (sampleCondition "Scheduled" "True" 9) := by
  decide

/-- C28, amended: `UpdateBackupCondition` sets the stored condition's `LastTransitionTime`
to the current time when the condition is newly added, or `status.Phase` differed from
the type of the condition, or its `Status` differs from the previously stored condition of
that type, or `condition` points to that stored condition itself (line 135 writes through
the pointer); otherwise (the phase is the type, the `Status` is that of the stored
condition, and `condition` is not the stored condition itself) it keeps the previously
stored `LastTransitionTime`.  The stored condition of a type is the first one of that type
in `status.Conditions`. -/
theorem UpdateBackupCondition_transition_time (k : Consts) (now : Nat) (status : BackupStatus)
    (c : BackupCondition) :
    (∃ r status2 c2 n, UpdateBackupCondition k now (some status) (.fresh c)
          = some (r, some status2, some c2)
      ∧ (GetBackupCondition (some status2) c.Type_).2 = some n
      ∧ c2 = n
      ∧ ((GetBackupCondition (some status) c.Type_).2 = none → n.LastTransitionTime = now)
      ∧ (status.Phase ≠ c.Type_ → n.LastTransitionTime = now)
      ∧ (∀ o, (GetBackupCondition (some status) c.Type_).2 = some o → o.Status ≠ c.Status →
          n.LastTransitionTime = now)
      ∧ (∀ o, (GetBackupCondition (some status) c.Type_).2 = some o → status.Phase = c.Type_ →
          o.Status = c.Status → n.LastTransitionTime = o.LastTransitionTime))
      ∧ (∀ i : Nat, status.Conditions[i]? = some c →
          ∃ (r : Bool) (status2 : BackupStatus) (c2 : BackupCondition) (j : Nat)
              (o n : BackupCondition),
            UpdateBackupCondition k now (some status) (.stored i)
                = some (r, some status2, some c2)
              ∧ GetBackupCondition (some status) c.Type_ = ((j : Int), some o)
              ∧ (GetBackupCondition (some status2) c.Type_).2 = some n
              ∧ c2 = n
              ∧ (status.Phase ≠ c.Type_ → n.LastTransitionTime = now)
              ∧ (j = i → n.LastTransitionTime = now)
              ∧ (o.Status ≠ c.Status → n.LastTransitionTime = now)
              ∧ (status.Phase = c.Type_ → j ≠ i → o.Status = c.Status →
                  n.LastTransitionTime = o.LastTransitionTime)) := by
  refine ⟨?_, ?_⟩
  · rcases UpdateBackupCondition_cases k now status c with ⟨_, hold, hrun, hnew⟩
      | ⟨pre, o, post, _, _, _, hold, hphase, hrun, hnew⟩
      | ⟨pre, o, post, _, _, _, hold, hphase, hrun, hnew⟩
    · refine ⟨_, _, _, _, hrun, by rw [hnew], rfl, fun _ => rfl, fun _ => rfl,
        fun _ _ _ => rfl, ?_⟩
      intro o2 ho2
      rw [hold] at ho2
      simp at ho2
    · refine ⟨_, _, _, _, hrun, by rw [hnew], rfl, fun _ => rfl, fun _ => rfl,
        fun _ _ _ => rfl, ?_⟩
      intro o2 _ hp
      exact absurd hp hphase
    · refine ⟨_, _, _, _, hrun, by rw [hnew], rfl, ?_, ?_, ?_, ?_⟩
      · intro hnone
        rw [hold] at hnone
        simp at hnone
      · intro hp
        exact absurd hphase hp
      · intro o2 ho2 hst
        rw [hold] at ho2
        simp only [Option.some.injEq] at ho2
        subst ho2
        have : ¬ c.Status = o.Status := fun h => hst h.symm
        simp [keepTransitionTime, this, stampNow]
      · intro o2 ho2 _ hst
        rw [hold] at ho2
        simp only [Option.some.injEq] at ho2
        subst ho2
        have : c.Status = o.Status := hst.symm
        simp [keepTransitionTime, this, stampNow]
  · intro i hi
    obtain ⟨pre, o, post, r, after, fin, post2, _, _, hold, hle, hoc, hrun, _, hlookup, _, _,
      _, _, _, hdiff, hfirst, hlater⟩ := UpdateBackupCondition_stored_summary k now status i c hi
    have hstamp : (stampNow now c).LastTransitionTime = now := rfl
    refine ⟨r, after, fin, pre.length, o, fin, hrun, hold, by rw [hlookup], rfl, ?_, ?_, ?_, ?_⟩
    · intro hphase
      rw [(hdiff hphase).2]
      rfl
    · intro heq
      by_cases hphase : status.Phase = c.Type_
      · rw [(hfirst hphase heq).2]
        rfl
      · rw [(hdiff hphase).2]
        rfl
    · intro hst
      by_cases hphase : status.Phase = c.Type_
      · rcases Nat.eq_or_lt_of_le hle with heq | hlt
        · rw [(hfirst hphase heq).2]
          rfl
        · rw [(hlater hphase hlt).2]
          have : ¬ c.Status = o.Status := fun h => hst h.symm
          simp [keepTransitionTime, this, stampNow]
      · rw [(hdiff hphase).2]
        rfl
    · intro hphase hne hst
      have hlt : pre.length < i := by omega
      rw [(hlater hphase hlt).2]
      have : c.Status = o.Status := hst.symm
      simp [keepTransitionTime, this, stampNow]

/-- C29 fails on the code for the log subcommand `log-pause`: the log-mode backup `demo`
gets the job name `backup-demo-log-pause`, which is not among the three names that
`GetAllLogBackupJobName` returns.  The second half of the claim holds: a backup that is
not in log mode gets the job name `backup-` followed by its name. -/
theorem GetBackupJobName_pause_not_listed :
    (sampleBackup "log" "log-pause").Spec.Mode = sampleConsts.BackupModeLog
      ∧ ParseLogBackupSubcommand sampleConsts (sampleBackup "log" "log-pause") = "log-pause"
      ∧ (sampleBackup "log" "log-pause").GetBackupJobName sampleConsts = "backup-demo-log-pause"
      ∧ (sampleBackup "log" "log-pause").GetAllLogBackupJobName sampleConsts
        = ["backup-demo-log-start", "backup-demo-log-stop", "backup-demo-log-truncate"]
      ∧ (sampleBackup "log" "log-pause").GetBackupJobName sampleConsts
        ∉ (sampleBackup "log" "log-pause").GetAllLogBackupJobName sampleConsts
      ∧ (∀ (k : Consts) (bk : Backup), bk.Spec.Mode ≠ k.BackupModeLog →
          bk.GetBackupJobName k = "backup-" ++ bk.Name) := by
  refine ⟨by decide, by decide, by decide, by decide, by decide, ?_⟩
  intro k bk hmode
  have hne : (bk.Spec.Mode != k.BackupModeLog) = true := by simpa using hmode
  simp [Backup.GetBackupJobName, ParseLogBackupSubcommand, hne]

/-- C30: `GetCleanOption` returns the default option (`PageSize` 10000, `RetryCount` 5,
`BatchConcurrency` 10, `RoutineConcurrency` 100) when `Spec.CleanOption` is nil; otherwise
it returns the option of the spec in which each of `PageSize`, `RetryCount`,
`BatchConcurrency` and `RoutineConcurrency` is replaced by its default exactly when it is
`<= 0`, every other field being unchanged; in every case those four fields of the result
are strictly positive and the backup, `Spec.CleanOption` included, is not modified. -/
theorem GetCleanOption_spec (bk : Backup) :
    (bk.Spec.CleanOption = none →
        bk.GetCleanOption.1 = defaultCleanOption
          ∧ bk.GetCleanOption.1.PageSize = 10000
          ∧ bk.GetCleanOption.1.RetryCount = 5
          ∧ bk.GetCleanOption.1.BatchDeleteOption.BatchConcurrency = 10
          ∧ bk.GetCleanOption.1.BatchDeleteOption.RoutineConcurrency = 100)
      ∧ (∀ opt, bk.Spec.CleanOption = some opt →
          bk.GetCleanOption.1.PageSize = (if opt.PageSize ≤ 0 then 10000 else opt.PageSize)
            ∧ bk.GetCleanOption.1.RetryCount
              = (if opt.RetryCount ≤ 0 then 5 else opt.RetryCount)
            ∧ bk.GetCleanOption.1.BatchDeleteOption.BatchConcurrency
              = (if opt.BatchDeleteOption.BatchConcurrency ≤ 0 then 10
                  else opt.BatchDeleteOption.BatchConcurrency)
            ∧ bk.GetCleanOption.1.BatchDeleteOption.RoutineConcurrency
              = (if opt.BatchDeleteOption.RoutineConcurrency ≤ 0 then 100
                  else opt.BatchDeleteOption.RoutineConcurrency)
            ∧ bk.GetCleanOption.1.BatchDeleteOption.Rest = opt.BatchDeleteOption.Rest
            ∧ bk.GetCleanOption.1.Rest = opt.Rest)
      ∧ 0 < bk.GetCleanOption.1.PageSize
      ∧ 0 < bk.GetCleanOption.1.RetryCount
      ∧ 0 < bk.GetCleanOption.1.BatchDeleteOption.BatchConcurrency
      ∧ 0 < bk.GetCleanOption.1.BatchDeleteOption.RoutineConcurrency
      ∧ bk.GetCleanOption.2 = bk := by
  unfold Backup.GetCleanOption
  cases hopt : bk.Spec.CleanOption with
  | none =>
    simp [defaultCleanOption, DefaultBatchDeleteOption]
  | some opt =>
    simp only [reduceCtorEq, false_implies, true_and, Option.some.injEq, forall_eq',
      defaultCleanOption, DefaultBatchDeleteOption]
    by_cases h1 : opt.PageSize ≤ 0 <;> by_cases h2 : opt.RetryCount ≤ 0 <;>
      by_cases h3 : opt.BatchDeleteOption.BatchConcurrency ≤ 0 <;>
      by_cases h4 : opt.BatchDeleteOption.RoutineConcurrency ≤ 0 <;>
      simp [h1, h2, h3, h4] <;> omega

/-- C30 at a concrete input: a clean option with page size 0, retry count 3, batch
concurrency -1 and routine concurrency 7. -/
theorem GetCleanOption_spec_witness :
    sampleCleanBackup.GetCleanOption.1.PageSize = 10000
      ∧ sampleCleanBackup.GetCleanOption.1.RetryCount = 3
      ∧ sampleCleanBackup.GetCleanOption.1.BatchDeleteOption.BatchConcurrency = 10
      ∧ sampleCleanBackup.GetCleanOption.1.BatchDeleteOption.RoutineConcurrency = 7 :=
  have key := (GetCleanOption_spec sampleCleanBackup).2.1 _ rfl
  ⟨key.1, key.2.1, key.2.2.1, key.2.2.2.1⟩

/-! ### `ParseLogBackupSubcommand` -/

/-- The value of `subCommand` after the `switch` of lines 333-353, case by case. -/
theorem baseLogSubcommand_spec (k : Consts) (backup : Backup) (hk : k.distinctCommands)
    (hmode : backup.Spec.Mode = k.BackupModeLog) :
    (backup.Spec.LogSubcommand ∉ ["", k.LogStartCommand, k.LogStopCommand, k.LogPauseCommand]
        → baseLogSubcommand k backup = none)
      ∧ ∀ c, specBaseCommand k backup c → baseLogSubcommand k backup = some c := by
  obtain ⟨h1, _⟩ := hk
  simp only [List.nodup_cons, List.mem_cons, List.mem_singleton, List.not_mem_nil, not_or,
    List.nodup_nil, and_true, or_false, not_false_eq_true] at h1
  obtain ⟨⟨e1, e2, e3⟩, ⟨s1, s2⟩, p1⟩ := h1
  refine ⟨?_, ?_⟩
  · intro hnot
    simp only [List.mem_cons, List.mem_singleton, List.not_mem_nil, not_or, or_false] at hnot
    simp [baseLogSubcommand, hnot.1, hnot.2.1, hnot.2.2.1, hnot.2.2.2]
  · intro c hc
    rcases hc with ⟨hsub, hc⟩ | ⟨hsub, hc⟩ | ⟨hsub, hc⟩ | ⟨hsub, hc⟩
    · subst hc
      simp only [baseLogSubcommand, hsub, if_true, IsLogBackupAlreadyStop, hmode,
        beq_self_eq_true, Bool.true_and, Bool.or_eq_true, beq_iff_eq]
      split_ifs <;> rfl
    · subst hc
      have hne : ¬ k.LogStartCommand = "" := fun h => e1 h.symm
      simp only [baseLogSubcommand, hsub, hne, if_false, if_true, IsLogBackupAlreadyPaused,
        hmode, beq_self_eq_true, Bool.true_and, beq_iff_eq]
      split_ifs <;> rfl
    · subst hc
      have hne : ¬ k.LogStopCommand = "" := fun h => e2 h.symm
      have hne2 : ¬ k.LogStopCommand = k.LogStartCommand := fun h => s1 h.symm
      simp [baseLogSubcommand, hsub, hne, hne2]
    · subst hc
      have hne : ¬ k.LogPauseCommand = "" := fun h => e3 h.symm
      have hne2 : ¬ k.LogPauseCommand = k.LogStartCommand := fun h => s2 h.symm
      have hne3 : ¬ k.LogPauseCommand = k.LogStopCommand := fun h => p1 h.symm
      simp [baseLogSubcommand, hsub, hne, hne2, hne3]

/-- The base command is one of start, stop, pause and resume. -/
theorem specBaseCommand_mem (k : Consts) (backup : Backup) (c : String)
    (hc : specBaseCommand k backup c) :
    c ∈ [k.LogStartCommand, k.LogStopCommand, k.LogPauseCommand, k.LogResumeCommand] := by
  rcases hc with ⟨_, hc⟩ | ⟨_, hc⟩ | ⟨_, hc⟩ | ⟨_, hc⟩
  · subst hc
    split_ifs <;> simp
  · subst hc
    split_ifs <;> simp
  · subst hc
    simp
  · subst hc
    simp

/-- C31: the command constants being pairwise distinct as the `switch` statements of the
file require, `ParseLogBackupSubcommand` returns `""` for every backup not in log mode and
`LogUnknownCommand` for a log-mode backup whose `LogSubcommand` is none of `""`, start,
stop, pause; otherwise a base command `c` exists (empty subcommand: stop if `Spec.LogStop`
or the phase is `Stopped`, else start; start: resume if the phase is `Paused`, else start;
stop: stop; pause: pause), and the function returns `LogTruncateCommand` if and only if
`IsLogSubcommandAlreadySync(backup, c)` holds and `Spec.LogTruncateUntil` is non-empty and
differs from `Status.LogSuccessTruncateUntil`, and returns `c` otherwise. -/
theorem ParseLogBackupSubcommand_spec (k : Consts) (backup : Backup)
    (hk : k.distinctCommands) :
    (backup.Spec.Mode ≠ k.BackupModeLog → ParseLogBackupSubcommand k backup = "")
      ∧ (backup.Spec.Mode = k.BackupModeLog →
          backup.Spec.LogSubcommand
            ∉ ["", k.LogStartCommand, k.LogStopCommand, k.LogPauseCommand] →
          ParseLogBackupSubcommand k backup = k.LogUnknownCommand)
      ∧ (backup.Spec.Mode = k.BackupModeLog →
          backup.Spec.LogSubcommand
            ∈ ["", k.LogStartCommand, k.LogStopCommand, k.LogPauseCommand] →
          ∃ c, specBaseCommand k backup c)
      ∧ (backup.Spec.Mode = k.BackupModeLog → ∀ c, specBaseCommand k backup c →
          (ParseLogBackupSubcommand k backup = k.LogTruncateCommand
              ↔ specTruncatePending k backup c)
            ∧ (¬ specTruncatePending k backup c → ParseLogBackupSubcommand k backup = c)) := by
  refine ⟨?_, ?_, ?_, ?_⟩
  · intro hmode
    simp [ParseLogBackupSubcommand, hmode]
  · intro hmode hnot
    have hb := (baseLogSubcommand_spec k backup hk hmode).1 hnot
    simp [ParseLogBackupSubcommand, hmode, hb]
  · intro _ hmem
    simp only [List.mem_cons, List.mem_singleton, List.not_mem_nil, or_false] at hmem
    rcases hmem with hs | hs | hs | hs
    · exact ⟨_, Or.inl ⟨hs, rfl⟩⟩
    · exact ⟨_, Or.inr (Or.inl ⟨hs, rfl⟩)⟩
    · exact ⟨_, Or.inr (Or.inr (Or.inl ⟨hs, rfl⟩))⟩
    · exact ⟨_, Or.inr (Or.inr (Or.inr ⟨hs, rfl⟩))⟩
  · intro hmode c hc
    have hb := (baseLogSubcommand_spec k backup hk hmode).2 c hc
    have hmem := specBaseCommand_mem k backup c hc
    have hct : c ≠ k.LogTruncateCommand := by
      intro hct
      subst hct
      obtain ⟨_, h2⟩ := hk
      simp only [List.nodup_cons, List.mem_cons, List.mem_singleton, List.not_mem_nil,
        not_or, List.nodup_nil, and_true, or_false, not_false_eq_true] at h2
      simp only [List.mem_cons, List.mem_singleton, List.not_mem_nil, or_false] at hmem
      obtain ⟨⟨_, _, _, a1⟩, ⟨_, _, a2⟩, ⟨_, a3⟩, a4⟩ := h2
      rcases hmem with hm | hm | hm | hm
      · exact a1 hm.symm
      · exact a2 hm.symm
      · exact a3 hm.symm
      · exact a4 hm.symm
    have hparse : ParseLogBackupSubcommand k backup
        = if specTruncatePending k backup c then k.LogTruncateCommand else c := by
      simp only [ParseLogBackupSubcommand, hmode, bne_self_eq_false, Bool.false_eq_true,
        if_false, hb, specTruncatePending]
      by_cases hp : IsLogSubcommandAlreadySync k backup c = true
          ∧ backup.Spec.LogTruncateUntil ≠ ""
          ∧ backup.Spec.LogTruncateUntil ≠ backup.Status.LogSuccessTruncateUntil
      · rw [if_pos hp, if_pos]
        simpa [and_assoc] using hp
      · rw [if_neg hp, if_neg]
        simpa [and_assoc] using hp
    rw [hparse]
    refine ⟨?_, ?_⟩
    · constructor
      · intro heq
        by_contra hp
        rw [if_neg hp] at heq
        exact hct heq
      · intro hp
        rw [if_pos hp]
    · intro hp
      rw [if_neg hp]

/-- C31 at a concrete input: a started log backup with an empty subcommand, asked to
truncate until `100` and truncated until `50`, is parsed as the truncate command. -/
theorem ParseLogBackupSubcommand_spec_witness :
    ParseLogBackupSubcommand sampleConsts (sampleLogBackup "" "Running" "100" "50")
      = "log-truncate" :=
  (((ParseLogBackupSubcommand_spec sampleConsts (sampleLogBackup "" "Running" "100" "50")
    (by decide)).2.2.2 rfl "log-start" (by decide)).1).mpr (by decide)

/-! ### One condition per type -/

/-- The conditions after a call with a status and a condition: the call returns, the
condition it stores has the type of the one passed in, and it is either appended (no
condition of the type was stored) or written over the first stored condition of the
type. -/
theorem UpdateBackupCondition_conditions (k : Consts) (now : Nat) (status : BackupStatus)
    (c : BackupCondition) :
    ∃ (b : Bool) (after : BackupStatus) (stored : BackupCondition),
      UpdateBackupCondition k now (some status) (.fresh c) = some (b, some after, some stored)
        ∧ stored.Type_ = c.Type_
        ∧ (((∀ x ∈ status.Conditions, x.Type_ ≠ c.Type_)
              ∧ after.Conditions = status.Conditions ++ [stored])
            ∨ ∃ pre o post, status.Conditions = pre ++ o :: post ∧ o.Type_ = c.Type_
                ∧ after.Conditions = pre ++ stored :: post) := by
  have hkeep : ∀ o : BackupCondition, (keepTransitionTime (stampNow now c) o).Type_ = c.Type_ := by
    intro o
    unfold keepTransitionTime stampNow
    split_ifs <;> rfl
  rcases UpdateBackupCondition_cases k now status c with ⟨hall, _, hrun, _⟩
    | ⟨pre, o, post, hsplit, _, ho, _, _, hrun, _⟩
    | ⟨pre, o, post, hsplit, _, ho, _, _, hrun, _⟩
  · exact ⟨_, _, _, hrun, rfl, Or.inl ⟨hall, rfl⟩⟩
  · exact ⟨_, _, _, hrun, rfl, Or.inr ⟨pre, o, post, hsplit, ho, rfl⟩⟩
  · exact ⟨_, _, _, hrun, hkeep o, Or.inr ⟨pre, o, post, hsplit, ho, rfl⟩⟩

/-- Reading a slot of a list split at an element, after that element is replaced by one
that the reader would not pick either. -/
theorem getElem?_replace_other (pre post : List BackupCondition) (o stored x : BackupCondition)
    (i : Nat) (hx : (pre ++ o :: post)[i]? = some x) (hne : x ≠ o) :
    (pre ++ stored :: post)[i]? = some x := by
  rcases Nat.lt_trichotomy i pre.length with hlt | heq | hgt
  · rw [List.getElem?_append_left hlt] at hx
    rw [List.getElem?_append_left hlt]
    exact hx
  · subst heq
    rw [List.getElem?_append_right (Nat.le_refl _)] at hx
    simp only [Nat.sub_self, List.getElem?_cons_zero, Option.some.injEq] at hx
    exact absurd hx.symm hne
  · have hle : pre.length ≤ i := by omega
    rw [List.getElem?_append_right hle] at hx ⊢
    obtain ⟨j, hj⟩ : ∃ j, i - pre.length = j + 1 := ⟨i - pre.length - 1, by omega⟩
    rw [hj] at hx ⊢
    simpa using hx

/-- C34: a call of `UpdateBackupCondition` with a status and a condition returns and keeps
the invariant that the status holds at most one condition per type: if the types in
`status.Conditions` are pairwise distinct before the call they are pairwise distinct after
it; the number of conditions grows by exactly one when no condition of the given type was
stored and is unchanged when one was; every condition of another type stays in its slot,
and no condition of another type is added.  With a nil condition the status is left as it
is.  The same holds when `condition` points to a slot of `status.Conditions`: a condition of
its type is stored then, and the number of conditions is unchanged. -/
theorem UpdateBackupCondition_one_per_type (k : Consts) (now : Nat) (status : BackupStatus)
    (c : BackupCondition) :
    (∃ (b : Bool) (after : BackupStatus) (stored : BackupCondition),
      UpdateBackupCondition k now (some status) (.fresh c) = some (b, some after, some stored)
        ∧ (status.Conditions.Pairwise (fun x y => x.Type_ ≠ y.Type_)
            → after.Conditions.Pairwise (fun x y => x.Type_ ≠ y.Type_))
        ∧ ((∀ x ∈ status.Conditions, x.Type_ ≠ c.Type_)
            → after.Conditions.length = status.Conditions.length + 1)
        ∧ ((∃ x ∈ status.Conditions, x.Type_ = c.Type_)
            → after.Conditions.length = status.Conditions.length)
        ∧ (∀ (i : Nat) (x : BackupCondition), status.Conditions[i]? = some x →
            x.Type_ ≠ c.Type_ → after.Conditions[i]? = some x)
        ∧ (∀ x ∈ after.Conditions, x.Type_ ≠ c.Type_ → x ∈ status.Conditions))
      ∧ UpdateBackupCondition k now (some status) .nil = some (false, some status, none)
      ∧ (∀ slot : Nat, status.Conditions[slot]? = some c →
          ∃ (b : Bool) (after : BackupStatus) (stored : BackupCondition),
            UpdateBackupCondition k now (some status) (.stored slot)
                = some (b, some after, some stored)
              ∧ (status.Conditions.Pairwise (fun x y => x.Type_ ≠ y.Type_)
                  → after.Conditions.Pairwise (fun x y => x.Type_ ≠ y.Type_))
              ∧ after.Conditions.length = status.Conditions.length
              ∧ (∀ (i : Nat) (x : BackupCondition), status.Conditions[i]? = some x →
                  x.Type_ ≠ c.Type_ → after.Conditions[i]? = some x)
              ∧ (∀ x ∈ after.Conditions, x.Type_ ≠ c.Type_ → x ∈ status.Conditions)) := by
  refine ⟨?_, rfl, ?_⟩
  rotate_left
  · intro slot hslot
    obtain ⟨pre, o, post, r, after, fin, post2, hsplit, ho, _, _, _, hrun, hafter, _, hfields,
      hlen, hmap, hslotl, hmemb, _⟩ :=
      UpdateBackupCondition_stored_summary k now status slot c hslot
    refine ⟨r, after, fin, hrun, ?_, ?_, ?_, ?_⟩
    · intro hpw
      have hmapall : after.Conditions.map (fun x => x.Type_)
          = status.Conditions.map (fun x => x.Type_) := by
        rw [hafter, hsplit]
        simp [hmap, hfields.1, ho]
      have h1 : (status.Conditions.map (fun x => x.Type_)).Pairwise (fun a b => a ≠ b) :=
        List.pairwise_map.mpr hpw
      rw [← hmapall] at h1
      exact List.pairwise_map.mp h1
    · rw [hafter, hsplit]
      simp [hlen]
    · intro i x hx hxt
      rw [hafter]
      rw [hsplit] at hx
      exact getElem?_replace_tail pre post post2 o fin x c.Type_ i ho hslotl hx hxt
    · intro x hx hxt
      rw [hafter] at hx
      rw [hsplit]
      simp only [List.mem_append, List.mem_cons] at hx ⊢
      rcases hx with hx | hx | hx
      · exact Or.inl hx
      · subst hx
        exact absurd hfields.1 hxt
      · exact Or.inr (Or.inr (hmemb x hx hxt))
  obtain ⟨b, after, stored, hrun, htype, hcond⟩ :=
    UpdateBackupCondition_conditions k now status c
  refine ⟨b, after, stored, hrun, ?_⟩
  rcases hcond with ⟨hall, hafter⟩ | ⟨pre, o, post, hsplit, ho, hafter⟩
  · rw [hafter]
    refine ⟨?_, ?_, ?_, ?_, ?_⟩
    · intro hpw
      rw [List.pairwise_append]
      refine ⟨hpw, List.pairwise_singleton _ _, ?_⟩
      intro x hx y hy
      rw [List.mem_singleton] at hy
      subst hy
      rw [htype]
      exact hall x hx
    · intro _
      simp
    · rintro ⟨x, hx, hxt⟩
      exact absurd hxt (hall x hx)
    · intro i x hx _
      have hlt : i < status.Conditions.length := by
        by_contra hge
        rw [List.getElem?_eq_none (by omega)] at hx
        exact Option.noConfusion hx
      rw [List.getElem?_append_left hlt]
      exact hx
    · intro x hx hxt
      rcases List.mem_append.mp hx with hx | hx
      · exact hx
      · rw [List.mem_singleton] at hx
        subst hx
        exact absurd htype hxt
  · rw [hafter, hsplit]
    refine ⟨?_, ?_, ?_, ?_, ?_⟩
    · intro hpw
      have hmap : (pre ++ stored :: post).map (fun x => x.Type_)
          = (pre ++ o :: post).map (fun x => x.Type_) := by
        simp [htype, ho]
      have h1 : ((pre ++ o :: post).map (fun x => x.Type_)).Pairwise (fun a b => a ≠ b) :=
        List.pairwise_map.mpr hpw
      rw [← hmap] at h1
      exact List.pairwise_map.mp h1
    · intro hall
      exact absurd ho (hall o (by simp))
    · intro _
      simp
    · intro i x hx hxt
      refine getElem?_replace_other pre post o stored x i hx ?_
      intro hxo
      subst hxo
      exact hxt ho
    · intro x hx hxt
      simp only [List.mem_append, List.mem_cons] at hx ⊢
      rcases hx with hx | hx | hx
      · exact Or.inl hx
      · subst hx
        exact absurd htype hxt
      · exact Or.inr (Or.inr hx)

end v1alpha1
